import Mathlib

/-!
# Rotating file sink (`logfile.go`)

A shallow embedding of `FileWriter` from `logfile.go`: its rotation decision
(`checkFileWithData`, `checkFileWithString`), `newFile`, `makeDir`, `Init`,
`save`, and the entry points `Write`, `WriteString`, `Save`; and of the leveled
methods and `SetLevel` of `Logger` from `log.go`.

The operating system (`os.MkdirAll`, `os.OpenFile`, `(*os.File).Write`,
`Close`, `Sync`), the buffered writer of package `bufio` and package `time`
are not part of the repository.  The file system is an explicit `World` whose
I/O outcomes are read from a script, `bufio.Writer` is transcribed from the Go
standard library, and `time.Parse` / `Time.Format` are parameters (`TimeLib`).

Go's `int` is 64 bits wide; the integers of the sink are byte counts and
rotation counts, which stay far below `2^63`, so they are unbounded `Int`s.
The mutex only serialises calls, so a run is a sequence of calls.
-/

namespace LogFile

/-- A byte string: a Go `string`, or the visible part of a `[]byte`. -/
abbrev Bytes := List UInt8

/-- A Go `[]byte`: the `len` visible elements and the elements of the backing
array between `len` and `cap`. -/
structure GoSlice where
  elems : Bytes
  spare : Bytes
deriving DecidableEq

/-- The capacity `cap(data)`. -/
def GoSlice.cap (p : GoSlice) : Nat := p.elems.length + p.spare.length

/-- The slice expression `data[lo:hi]` on a `[]byte`: in range when
`0 <= lo <= hi <= cap(data)`; `none` is the run-time panic. -/
def sliceBytes (data : GoSlice) (lo hi : Int) : Option Bytes :=
  if 0 ≤ lo ∧ lo ≤ hi ∧ hi ≤ (data.cap : Int) then
    some (((data.elems ++ data.spare).drop lo.toNat).take (hi - lo).toNat)
  else none

/-- The slice expression `str[lo:hi]` on a string: in range when
`0 <= lo <= hi <= len(str)`; `none` is the run-time panic. -/
def sliceString (str : Bytes) (lo hi : Int) : Option Bytes :=
  if 0 ≤ lo ∧ lo ≤ hi ∧ hi ≤ (str.length : Int) then
    some ((str.drop lo.toNat).take (hi - lo).toNat)
  else none

/-- Package `time`, as far as the sink uses it: `time.Parse(layout, value)`
(`none` is a parse error) and `t.Format(layout)`. -/
structure TimeLib (Time : Type) where
  parse : String → Bytes → Option Time
  format : Time → String → String

/-- The error values that occur. -/
inductive GoErr
  | invalid
  | closed
  | shortWrite
  | io
  | mkdir
  | openf
  | parse
deriving DecidableEq, Repr

/-- The two run-time panics that occur. -/
inductive Panic
  | sliceBounds
  | nilDeref
deriving DecidableEq, Repr

/-- One scripted outcome of a system call: success, or failure (for a write,
after `k` bytes). -/
inductive Resp
  | ok
  | fail (k : Nat)
deriving DecidableEq, Repr

/-- One `*os.File` obtained from `os.OpenFile`: its path, whether it is still
open, and the bytes appended through it. -/
structure FileRec where
  path : String
  isOpen : Bool
  appended : Bytes
deriving DecidableEq

/-- The file system as seen by the sink: the script of outcomes still to come
(exhausted means success), every file handle ever opened (a handle is its
index), the directories created, and the number of `Sync` calls issued. -/
structure World where
  oracle : List Resp
  handles : List FileRec
  dirs : List String
  syncs : Nat
deriving DecidableEq

/-- Take the next scripted outcome. -/
def popResp (w : World) : Resp × World :=
  match w.oracle with
  | [] => (Resp.ok, w)
  | r :: rs => (r, { w with oracle := rs })

/-- Replace the element at index `i`. -/
def updateAt {α : Type} (f : α → α) : Nat → List α → List α
  | _, [] => []
  | 0, x :: xs => f x :: xs
  | i + 1, x :: xs => x :: updateAt f i xs

/-- The call `os.MkdirAll(path, 0777)`. -/
def mkdirAll (w : World) (path : String) : Option GoErr × World :=
  match popResp w with
  | (Resp.ok, w1) => (none, { w1 with dirs := w1.dirs ++ [path] })
  | (Resp.fail _, w1) => (some GoErr.mkdir, w1)

/-- The call `os.OpenFile(path, O_APPEND|O_CREATE|O_WRONLY, 0666)`: a fresh
handle, or an error. -/
def openFile (w : World) (path : String) : Option Nat × World :=
  match popResp w with
  | (Resp.ok, w1) =>
      (some w1.handles.length, { w1 with handles := w1.handles ++ [⟨path, true, []⟩] })
  | (Resp.fail _, w1) => (none, w1)

/-- The call `f.Close()` on a non-nil file; its result is discarded by the sink. -/
def closeFile (w : World) (h : Nat) : World :=
  { w with handles := updateAt (fun f => { f with isOpen := false }) h w.handles }

/-- The call `f.Sync()` on a non-nil file; its result is discarded by the sink. -/
def syncFile (w : World) (_h : Nat) : World :=
  { w with syncs := w.syncs + 1 }

/-- The call `f.Write(p)` on a non-nil `*os.File`: on a closed file nothing is
written; otherwise all of `p` is appended, or a prefix of it with an error. -/
def fileWrite (w : World) (h : Nat) (p : Bytes) : Nat × Option GoErr × World :=
  match w.handles.get? h with
  | none => (0, some GoErr.invalid, w)
  | some f =>
    if f.isOpen then
      match popResp w with
      | (Resp.ok, w1) =>
          (p.length, none,
            { w1 with handles := updateAt (fun g => { g with appended := g.appended ++ p }) h w1.handles })
      | (Resp.fail k, w1) =>
          (min k p.length, some GoErr.io,
            { w1 with handles :=
                updateAt (fun g => { g with appended := g.appended ++ p.take k }) h w1.handles })
    else (0, some GoErr.closed, w)

/-- The call `f.Write(p)` on a possibly nil `*os.File`: a nil file gives
`ErrInvalid`. -/
def fileWriteNil (w : World) (f : Option Nat) (p : Bytes) : Nat × Option GoErr × World :=
  match f with
  | none => (0, some GoErr.invalid, w)
  | some h => fileWrite w h p

/-- The default buffer size of `bufio.NewWriter`. -/
def bufSize : Nat := 4096

/-- A `bufio.Writer`: the file it wraps, the buffered bytes `buf[0:n]`, and its
sticky error. -/
structure BufWriter where
  wr : Nat
  buf : Bytes
  err : Option GoErr
deriving DecidableEq

/-- The method `b.Available()`. -/
def BufWriter.available (b : BufWriter) : Nat := bufSize - b.buf.length

/-- The method `b.Flush()` of `bufio.Writer`. -/
def bufFlush (b : BufWriter) (w : World) : BufWriter × World :=
  if b.err ≠ none then (b, w)
  else if b.buf.length = 0 then (b, w)
  else
    match fileWrite w b.wr b.buf with
    | (n, e, w1) =>
      let e1 := if n < b.buf.length ∧ e = none then some GoErr.shortWrite else e
      match e1 with
      | some err => ({ b with buf := b.buf.drop n, err := some err }, w1)
      | none => ({ b with buf := [] }, w1)

/-- The loop of `b.Write(p)` of `bufio.Writer`, `fuel` iterations at most;
the state is the writer, the world, the rest of `p` and the count `nn`. -/
def bufWriteLoop : Nat → BufWriter → World → Bytes → Nat → BufWriter × World × Bytes × Nat
  | 0, b, w, p, nn => (b, w, p, nn)
  | fuel + 1, b, w, p, nn =>
    if p.length > b.available ∧ b.err = none then
      if b.buf.length = 0 then
        match fileWrite w b.wr p with
        | (n, e, w1) => bufWriteLoop fuel { b with err := e } w1 (p.drop n) (nn + n)
      else
        let n := min b.available p.length
        match bufFlush { b with buf := b.buf ++ p.take n } w with
        | (b1, w1) => bufWriteLoop fuel b1 w1 (p.drop n) (nn + n)
    else (b, w, p, nn)

/-- The method `b.Write(p)` of `bufio.Writer`: returns the writer, the world,
the count and the error.  Two iterations of the loop always suffice
(`bufWriteLoop_exit`). -/
def bufWrite (b : BufWriter) (w : World) (p : Bytes) : BufWriter × World × Nat × Option GoErr :=
  match bufWriteLoop 2 b w p 0 with
  | (b1, w1, p1, nn) =>
    match b1.err with
    | some e => (b1, w1, nn, some e)
    | none => ({ b1 with buf := b1.buf ++ p1 }, w1, nn + p1.length, none)

/-- The call `f.WriteString(s)` on a non-nil `*os.File`, which is `f.Write` on
the bytes of `s`. -/
def fileWriteString (w : World) (h : Nat) (s : Bytes) : Nat × Option GoErr × World :=
  fileWrite w h s

/-- The call `f.WriteString(s)` on a possibly nil `*os.File`. -/
def fileWriteStringNil (w : World) (f : Option Nat) (s : Bytes) : Nat × Option GoErr × World :=
  match f with
  | none => (0, some GoErr.invalid, w)
  | some h => fileWriteString w h s

/-- The loop of `b.WriteString(s)` of `bufio.Writer`.  The wrapped writer is an
`*os.File`, which is an `io.StringWriter`, so `tryStringWriter` stays true and
a large string on an empty buffer is forwarded to `f.WriteString`. -/
def bufWriteStringLoop :
    Nat → BufWriter → World → Bytes → Nat → BufWriter × World × Bytes × Nat
  | 0, b, w, s, nn => (b, w, s, nn)
  | fuel + 1, b, w, s, nn =>
    if s.length > b.available ∧ b.err = none then
      if b.buf.length = 0 then
        match fileWriteString w b.wr s with
        | (n, e, w1) => bufWriteStringLoop fuel { b with err := e } w1 (s.drop n) (nn + n)
      else
        let n := min b.available s.length
        match bufFlush { b with buf := b.buf ++ s.take n } w with
        | (b1, w1) => bufWriteStringLoop fuel b1 w1 (s.drop n) (nn + n)
    else (b, w, s, nn)

/-- The method `b.WriteString(s)` of `bufio.Writer`. -/
def bufWriteString (b : BufWriter) (w : World) (s : Bytes) :
    BufWriter × World × Nat × Option GoErr :=
  match bufWriteStringLoop 2 b w s 0 with
  | (b1, w1, s1, nn) =>
    match b1.err with
    | some e => (b1, w1, nn, some e)
    | none => ({ b1 with buf := b1.buf ++ s1 }, w1, nn + s1.length, none)

/-- The configuration fields of `FileWriter` (`SyncInterval` only sets the
period of the background flush and is left out). -/
structure Config where
  RootDir : String
  DirFormat : String
  FileFormat : String
  TimeBegin : Int
  TimePrefix : String
  MaxFileSize : Int
  SaveEach : Bool
  EnableBufio : Bool
deriving DecidableEq

/-- The private fields of `FileWriter`; `flushLoops` counts the background
goroutines launched by `Init`. -/
structure Sink where
  inited : Bool
  currdir : String
  currfile : String
  currFileSize : Int
  currFileIdx : Int
  logfile : Option Nat
  filewriter : Option BufWriter
  flushLoops : Nat
deriving DecidableEq

/-- A sink together with the file system it writes to. -/
structure State where
  sink : Sink
  world : World
deriving DecidableEq

/-- The zero value of `FileWriter`'s private fields. -/
def Sink.fresh : Sink :=
  { inited := false, currdir := "", currfile := "", currFileSize := 0, currFileIdx := 0,
    logfile := none, filewriter := none, flushLoops := 0 }

/-- A freshly constructed sink over a file system with the given script. -/
def State.fresh (oracle : List Resp) : State :=
  { sink := Sink.fresh, world := { oracle := oracle, handles := [], dirs := [], syncs := 0 } }

/-- Left-pad a digit string with zeros to the given width. -/
def zeroPad (width : Nat) (digits : String) : String :=
  String.mk (List.replicate (width - digits.length) '0') ++ digits

/-- The verb `%04d` of `fmt.Sprintf` on an `int`. -/
def fmt04d (i : Int) : String :=
  if i < 0 then "-" ++ zeroPad 3 (Nat.repr i.natAbs) else zeroPad 4 (Nat.repr i.toNat)

/-- The value of `fmt.Sprintf("%s%s.%04d", currdir, filename, idx)`. -/
def sprintfPath (currdir filename : String) (idx : Int) : String :=
  currdir ++ filename ++ "." ++ fmt04d idx

/-- The method `makeDir`. -/
def makeDir (path : String) (w : World) : Option GoErr × World :=
  mkdirAll w path

/-- The method `newFile`. -/
def newFile (cfg : Config) (path : String) (st : State) : Option GoErr × State :=
  let s0 : Sink := { st.sink with logfile := none, filewriter := none }
  match openFile st.world path with
  | (some file, w1) =>
    let s1 : Sink := { s0 with logfile := some file }
    let s2 : Sink :=
      if cfg.EnableBufio then
        match s1.filewriter with
        | none => { s1 with filewriter := some ⟨file, [], none⟩ }
        | some b => { s1 with filewriter := some { b with wr := file, buf := [], err := none } }
      else s1
    (none, ⟨s2, w1⟩)
  | (none, w1) => (some GoErr.openf, ⟨s0, w1⟩)

/-- The directory of a time: `RootDir`, followed by `now.Format(DirFormat)`
when `DirFormat` is not empty (lines 124 to 127, and 243 to 246 in `Init`). -/
def dirPath {Time : Type} (cfg : Config) (tl : TimeLib Time) (now : Time) : String :=
  if cfg.DirFormat ≠ "" then cfg.RootDir ++ tl.format now cfg.DirFormat else cfg.RootDir

/-- The candidate path of lines 133 to 137. -/
def candidatePath (currdir filename : String) (idx : Int) : String :=
  if idx = 0 then currdir ++ filename else sprintfPath currdir filename idx

/-- Lines 145 to 147: close the open file, if there is one. -/
def closeLog (s : Sink) (w : World) : World :=
  match s.logfile with
  | some h => closeFile w h
  | none => w

/-- The method `Init`. -/
def Init {Time : Type} (cfg : Config) (tl : TimeLib Time) (now : Time) (st : State) : State :=
  if !st.sink.inited then
    let s1 : Sink := { st.sink with inited := true }
    let currdir := dirPath cfg tl now
    match makeDir currdir st.world with
    | (_, w1) =>
      if !cfg.SaveEach && cfg.EnableBufio then
        ⟨{ s1 with flushLoops := s1.flushLoops + 1 }, w1⟩
      else ⟨s1, w1⟩
  else st

/-- Lines 118 to 163 of `checkFileWithData` (the same text as lines 184 to 229
of `checkFileWithString`): everything after the time `now` is known; `len` is
`len(data)`. -/
def rotateData {Time : Type} (cfg : Config) (tl : TimeLib Time) (now : Time) (len : Nat)
    (st : State) : Bool × State :=
  let filename := tl.format now cfg.FileFormat
  let st1 := if !st.sink.inited then Init cfg tl now st else st
  let currdir := dirPath cfg tl now
  let r2 : Option GoErr × State :=
    if st1.sink.currdir ≠ currdir then
      match makeDir currdir st1.world with
      | (e, w1) => (e, ⟨{ st1.sink with currdir := currdir }, w1⟩)
    else (none, st1)
  let err2 := r2.1
  let st2 := r2.2
  let currfile := candidatePath currdir filename st2.sink.currFileIdx
  if st2.sink.currfile ≠ currfile then
    let s3 : Sink := { st2.sink with currFileIdx := 0, currFileSize := 0, currfile := currfile }
    let w3 := closeLog s3 st2.world
    match newFile cfg s3.currfile ⟨s3, w3⟩ with
    | (e, st4) => (decide (e = none), st4)
  else if cfg.MaxFileSize > 0 ∧ st2.sink.currFileSize + (len : Int) > cfg.MaxFileSize then
    let idx := st2.sink.currFileIdx + 1
    let s3 : Sink :=
      { st2.sink with currFileIdx := idx, currFileSize := 0,
                      currfile := sprintfPath currdir filename idx }
    let w3 := closeLog s3 st2.world
    match newFile cfg s3.currfile ⟨s3, w3⟩ with
    | (e, st4) => (decide (e = none), st4)
  else (decide (err2 = none), st2)

/-- Lines 184 to 229 of `checkFileWithString`; `len` is `len(str)`. -/
def rotateString {Time : Type} (cfg : Config) (tl : TimeLib Time) (now : Time) (len : Nat)
    (st : State) : Bool × State :=
  let filename := tl.format now cfg.FileFormat
  let st1 := if !st.sink.inited then Init cfg tl now st else st
  let currdir := dirPath cfg tl now
  let r2 : Option GoErr × State :=
    if st1.sink.currdir ≠ currdir then
      match makeDir currdir st1.world with
      | (e, w1) => (e, ⟨{ st1.sink with currdir := currdir }, w1⟩)
    else (none, st1)
  let err2 := r2.1
  let st2 := r2.2
  let currfile := candidatePath currdir filename st2.sink.currFileIdx
  if st2.sink.currfile ≠ currfile then
    let s3 : Sink := { st2.sink with currFileIdx := 0, currFileSize := 0, currfile := currfile }
    let w3 := closeLog s3 st2.world
    match newFile cfg s3.currfile ⟨s3, w3⟩ with
    | (e, st4) => (decide (e = none), st4)
  else if cfg.MaxFileSize > 0 ∧ st2.sink.currFileSize + (len : Int) > cfg.MaxFileSize then
    let idx := st2.sink.currFileIdx + 1
    let s3 : Sink :=
      { st2.sink with currFileIdx := idx, currFileSize := 0,
                      currfile := sprintfPath currdir filename idx }
    let w3 := closeLog s3 st2.world
    match newFile cfg s3.currfile ⟨s3, w3⟩ with
    | (e, st4) => (decide (e = none), st4)
  else (decide (err2 = none), st2)

/-- The length `len(w.TimePrefix)` in bytes. -/
def Config.prefixLen (cfg : Config) : Int := (cfg.TimePrefix.utf8ByteSize : Int)

/-- The result of the first step of the rotation check: the slice expression
panicked, `time.Parse` failed, or the time to use. -/
inductive TimeStep (Time : Type)
  | panicked
  | parseFailed
  | at (now : Time)
deriving DecidableEq

/-- Lines 108 to 116 of `checkFileWithData`; `clock` is what `time.Now()`
returns.  On a parse failure the message slices `data[:len(w.TimePrefix)]`,
which is in range whenever the first slice was. -/
def timeOfData {Time : Type} (cfg : Config) (tl : TimeLib Time) (clock : Time)
    (data : GoSlice) : TimeStep Time :=
  if cfg.TimePrefix ≠ "" then
    match sliceBytes data cfg.TimeBegin (cfg.TimeBegin + cfg.prefixLen) with
    | none => TimeStep.panicked
    | some sub =>
      match tl.parse cfg.TimePrefix sub with
      | none => TimeStep.parseFailed
      | some now => TimeStep.at now
  else TimeStep.at clock

/-- Lines 174 to 182 of `checkFileWithString`. -/
def timeOfString {Time : Type} (cfg : Config) (tl : TimeLib Time) (clock : Time)
    (str : Bytes) : TimeStep Time :=
  if cfg.TimePrefix ≠ "" then
    match sliceString str cfg.TimeBegin (cfg.TimeBegin + cfg.prefixLen) with
    | none => TimeStep.panicked
    | some sub =>
      match tl.parse cfg.TimePrefix sub with
      | none => TimeStep.parseFailed
      | some now => TimeStep.at now
  else TimeStep.at clock

/-- The method `checkFileWithData`; `none` is a run-time panic, raised before
any field is assigned. -/
def checkFileWithData {Time : Type} (cfg : Config) (tl : TimeLib Time) (clock : Time)
    (data : GoSlice) (st : State) : Option (Bool × State) :=
  match timeOfData cfg tl clock data with
  | TimeStep.panicked => none
  | TimeStep.parseFailed => some (false, st)
  | TimeStep.at now => some (rotateData cfg tl now data.elems.length st)

/-- The method `checkFileWithString`; `none` is a run-time panic, raised before
any field is assigned. -/
def checkFileWithString {Time : Type} (cfg : Config) (tl : TimeLib Time) (clock : Time)
    (str : Bytes) (st : State) : Option (Bool × State) :=
  match timeOfString cfg tl clock str with
  | TimeStep.panicked => none
  | TimeStep.parseFailed => some (false, st)
  | TimeStep.at now => some (rotateString cfg tl now str.length st)

/-- The method `save`. -/
def save (cfg : Config) (st : State) : State :=
  if cfg.EnableBufio then
    match st.sink.filewriter with
    | some b =>
      match bufFlush b st.world with
      | (b1, w1) => ⟨{ st.sink with filewriter := some b1 }, w1⟩
    | none => st
  else
    match st.sink.logfile with
    | some h => ⟨st.sink, syncFile st.world h⟩
    | none => st

/-- The method `Save` (`save` under the lock). -/
def Save (cfg : Config) (st : State) : State := save cfg st

/-- How a call of `Write` or `WriteString` ends: it returns `(n, err)`, or it
panics. -/
inductive Outcome
  | ret (n : Nat) (err : Option GoErr)
  | panic (p : Panic)
deriving DecidableEq, Repr

/-- Lines 40 to 52 of `Write`: the write of `p` after the rotation check, which
left the state `st`.  A nil `filewriter` is dereferenced by `bufio`'s `Write`. -/
def writeTail (cfg : Config) (p : Bytes) (st : State) : Outcome × State :=
  let r : Option (Nat × Option GoErr × State) :=
    if cfg.EnableBufio then
      match st.sink.filewriter with
      | none => none
      | some b =>
        match bufWrite b st.world p with
        | (b1, w1, n, e) => some (n, e, ⟨{ st.sink with filewriter := some b1 }, w1⟩)
    else
      match fileWriteNil st.world st.sink.logfile p with
      | (n, e, w1) => some (n, e, ⟨st.sink, w1⟩)
  match r with
  | none => (Outcome.panic Panic.nilDeref, st)
  | some (n, e, st1) =>
    let st2 : State :=
      ⟨{ st1.sink with currFileSize := st1.sink.currFileSize + (n : Int) }, st1.world⟩
    let st3 := if cfg.SaveEach then save cfg st2 else st2
    (Outcome.ret n e, st3)

/-- Lines 59 to 71 of `WriteString`: the write of `str` after the rotation
check, which left the state `st`.  A nil `filewriter` is dereferenced by
`bufio`'s `WriteString`. -/
def writeTailString (cfg : Config) (str : Bytes) (st : State) : Outcome × State :=
  let r : Option (Nat × Option GoErr × State) :=
    if cfg.EnableBufio then
      match st.sink.filewriter with
      | none => none
      | some b =>
        match bufWriteString b st.world str with
        | (b1, w1, n, e) => some (n, e, ⟨{ st.sink with filewriter := some b1 }, w1⟩)
    else
      match fileWriteStringNil st.world st.sink.logfile str with
      | (n, e, w1) => some (n, e, ⟨st.sink, w1⟩)
  match r with
  | none => (Outcome.panic Panic.nilDeref, st)
  | some (n, e, st1) =>
    let st2 : State :=
      ⟨{ st1.sink with currFileSize := st1.sink.currFileSize + (n : Int) }, st1.world⟩
    let st3 := if cfg.SaveEach then save cfg st2 else st2
    (Outcome.ret n e, st3)

/-- The method `Write`: the result of `checkFileWithData` is discarded. -/
def Write {Time : Type} (cfg : Config) (tl : TimeLib Time) (clock : Time) (p : GoSlice)
    (st : State) : Outcome × State :=
  match checkFileWithData cfg tl clock p st with
  | none => (Outcome.panic Panic.sliceBounds, st)
  | some (_, st1) => writeTail cfg p.elems st1

/-- The method `WriteString`: the result of `checkFileWithString` is discarded. -/
def WriteString {Time : Type} (cfg : Config) (tl : TimeLib Time) (clock : Time) (str : Bytes)
    (st : State) : Outcome × State :=
  match checkFileWithString cfg tl clock str st with
  | none => (Outcome.panic Panic.sliceBounds, st)
  | some (_, st1) => writeTailString cfg str st1

/-- One call on the sink, with the clock reading at the time of the call. -/
inductive Op (Time : Type)
  | write (clock : Time) (p : GoSlice)
  | writeString (clock : Time) (str : Bytes)
  | save
  | init (now : Time)

/-- The state after one call; a panic leaves the state as it was when the
panic was raised. -/
def step {Time : Type} (cfg : Config) (tl : TimeLib Time) (st : State) : Op Time → State
  | Op.write clock p => (Write cfg tl clock p st).2
  | Op.writeString clock str => (WriteString cfg tl clock str st).2
  | Op.save => Save cfg st
  | Op.init now => Init cfg tl now st

/-- The state after a sequence of calls. -/
def run {Time : Type} (cfg : Config) (tl : TimeLib Time) (st : State) (ops : List (Op Time)) :
    State :=
  ops.foldl (step cfg tl) st

/-- For every handle ever opened, whether it is still open. -/
def World.openFlags (w : World) : List Bool := w.handles.map FileRec.isOpen

/-- The handle `h` is open: it was opened and has not been closed. -/
def World.isOpenAt (w : World) (h : Nat) : Prop := w.openFlags.get? h = some true

/-- The bytes appended through handle `h`. -/
def World.appendedAt (w : World) (h : Nat) : Bytes :=
  match w.handles.get? h with
  | some f => f.appended
  | none => []

/-- Every scripted outcome still to come is a success. -/
def World.allOk (w : World) : Prop := ∀ r ∈ w.oracle, r = Resp.ok

/-- A calendar day, the `Time` of the sample library. -/
structure Day where
  year : Nat
  month : Nat
  day : Nat
deriving DecidableEq, Repr

/-- The value of an ASCII digit. -/
def digitVal (b : UInt8) : Option Nat :=
  if 48 ≤ b.toNat ∧ b.toNat ≤ 57 then some (b.toNat - 48) else none

/-- Sample `time.Parse`, for the layout `2006-01-02` only: ten bytes
`YYYY-MM-DD` with a month in 1..12 and a day in 1..28. -/
def dayParse (layout : String) (v : Bytes) : Option Day :=
  if layout = "2006-01-02" then
    match v with
    | [y1, y2, y3, y4, s1, m1, m2, s2, d1, d2] =>
      match digitVal y1, digitVal y2, digitVal y3, digitVal y4,
            digitVal m1, digitVal m2, digitVal d1, digitVal d2 with
      | some a, some b, some c, some d, some e, some f, some g, some h =>
        let month := 10 * e + f
        let day := 10 * g + h
        if s1 = 45 ∧ s2 = 45 ∧ 1 ≤ month ∧ month ≤ 12 ∧ 1 ≤ day ∧ day ≤ 28 then
          some ⟨1000 * a + 100 * b + 10 * c + d, month, day⟩
        else none
      | _, _, _, _, _, _, _, _ => none
    | _ => none
  else none

/-- Sample `Time.Format`, for the layout `2006-01-02` only. -/
def dayFormat (t : Day) (layout : String) : String :=
  if layout = "2006-01-02" then
    zeroPad 4 (Nat.repr t.year) ++ "-" ++ zeroPad 2 (Nat.repr t.month) ++ "-"
      ++ zeroPad 2 (Nat.repr t.day)
  else layout

/-- The sample time library. -/
def dayLib : TimeLib Day := ⟨dayParse, dayFormat⟩

/-- The bytes of an ASCII string literal. -/
def ascii (s : String) : Bytes := s.toList.map (fun c => UInt8.ofNat c.toNat)

/-- A `[]byte` without spare capacity. -/
def GoSlice.ofBytes (b : Bytes) : GoSlice := ⟨b, []⟩

/-- Sample configuration: files named by day under `logs/`, no sub-directory,
`MaxFileSize = 100`, no flush on each write; `stamped` configures the
timestamp extractor `2006-01-02` at offset 0. -/
def dayCfg (buffered : Bool) (stamped : Bool) : Config :=
  { RootDir := "logs/", DirFormat := "", FileFormat := "2006-01-02", TimeBegin := 0,
    TimePrefix := if stamped then "2006-01-02" else "", MaxFileSize := 100,
    SaveEach := false, EnableBufio := buffered }

/-- The day 2024-01-01. -/
def jan1 : Day := ⟨2024, 1, 1⟩

/-- The day 2024-01-02. -/
def jan2 : Day := ⟨2024, 1, 2⟩

/-- A payload of 60 bytes. -/
def sixty : GoSlice := ⟨List.replicate 60 65, []⟩

/-- A payload that starts with a timestamp. -/
def stampedLine : GoSlice := GoSlice.ofBytes (ascii "2024-01-01 up")

/-- A payload of the same length without a timestamp. -/
def unstampedLine : GoSlice := GoSlice.ofBytes (ascii "no timestamp!")

/-- An unbuffered sink with a timestamp extractor after one stamped line. -/
def afterStampedLine : State :=
  (Write (dayCfg false true) dayLib jan1 stampedLine (State.fresh [])).2

/-- A script in which the two directory creations of a first write succeed and
the file open fails. -/
def openFails : List Resp := [Resp.ok, Resp.ok, Resp.fail 0]

/-- An unbuffered sink after a first write whose file open failed. -/
def afterFailedOpen : State :=
  (Write (dayCfg false false) dayLib jan1 sixty (State.fresh openFails)).2

/-- A four-byte slice whose backing array continues with the rest of a line. -/
def shortSlice : GoSlice := ⟨ascii "2024", ascii "-01-01 rest"⟩

/-- Lines 120 to 131, the part of the rotation check before the candidate path:
`Init` on first use, then the directory. -/
def prepDir {Time : Type} (cfg : Config) (tl : TimeLib Time) (now : Time) (st : State) :
    Option GoErr × State :=
  let st1 := if !st.sink.inited then Init cfg tl now st else st
  if st1.sink.currdir ≠ dirPath cfg tl now then
    match makeDir (dirPath cfg tl now) st1.world with
    | (e, w1) => (e, ⟨{ st1.sink with currdir := dirPath cfg tl now }, w1⟩)
  else (none, st1)

/-- Lines 145 to 149 (and 156 to 160): close the open file and open the new
current file. -/
def reopen (cfg : Config) (s : Sink) (w : World) : Bool × State :=
  match newFile cfg s.currfile ⟨s, closeLog s w⟩ with
  | (e, st4) => (decide (e = none), st4)

/-- Every open handle is the sink's `logfile`. -/
def State.OwnsOpen (st : State) : Prop :=
  ∀ h, st.world.isOpenAt h → st.sink.logfile = some h

/-- Lines 40 to 44: the write itself; `none` is the nil dereference of a nil
`filewriter`. -/
def writeCore (cfg : Config) (p : Bytes) (st : State) : Option (Nat × Option GoErr × State) :=
  if cfg.EnableBufio then
    match st.sink.filewriter with
    | none => none
    | some b =>
      match bufWrite b st.world p with
      | (b1, w1, n, e) => some (n, e, ⟨{ st.sink with filewriter := some b1 }, w1⟩)
  else
    match fileWriteNil st.world st.sink.logfile p with
    | (n, e, w1) => some (n, e, ⟨st.sink, w1⟩)

/-- The sink is writing to the open handle `h`, whose writer (if any) has no
error, every I/O call to come succeeds, and the bytes accepted for `h` (those
that reached the file followed by those still buffered) are `acc`. -/
def State.Holding (cfg : Config) (st : State) (h : Nat) (acc : Bytes) : Prop :=
  st.world.allOk ∧ st.sink.logfile = some h ∧ st.world.isOpenAt h ∧
    if cfg.EnableBufio then
      ∃ buf, st.sink.filewriter = some ⟨h, buf, none⟩ ∧ st.world.appendedAt h ++ buf = acc
    else st.world.appendedAt h = acc

/-- What C3 says of the result `r` of a write of `len` bytes to the state `st`
that rolls over by size within directory `dir` and bucket `bucket`. -/
def RolledOver (dir bucket : String) (st : State) (len : Nat) (r : Outcome × State) : Prop :=
  r.1 = Outcome.ret len none ∧
  r.2.sink.currfile = dir ++ bucket ++ "." ++ fmt04d (st.sink.currFileIdx + 1) ∧
  r.2.sink.currFileIdx = st.sink.currFileIdx + 1 ∧
  r.2.sink.currFileSize = (len : Int) ∧
  r.2.world.handles.map FileRec.path = st.world.handles.map FileRec.path ++ [r.2.sink.currfile] ∧
  (st.sink.currFileIdx = 0 → r.2.sink.currfile = dir ++ bucket ++ ".0001")

/-- The payload of a call. -/
def Op.payload {Time : Type} : Op Time → Bytes
  | Op.write _ p => p.elems
  | Op.writeString _ str => str
  | Op.save => []
  | Op.init _ => []

/-- The call is a `Write` or `WriteString` whose time step yields a time of
directory `dir` and bucket file name `bucket`. -/
def Op.WritesTo {Time : Type} (cfg : Config) (tl : TimeLib Time) (dir bucket : String) :
    Op Time → Prop
  | Op.write clock p =>
      ∃ now, timeOfData cfg tl clock p = TimeStep.at now ∧ dirPath cfg tl now = dir ∧
        tl.format now cfg.FileFormat = bucket
  | Op.writeString clock str =>
      ∃ now, timeOfString cfg tl clock str = TimeStep.at now ∧ dirPath cfg tl now = dir ∧
        tl.format now cfg.FileFormat = bucket
  | Op.save => False
  | Op.init _ => False

/-- The concatenation of the payloads of a sequence of calls. -/
def payloads {Time : Type} (ops : List (Op Time)) : Bytes :=
  (ops.map Op.payload).flatten

/-- The sink writes to the index-0 file of `dir` and `bucket` through handle
`h`, has accepted `acc` for it, and `paths` are the paths opened so far. -/
def State.Steady (cfg : Config) (st : State) (dir bucket : String) (h : Nat) (acc : Bytes)
    (paths : List String) : Prop :=
  st.Holding cfg h acc ∧ st.sink.inited = true ∧ st.sink.currdir = dir ∧
  st.sink.currfile = dir ++ bucket ∧ st.sink.currFileIdx = 0 ∧
  st.sink.currFileSize = (acc.length : Int) ∧ st.world.handles.map FileRec.path = paths

/-- An unbuffered sink after a first write of 60 bytes on 2024-01-01. -/
def afterSixty : State :=
  (Write (dayCfg false false) dayLib jan1 sixty (State.fresh [])).2

/-- The unbuffered sink of the specification's scenario after its three writes:
60 bytes, 60 bytes the same day, 60 bytes the next day. -/
def afterNextDay : State :=
  run (dayCfg false false) dayLib (State.fresh [])
    [Op.write jan1 sixty, Op.write jan1 sixty, Op.write jan2 sixty]

/-- The state at line 124, after `Init` on first use (lines 120 to 122). -/
def atDirStep {Time : Type} (cfg : Config) (tl : TimeLib Time) (now : Time) (st : State) :
    State :=
  if !st.sink.inited then Init cfg tl now st else st

/-- The state at line 124 with `currdir` already the directory of `now` and the
script `rest`: what a failed directory creation leaves. -/
def dirStepFailed {Time : Type} (cfg : Config) (tl : TimeLib Time) (now : Time) (st : State)
    (rest : List Resp) : State :=
  ⟨{ (atDirStep cfg tl now st).sink with currdir := dirPath cfg tl now },
   { (atDirStep cfg tl now st).world with oracle := rest }⟩

/-- What C17 says of the result `r` of a write of `p` whose directory creation
failed, leaving `asIf` before the candidate path is computed: `currdir` is the
directory `dir`, the call goes on as it does from `asIf`, result `rAsIf`, and
when the candidate path `cand` differs from `currfile` and every further I/O
call succeeds, the file `cand` is opened and accepts the payload. -/
def NotAborted (cfg : Config) (dir cand : String) (asIf : State) (p : Bytes)
    (r rAsIf : Outcome × State) : Prop :=
  r = rAsIf ∧ r.2.sink.currdir = dir ∧
  (asIf.sink.currfile ≠ cand → asIf.world.allOk →
    r.1 = Outcome.ret p.length none ∧ r.2.sink.currfile = cand ∧
    r.2.world.handles.map FileRec.path = asIf.world.handles.map FileRec.path ++ [cand] ∧
    r.2.Holding cfg asIf.world.handles.length p)

/-- The count of launched flush loops agrees with the configuration: one loop
if the sink is initialised, buffered and does not flush on each write, none
otherwise. -/
def State.LoopOk (cfg : Config) (st : State) : Prop :=
  st.sink.flushLoops =
    if st.sink.inited = true ∧ cfg.EnableBufio = true ∧ cfg.SaveEach = false then 1 else 0

/-- Sample `Time.Format` for the layouts `2006-01/` (year and month, then a
slash) and `02` (day of the month). -/
def monthDayFormat (t : Day) (layout : String) : String :=
  if layout = "2006-01/" then
    zeroPad 4 (Nat.repr t.year) ++ "-" ++ zeroPad 2 (Nat.repr t.month) ++ "/"
  else if layout = "02" then zeroPad 2 (Nat.repr t.day)
  else layout

/-- The sample time library with a directory per month and a file per day of
the month. -/
def monthDayLib : TimeLib Day := ⟨dayParse, monthDayFormat⟩

/-- Sample configuration: a directory per month under `logs/`, files named by
the day of the month, `MaxFileSize = 100`, unbuffered, wall-clock time. -/
def monthCfg : Config :=
  { RootDir := "logs/", DirFormat := "2006-01/", FileFormat := "02", TimeBegin := 0,
    TimePrefix := "", MaxFileSize := 100, SaveEach := false, EnableBufio := false }

/-- The day 2024-01-05. -/
def jan5 : Day := ⟨2024, 1, 5⟩

/-- The day 2024-02-05. -/
def feb5 : Day := ⟨2024, 2, 5⟩

/-- The sink of `monthCfg` after 60 bytes and 60 more bytes on 2024-01-05: it
has rolled over to index 1. -/
def afterJanRollover : State :=
  run monthCfg monthDayLib (State.fresh []) [Op.write jan5 sixty, Op.write jan5 sixty]

/-- What holds of the rotation index in the result `r` of a write of `len`
bytes to `st`, where `cand` is the candidate path of the payload's directory
`dir`, its bucket file name `bucket` and the old index: 0 when the candidate
differs from `currfile`, in particular when the current file is the file of
another bucket in the same directory; old index + 1 when the candidate is
`currfile` and the size limit would be exceeded; unchanged otherwise. -/
def IndexRule (cfg : Config) (dir bucket : String) (st : State) (len : Nat)
    (r : Outcome × State) : Prop :=
  (st.sink.currfile ≠ candidatePath dir bucket st.sink.currFileIdx →
    r.2.sink.currFileIdx = 0) ∧
  (∀ other, st.sink.currfile = candidatePath dir other st.sink.currFileIdx →
    bucket ≠ other → r.2.sink.currFileIdx = 0) ∧
  (st.sink.currfile = candidatePath dir bucket st.sink.currFileIdx →
    (cfg.MaxFileSize > 0 ∧ st.sink.currFileSize + (len : Int) > cfg.MaxFileSize) →
    r.2.sink.currFileIdx = st.sink.currFileIdx + 1) ∧
  (st.sink.currfile = candidatePath dir bucket st.sink.currFileIdx →
    ¬ (cfg.MaxFileSize > 0 ∧ st.sink.currFileSize + (len : Int) > cfg.MaxFileSize) →
    r.2.sink.currFileIdx = st.sink.currFileIdx) ∧
  (0 ≤ st.sink.currFileIdx →
    (r.2.sink.currFileIdx = st.sink.currFileIdx + 1 ↔
      st.sink.currfile = candidatePath dir bucket st.sink.currFileIdx ∧
      cfg.MaxFileSize > 0 ∧ st.sink.currFileSize + (len : Int) > cfg.MaxFileSize))

/-- The bytes the sink has passed to its current file since it was opened:
through the buffered writer (those that reached the file, then those still in
the buffer) when buffered, directly otherwise; nothing without a file. -/
def State.accepted (cfg : Config) (st : State) : Bytes :=
  if cfg.EnableBufio then
    match st.sink.filewriter with
    | some b => st.world.appendedAt b.wr ++ b.buf
    | none => []
  else
    match st.sink.logfile with
    | some h => st.world.appendedAt h
    | none => []

/-- `currFileSize` is the number of bytes the sink has passed to its current
file since it was opened. -/
def State.Accounted (cfg : Config) (st : State) : Prop :=
  st.sink.currFileSize = ((st.accepted cfg).length : Int)

/-- Whether the rotation check, given the result of its timestamp step, takes
one of its two rotation branches (line 139 or line 150), which set
`currFileSize` to 0, close the open file and call `newFile`. -/
def rotates {Time : Type} (cfg : Config) (tl : TimeLib Time) (ts : TimeStep Time) (len : Nat)
    (st : State) : Bool :=
  match ts with
  | TimeStep.at now =>
      decide (st.sink.currfile ≠
        candidatePath (dirPath cfg tl now) (tl.format now cfg.FileFormat) st.sink.currFileIdx)
      || decide (cfg.MaxFileSize > 0 ∧ st.sink.currFileSize + (len : Int) > cfg.MaxFileSize)
  | TimeStep.parseFailed => false
  | TimeStep.panicked => false

/-- What holds of `currFileSize` in the result `r` of a write to `st`, where
`rot` tells whether the rotation check rotated: a call that returns the count
`n` leaves the count added to 0 after a rotation and to the old value
otherwise, and a new file has been opened only after a rotation. -/
def CountsFrom (rot : Bool) (st : State) (r : Outcome × State) : Prop :=
  (∀ n e, r.1 = Outcome.ret n e →
    r.2.sink.currFileSize = (if rot then 0 else st.sink.currFileSize) + (n : Int)) ∧
  (r.2.world.handles.length ≠ st.world.handles.length → rot = true)

/-- A script in which the I/O calls of a first write succeed and the next call
fails. -/
def secondOpenFails : List Resp := [Resp.ok, Resp.ok, Resp.ok, Resp.ok, Resp.fail 0]

/-- An unbuffered sink after a first write of 60 bytes, with a script whose
next outcome is a failure. -/
def beforeFailedRollover : State :=
  (Write (dayCfg false false) dayLib jan1 sixty (State.fresh secondOpenFails)).2

/-- What C15 says of the result `r` of a write of the oversized payload `p` to
`st`: one size rollover to the next index, which opened one new file, now the
current handle; all of `p`, and nothing else, passed to it; and `currFileSize`
above the limit. -/
def WrittenWhole (cfg : Config) (dir bucket : String) (st : State) (p : Bytes)
    (r : Outcome × State) : Prop :=
  RolledOver dir bucket st p.length r ∧
  r.2.sink.logfile = some st.world.handles.length ∧
  r.2.accepted cfg = p ∧
  r.2.sink.currFileSize > cfg.MaxFileSize

/-- The buffered sample configuration with `MaxFileSize = 10`. -/
def smallCfg : Config := { dayCfg true false with MaxFileSize := 10 }

/-- The sink of `smallCfg` after a first write of 13 bytes. -/
def afterSmallLine : State :=
  (Write smallCfg dayLib jan1 stampedLine (State.fresh [])).2

/-- A payload of 101 bytes, above the limit of the sample configurations. -/
def oversized : GoSlice := ⟨List.replicate 101 65, []⟩

/-- What holds of the result `r` of a write of the oversized payload `p` to
`st`, whose `currfile` is the candidate path of the payload's directory `dir`,
bucket file name `bucket` and the current index.  Whatever the I/O outcomes:
one size rollover, to the next index and the path with its suffix; no file but
that path is opened, and it is the current handle when one is open; a call
that returns the count `n` has passed the first `n` bytes of `p`, and nothing
else, to the new file and left `currFileSize = n`.  And a call that returns
without error has opened the file and written `p` whole (`WrittenWhole`). -/
def RotatedOnce (cfg : Config) (dir bucket : String) (st : State) (p : Bytes)
    (r : Outcome × State) : Prop :=
  r.2.sink.currFileIdx = st.sink.currFileIdx + 1 ∧
  r.2.sink.currfile = dir ++ bucket ++ "." ++ fmt04d (st.sink.currFileIdx + 1) ∧
  ((r.2.sink.logfile = none ∧
      r.2.world.handles.map FileRec.path = st.world.handles.map FileRec.path) ∨
    (r.2.sink.logfile = some st.world.handles.length ∧
      r.2.world.handles.map FileRec.path
        = st.world.handles.map FileRec.path ++ [r.2.sink.currfile])) ∧
  (∀ n e, r.1 = Outcome.ret n e →
    n ≤ p.length ∧ r.2.accepted cfg = p.take n ∧ r.2.sink.currFileSize = (n : Int)) ∧
  (∀ n, r.1 = Outcome.ret n none → WrittenWhole cfg dir bucket st p r)

end LogFile

/-! ## The leveled logger (`log.go`) -/

namespace LogFile

/-- The constant `LEVEL_DEBUG`. -/
def LEVEL_DEBUG : Int := 0

/-- The constant `LEVEL_INFO`. -/
def LEVEL_INFO : Int := 1

/-- The constant `LEVEL_WARN`. -/
def LEVEL_WARN : Int := 2

/-- The constant `LEVEL_ERROR`. -/
def LEVEL_ERROR : Int := 3

/-- The constant `LEVEL_PANIC`. -/
def LEVEL_PANIC : Int := 4

/-- The constant `LEVEL_FATAL`. -/
def LEVEL_FATAL : Int := 5

/-- The constant `LEVEL_NONE`. -/
def LEVEL_NONE : Int := 6

/-- The type `Logger` with a `Writer` and a `Formater` that are not nil, as
`NewLogger` builds it; `V` is the type of the variadic arguments.  The `Writer`
is represented by what has been written to it, one entry per call of its
`Write`. -/
structure Logger (V : Type) where
  Writer : List String
  depth : Int
  Level : Int
  Layout : String
  Formater : Int → String → V → String

/-- How a method of the logger ends: it returns, it panics with an error, or
the process exits with a status. -/
inductive LogEnd
  | returned
  | panicked (msg : String)
  | exited (status : Int)
deriving DecidableEq, Repr

/-- The call `fmt.Fprintln(logger.Writer, s)`: one write of `s` and a newline;
its result is discarded. -/
def Logger.fprintln {V : Type} (logger : Logger V) (s : String) : Logger V :=
  { logger with Writer := logger.Writer ++ [s ++ "\n"] }

/-- The method `Debug`. -/
def Logger.Debug {V : Type} (logger : Logger V) (format : String) (v : V) :
    LogEnd × Logger V :=
  if LEVEL_DEBUG ≥ logger.Level then
    (LogEnd.returned, logger.fprintln (logger.Formater LEVEL_DEBUG format v))
  else (LogEnd.returned, logger)

/-- The method `Info`. -/
def Logger.Info {V : Type} (logger : Logger V) (format : String) (v : V) :
    LogEnd × Logger V :=
  if LEVEL_INFO ≥ logger.Level then
    (LogEnd.returned, logger.fprintln (logger.Formater LEVEL_INFO format v))
  else (LogEnd.returned, logger)

/-- The method `Warn`. -/
def Logger.Warn {V : Type} (logger : Logger V) (format : String) (v : V) :
    LogEnd × Logger V :=
  if LEVEL_WARN ≥ logger.Level then
    (LogEnd.returned, logger.fprintln (logger.Formater LEVEL_WARN format v))
  else (LogEnd.returned, logger)

/-- The method `Error`. -/
def Logger.Error {V : Type} (logger : Logger V) (format : String) (v : V) :
    LogEnd × Logger V :=
  if LEVEL_ERROR ≥ logger.Level then
    (LogEnd.returned, logger.fprintln (logger.Formater LEVEL_ERROR format v))
  else (LogEnd.returned, logger)

/-- The method `Panic`. -/
def Logger.Panic {V : Type} (logger : Logger V) (format : String) (v : V) :
    LogEnd × Logger V :=
  if LEVEL_PANIC ≥ logger.Level then
    let s := logger.Formater LEVEL_PANIC format v
    (LogEnd.panicked s, logger.fprintln s)
  else (LogEnd.returned, logger)

/-- The method `Fatal`; it ends in `os.Exit(-1)`. -/
def Logger.Fatal {V : Type} (logger : Logger V) (format : String) (v : V) :
    LogEnd × Logger V :=
  if LEVEL_FATAL ≥ logger.Level then
    (LogEnd.exited (-1), logger.fprintln (logger.Formater LEVEL_FATAL format v))
  else (LogEnd.returned, logger)

/-- The method `SetLevel`; `log.Fatal` of the standard library prints and
calls `os.Exit(1)`. -/
def Logger.SetLevel {V : Type} (logger : Logger V) (level : Int) : LogEnd × Logger V :=
  if level ≥ 0 ∧ level ≤ LEVEL_NONE then
    (LogEnd.returned, { logger with Level := level })
  else (LogEnd.exited 1, logger)

/-- What C18 says of the result `r` of the method of level `lvl`, which ends
in `stop` when it writes: it writes the formatted line and a newline if
`lvl >= logger.Level`, and otherwise returns without any effect. -/
def Filters {V : Type} (lvl : Int) (stop : LogEnd) (logger : Logger V) (format : String)
    (v : V) (r : LogEnd × Logger V) : Prop :=
  (lvl ≥ logger.Level →
    r = (stop, { logger with Writer := logger.Writer ++ [logger.Formater lvl format v ++ "\n"] })) ∧
  (¬ lvl ≥ logger.Level → r = (LogEnd.returned, logger)) ∧
  (r.2.Writer ≠ logger.Writer ↔ lvl ≥ logger.Level)

/-- A logger that formats a message as its format string. -/
def plainLogger (level : Int) : Logger Unit :=
  { Writer := [], depth := 2, Level := level, Layout := "2006-01-02 15:04:05.000",
    Formater := fun _ format _ => format }

end LogFile

/-! ## Evaluations of the code -/

namespace LogFile

/-- C1: with a timestamp extractor and an open file, a payload whose
timestamp does not parse is written all the same: `Write` returns its length
and no error, and the bytes are appended to the current file. -/
theorem parse_failure_payload_written :
    timeOfData (dayCfg false true) dayLib jan1 unstampedLine = TimeStep.parseFailed ∧
    (Write (dayCfg false true) dayLib jan1 unstampedLine afterStampedLine).1
      = Outcome.ret 13 none ∧
    (Write (dayCfg false true) dayLib jan1 unstampedLine afterStampedLine).2.world.appendedAt 0
      = stampedLine.elems ++ unstampedLine.elems := by
  decide

/-- C2: the scenario of the specification (files by day, `MaxFileSize = 100`,
60 bytes, 60 bytes the same day, 60 bytes the next day): after the size
rollover to index 1 the write of the next day resets the index to 0 but opens
and writes `logs/2024-01-02.0001`, not `logs/2024-01-02`. -/
theorem bucket_change_keeps_stale_suffix :
    (run (dayCfg false false) dayLib (State.fresh [])
        [Op.write jan1 sixty, Op.write jan1 sixty]).sink.currfile = "logs/2024-01-01.0001" ∧
    (run (dayCfg false false) dayLib (State.fresh [])
        [Op.write jan1 sixty, Op.write jan1 sixty, Op.write jan2 sixty]).sink.currfile
      = "logs/2024-01-02.0001" ∧
    (run (dayCfg false false) dayLib (State.fresh [])
        [Op.write jan1 sixty, Op.write jan1 sixty, Op.write jan2 sixty]).sink.currFileIdx = 0 ∧
    (run (dayCfg false false) dayLib (State.fresh [])
        [Op.write jan1 sixty, Op.write jan1 sixty, Op.write jan2 sixty]).world.handles.map
          (fun f => (f.path, f.isOpen, f.appended.length))
      = [("logs/2024-01-01", false, 60), ("logs/2024-01-01.0001", false, 60),
         ("logs/2024-01-02.0001", true, 60)] := by
  decide

/-- C4: in buffered mode with every I/O call succeeding, two writes of 60
bytes of which the second rolls over by size, followed by `Save`: the first 60
bytes were still in the buffer when their file was closed and reach no file. -/
theorem rotation_drops_buffered_bytes :
    (run (dayCfg true false) dayLib (State.fresh [])
        [Op.write jan1 sixty, Op.write jan1 sixty, Op.save]).world.handles.map
          (fun f => (f.path, f.isOpen, f.appended.length))
      = [("logs/2024-01-01", false, 0), ("logs/2024-01-01.0001", true, 60)] := by
  decide

/-- C5: in buffered mode a first write whose file open fails panics with a
nil dereference, where the unbuffered sink returns an error. -/
theorem failed_open_panics_when_buffered :
    (Write (dayCfg true false) dayLib jan1 sixty (State.fresh openFails)).1
      = Outcome.panic Panic.nilDeref ∧
    (Write (dayCfg false false) dayLib jan1 sixty (State.fresh openFails)).1
      = Outcome.ret 0 (some GoErr.invalid) := by
  decide

/-- C6, counterexample: after a write whose open of `logs/2024-01-01` failed,
a second write to the same day, with every further I/O call succeeding, opens
no file: it returns an error and the payload is written nowhere. -/
theorem failed_open_not_retried :
    afterFailedOpen.sink.currfile = "logs/2024-01-01" ∧
    afterFailedOpen.sink.logfile = none ∧
    afterFailedOpen.world.oracle = [] ∧
    (Write (dayCfg false false) dayLib jan1 sixty afterFailedOpen).1
      = Outcome.ret 0 (some GoErr.invalid) ∧
    (Write (dayCfg false false) dayLib jan1 sixty afterFailedOpen).2.world.handles = [] := by
  decide

/-- C7, counterexample: a slice of 4 bytes, shorter than the 10 bytes of the
extractor range but with the rest of the line within its capacity: `Write`
parses the bytes past the length, returns without error, writes the payload
and changes `currfile`. -/
theorem short_slice_with_capacity_written :
    (shortSlice.elems.length : Int)
      < (dayCfg false true).TimeBegin + (dayCfg false true).prefixLen ∧
    (Write (dayCfg false true) dayLib jan1 shortSlice (State.fresh [])).1
      = Outcome.ret 4 none ∧
    (Write (dayCfg false true) dayLib jan1 shortSlice (State.fresh [])).2.world.appendedAt 0
      = shortSlice.elems ∧
    (State.fresh []).sink.currfile = "" ∧
    (Write (dayCfg false true) dayLib jan1 shortSlice (State.fresh [])).2.sink.currfile
      = "logs/2024-01-01" := by
  decide

end LogFile

/-! ## Lemmas and theorems -/

namespace LogFile

theorem rotateString_eq {Time : Type} : @rotateString Time = @rotateData Time := rfl

theorem bufWriteStringLoop_eq (fuel : Nat) (b : BufWriter) (w : World) (s : Bytes) (nn : Nat) :
    bufWriteStringLoop fuel b w s nn = bufWriteLoop fuel b w s nn := by
  induction fuel generalizing b w s nn with
  | zero => rfl
  | succ fuel ih =>
    unfold bufWriteStringLoop bufWriteLoop
    simp only [fileWriteString, ih]

theorem bufWriteString_eq (b : BufWriter) (w : World) (s : Bytes) :
    bufWriteString b w s = bufWrite b w s := by
  unfold bufWriteString bufWrite
  rw [bufWriteStringLoop_eq]

theorem fileWriteStringNil_eq (w : World) (f : Option Nat) (s : Bytes) :
    fileWriteStringNil w f s = fileWriteNil w f s := by
  cases f <;> rfl

/-- Lines 59 to 71 of `WriteString` do what lines 40 to 52 of `Write` do. -/
theorem writeTailString_eq (cfg : Config) (str : Bytes) (st : State) :
    writeTailString cfg str st = writeTail cfg str st := by
  unfold writeTailString writeTail
  simp only [bufWriteString_eq, fileWriteStringNil_eq]

theorem sliceString_short (str : Bytes) (lo hi : Int) (h : (str.length : Int) < hi) :
    sliceString str lo hi = none := by
  unfold sliceString
  rw [if_neg]
  omega

theorem sliceBytes_short (p : GoSlice) (lo hi : Int) (h : (p.cap : Int) < hi) :
    sliceBytes p lo hi = none := by
  unfold sliceBytes
  rw [if_neg]
  omega

theorem bufFlush_noop (b : BufWriter) (w : World) (h : b.err ≠ none ∨ b.buf = []) :
    bufFlush b w = (b, w) := by
  unfold bufFlush
  rcases h with h | h
  · rw [if_pos h]
  · by_cases he : b.err ≠ none
    · rw [if_pos he]
    · rw [if_neg he, if_pos (by simp [h])]

theorem bufFlush_settled (b : BufWriter) (w : World) :
    (bufFlush b w).1.err ≠ none ∨ (bufFlush b w).1.buf = [] := by
  unfold bufFlush
  split
  · left; assumption
  · split
    · right; simpa using ‹b.buf.length = 0›
    · split
      rename_i n e w1 _
      split
      · left; simp
      · cases e with
        | none => right; simp
        | some e0 => left; simp

theorem bufFlush_idem (b : BufWriter) (w : World) :
    bufFlush (bufFlush b w).1 (bufFlush b w).2 = bufFlush b w :=
  bufFlush_noop _ _ (bufFlush_settled b w)

theorem save_idem (cfg : Config) (st : State) :
    (save cfg (save cfg st)).sink = (save cfg st).sink ∧
    (save cfg (save cfg st)).world.handles = (save cfg st).world.handles ∧
    (save cfg (save cfg st)).world.oracle = (save cfg st).world.oracle ∧
    (save cfg (save cfg st)).world.dirs = (save cfg st).world.dirs := by
  unfold save
  cases hb : cfg.EnableBufio
  · cases hl : st.sink.logfile <;> simp [hl, syncFile]
  · cases hf : st.sink.filewriter with
    | none => simp [hf]
    | some b =>
      have h := bufFlush_idem b st.world
      simp [h]

theorem updateAt_length {α : Type} (f : α → α) (i : Nat) (l : List α) :
    (updateAt f i l).length = l.length := by
  induction l generalizing i with
  | nil => cases i <;> rfl
  | cons x xs ih => cases i <;> simp [updateAt, ih]

theorem updateAt_map {α β : Type} (g : α → β) (f : α → α) (hf : ∀ x, g (f x) = g x)
    (i : Nat) (l : List α) : (updateAt f i l).map g = l.map g := by
  induction l generalizing i with
  | nil => cases i <;> rfl
  | cons x xs ih => cases i <;> simp [updateAt, ih, hf]

theorem updateAt_getElem? {α : Type} (f : α → α) (i j : Nat) (l : List α) :
    (updateAt f i l)[j]? = if j = i then (l[j]?).map f else l[j]? := by
  induction l generalizing i j with
  | nil => cases i <;> simp [updateAt]
  | cons x xs ih =>
    cases i with
    | zero => cases j <;> simp [updateAt]
    | succ i => cases j <;> simp [updateAt, ih]

theorem popResp_handles (w : World) : (popResp w).2.handles = w.handles := by
  unfold popResp; split <;> rfl

theorem popResp_dirs (w : World) : (popResp w).2.dirs = w.dirs := by
  unfold popResp; split <;> rfl

theorem popResp_syncs (w : World) : (popResp w).2.syncs = w.syncs := by
  unfold popResp; split <;> rfl

theorem popResp_allOk (w : World) (h : w.allOk) :
    (popResp w).1 = Resp.ok ∧ (popResp w).2.allOk := by
  unfold popResp
  split
  · exact ⟨rfl, h⟩
  · rename_i r rs hw
    unfold World.allOk at h ⊢
    rw [hw] at h
    exact ⟨h r (by simp), fun x hx => h x (by simp [hx])⟩

theorem fileWrite_openFlags (w : World) (h : Nat) (p : Bytes) :
    (fileWrite w h p).2.2.openFlags = w.openFlags := by
  unfold fileWrite World.openFlags
  split
  · rfl
  · split
    · have hh := popResp_handles w
      split
      · rename_i w1 hp
        rw [hp] at hh
        simp only [] at hh
        simp [updateAt_map, hh]
      · rename_i k w1 hp
        rw [hp] at hh
        simp only [] at hh
        simp [updateAt_map, hh]
    · rfl

theorem bufFlush_openFlags (b : BufWriter) (w : World) :
    (bufFlush b w).2.openFlags = w.openFlags := by
  unfold bufFlush
  split
  · rfl
  · split
    · rfl
    · have h := fileWrite_openFlags w b.wr b.buf
      split
      rename_i n e w1 hfw
      rw [hfw] at h
      simp only [] at h
      split
      · exact h
      · cases e <;> exact h

theorem bufWriteLoop_openFlags (fuel : Nat) (b : BufWriter) (w : World) (p : Bytes) (nn : Nat) :
    (bufWriteLoop fuel b w p nn).2.1.openFlags = w.openFlags := by
  induction fuel generalizing b w p nn with
  | zero => rfl
  | succ fuel ih =>
    unfold bufWriteLoop
    split
    · split
      · have h := fileWrite_openFlags w b.wr p
        split
        rename_i n e w1 hfw
        rw [hfw] at h
        rw [ih]
        exact h
      · simp only []
        have h := bufFlush_openFlags { b with buf := b.buf ++ p.take (min b.available p.length) } w
        rw [ih]
        exact h
    · rfl

theorem bufWrite_openFlags (b : BufWriter) (w : World) (p : Bytes) :
    (bufWrite b w p).2.1.openFlags = w.openFlags := by
  unfold bufWrite
  have h := bufWriteLoop_openFlags 2 b w p 0
  split
  rename_i b1 w1 p1 nn hl
  rw [hl] at h
  split <;> exact h

theorem rotateData_eq {Time : Type} (cfg : Config) (tl : TimeLib Time) (now : Time) (len : Nat)
    (st : State) :
    rotateData cfg tl now len st =
      if (prepDir cfg tl now st).2.sink.currfile ≠
          candidatePath (dirPath cfg tl now) (tl.format now cfg.FileFormat)
            (prepDir cfg tl now st).2.sink.currFileIdx then
        reopen cfg
          { (prepDir cfg tl now st).2.sink with
              currFileIdx := 0, currFileSize := 0,
              currfile := candidatePath (dirPath cfg tl now) (tl.format now cfg.FileFormat)
                (prepDir cfg tl now st).2.sink.currFileIdx }
          (prepDir cfg tl now st).2.world
      else if cfg.MaxFileSize > 0 ∧
          (prepDir cfg tl now st).2.sink.currFileSize + (len : Int) > cfg.MaxFileSize then
        reopen cfg
          { (prepDir cfg tl now st).2.sink with
              currFileIdx := (prepDir cfg tl now st).2.sink.currFileIdx + 1, currFileSize := 0,
              currfile := sprintfPath (dirPath cfg tl now) (tl.format now cfg.FileFormat)
                ((prepDir cfg tl now st).2.sink.currFileIdx + 1) }
          (prepDir cfg tl now st).2.world
      else (decide ((prepDir cfg tl now st).1 = none), (prepDir cfg tl now st).2) := rfl

theorem makeDir_handles (path : String) (w : World) : (makeDir path w).2.handles = w.handles := by
  unfold makeDir mkdirAll
  have h := popResp_handles w
  split
  · rename_i w1 hp; rw [hp] at h; exact h
  · rename_i k w1 hp; rw [hp] at h; exact h

theorem makeDir_allOk (path : String) (w : World) (hw : w.allOk) : (makeDir path w).2.allOk := by
  unfold makeDir mkdirAll
  have h := (popResp_allOk w hw).2
  split
  · rename_i w1 hp; rw [hp] at h; exact h
  · rename_i k w1 hp; rw [hp] at h; exact h

/-- What `Init` leaves alone. -/
theorem Init_frame {Time : Type} (cfg : Config) (tl : TimeLib Time) (now : Time) (st : State) :
    (Init cfg tl now st).world.handles = st.world.handles ∧
    (Init cfg tl now st).sink.logfile = st.sink.logfile ∧
    (Init cfg tl now st).sink.filewriter = st.sink.filewriter ∧
    (Init cfg tl now st).sink.currdir = st.sink.currdir ∧
    (Init cfg tl now st).sink.currfile = st.sink.currfile ∧
    (Init cfg tl now st).sink.currFileIdx = st.sink.currFileIdx ∧
    (Init cfg tl now st).sink.currFileSize = st.sink.currFileSize ∧
    (Init cfg tl now st).sink.inited = true ∧
    (st.world.allOk → (Init cfg tl now st).world.allOk) := by
  unfold Init
  cases hi : st.sink.inited
  · have h := makeDir_handles (dirPath cfg tl now) st.world
    have h2 := makeDir_allOk (dirPath cfg tl now) st.world
    by_cases hc : (!cfg.SaveEach && cfg.EnableBufio) = true
    · simp [hc]; exact ⟨h, h2⟩
    · simp [hc]; exact ⟨h, h2⟩
  · simp [hi]

/-- What the directory step leaves alone. -/
theorem prepDir_frame {Time : Type} (cfg : Config) (tl : TimeLib Time) (now : Time) (st : State) :
    (prepDir cfg tl now st).2.world.handles = st.world.handles ∧
    (prepDir cfg tl now st).2.sink.logfile = st.sink.logfile ∧
    (prepDir cfg tl now st).2.sink.filewriter = st.sink.filewriter ∧
    (prepDir cfg tl now st).2.sink.currdir = dirPath cfg tl now ∧
    (prepDir cfg tl now st).2.sink.currfile = st.sink.currfile ∧
    (prepDir cfg tl now st).2.sink.currFileIdx = st.sink.currFileIdx ∧
    (prepDir cfg tl now st).2.sink.currFileSize = st.sink.currFileSize ∧
    (prepDir cfg tl now st).2.sink.inited = true ∧
    (st.world.allOk → (prepDir cfg tl now st).2.world.allOk) := by
  have hst1 : ∀ st1 : State, st1.world.handles = st.world.handles →
      st1.sink.logfile = st.sink.logfile → st1.sink.filewriter = st.sink.filewriter →
      st1.sink.currfile = st.sink.currfile → st1.sink.currFileIdx = st.sink.currFileIdx →
      st1.sink.currFileSize = st.sink.currFileSize → st1.sink.inited = true →
      (st.world.allOk → st1.world.allOk) →
      let r := (if st1.sink.currdir ≠ dirPath cfg tl now then
          match makeDir (dirPath cfg tl now) st1.world with
          | (e, w1) => (e, (⟨{ st1.sink with currdir := dirPath cfg tl now }, w1⟩ : State))
        else (none, st1))
      r.2.world.handles = st.world.handles ∧ r.2.sink.logfile = st.sink.logfile ∧
      r.2.sink.filewriter = st.sink.filewriter ∧ r.2.sink.currdir = dirPath cfg tl now ∧
      r.2.sink.currfile = st.sink.currfile ∧ r.2.sink.currFileIdx = st.sink.currFileIdx ∧
      r.2.sink.currFileSize = st.sink.currFileSize ∧ r.2.sink.inited = true ∧
      (st.world.allOk → r.2.world.allOk) := by
    intro st1 h1 h2 h3 h4 h5 h6 h7 h8
    by_cases hd : st1.sink.currdir = dirPath cfg tl now
    · simp [hd, h1, h2, h3, h4, h5, h6, h7]
      exact h8
    · have hm := makeDir_handles (dirPath cfg tl now) st1.world
      have hm2 := makeDir_allOk (dirPath cfg tl now) st1.world
      rcases hmd : makeDir (dirPath cfg tl now) st1.world with ⟨e, w1⟩
      rw [hmd] at hm hm2
      simp only [] at hm hm2
      simp [hd, h1, h2, h3, h4, h5, h6, h7, hm]
      exact fun h => hm2 (h8 h)
  unfold prepDir
  cases hi : st.sink.inited
  · obtain ⟨a1, a2, a3, a4, a5, a6, a7, a8, a9⟩ := Init_frame cfg tl now st
    exact hst1 (Init cfg tl now st) a1 a2 a3 a5 a6 a7 a8 a9
  · exact hst1 st rfl rfl rfl rfl rfl rfl hi id

theorem closeFile_isOpenAt (w : World) (h j : Nat) (hj : (closeFile w h).isOpenAt j) :
    j ≠ h ∧ w.isOpenAt j := by
  unfold World.isOpenAt World.openFlags closeFile at *
  simp only [List.get?_eq_getElem?, List.getElem?_map, updateAt_getElem?] at *
  by_cases hjh : j = h
  · rw [if_pos hjh] at hj
    cases hw : w.handles[j]? <;> simp [hw] at hj
  · rw [if_neg hjh] at hj
    exact ⟨hjh, hj⟩

theorem closeLog_noneOpen (s : Sink) (w : World)
    (hown : ∀ j, w.isOpenAt j → s.logfile = some j) (j : Nat) :
    ¬ (closeLog s w).isOpenAt j := by
  unfold closeLog
  cases hl : s.logfile with
  | none =>
    intro hj
    have := hown j hj
    rw [hl] at this
    cases this
  | some h =>
    intro hj
    obtain ⟨hne, hw⟩ := closeFile_isOpenAt w h j hj
    have := hown j hw
    rw [hl] at this
    exact hne (Option.some.inj this).symm

theorem closeLog_length (s : Sink) (w : World) :
    (closeLog s w).handles.length = w.handles.length := by
  unfold closeLog
  cases s.logfile with
  | none => rfl
  | some h => simp [closeFile, updateAt_length]

theorem closeLog_allOk (s : Sink) (w : World) (hw : w.allOk) : (closeLog s w).allOk := by
  unfold closeLog
  cases s.logfile with
  | none => exact hw
  | some h => exact hw

theorem newFile_ownsOpen (cfg : Config) (path : String) (s : Sink) (w : World)
    (hno : ∀ j, ¬ w.isOpenAt j) : (newFile cfg path ⟨s, w⟩).2.OwnsOpen := by
  unfold newFile openFile
  have hh := popResp_handles w
  rcases hp : popResp w with ⟨r, w1⟩
  rw [hp] at hh
  simp only [] at hh
  have hno1 : ∀ j, ¬ w1.isOpenAt j := by
    intro j hj
    apply hno j
    unfold World.isOpenAt World.openFlags at *
    rw [← hh]
    exact hj
  cases r with
  | ok =>
    intro j hj
    simp only [] at hj ⊢
    unfold World.isOpenAt World.openFlags at hj
    simp only [List.map_append, List.map_cons, List.map_nil, List.get?_eq_getElem?] at hj
    by_cases hlt : j < w1.handles.length
    · exfalso
      apply hno1 j
      unfold World.isOpenAt World.openFlags
      rw [List.getElem?_append_left (by simpa using hlt)] at hj
      simpa using hj
    · have hge : (List.map FileRec.isOpen w1.handles).length ≤ j := by simpa using hlt
      rw [List.getElem?_append_right hge] at hj
      have hj0 : j - (List.map FileRec.isOpen w1.handles).length = 0 := by
        by_contra hne
        obtain ⟨k, hk⟩ := Nat.exists_eq_succ_of_ne_zero hne
        rw [hk] at hj
        simp at hj
      have hj' : j = w1.handles.length := by
        simp only [List.length_map] at hj0 hge
        omega
      subst hj'
      by_cases hb : cfg.EnableBufio = true <;> simp [hb]
  | fail k =>
    intro j hj
    exact absurd hj (hno1 j)

theorem reopen_ownsOpen (cfg : Config) (s : Sink) (w : World)
    (hown : ∀ j, w.isOpenAt j → s.logfile = some j) : (reopen cfg s w).2.OwnsOpen := by
  unfold reopen
  exact newFile_ownsOpen cfg s.currfile s (closeLog s w) (closeLog_noneOpen s w hown)

theorem rotateData_ownsOpen {Time : Type} (cfg : Config) (tl : TimeLib Time) (now : Time)
    (len : Nat) (st : State) (hst : st.OwnsOpen) : (rotateData cfg tl now len st).2.OwnsOpen := by
  obtain ⟨a1, a2, -⟩ := prepDir_frame cfg tl now st
  have hown : ∀ j, (prepDir cfg tl now st).2.world.isOpenAt j →
      (prepDir cfg tl now st).2.sink.logfile = some j := by
    intro j hj
    rw [a2]
    apply hst j
    unfold World.isOpenAt World.openFlags at *
    rw [← a1]
    exact hj
  rw [rotateData_eq]
  split
  · exact reopen_ownsOpen cfg _ _ hown
  · split
    · exact reopen_ownsOpen cfg _ _ hown
    · exact hown

theorem OwnsOpen_of_eq (st st1 : State) (h1 : st1.world.openFlags = st.world.openFlags)
    (h2 : st1.sink.logfile = st.sink.logfile) (hst : st.OwnsOpen) : st1.OwnsOpen := by
  intro j hj
  rw [h2]
  apply hst j
  unfold World.isOpenAt at *
  rw [← h1]
  exact hj

/-- What `save` leaves alone. -/
theorem save_frame (cfg : Config) (st : State) :
    (save cfg st).world.openFlags = st.world.openFlags ∧
    (save cfg st).sink.logfile = st.sink.logfile ∧
    (save cfg st).sink.currdir = st.sink.currdir ∧
    (save cfg st).sink.currfile = st.sink.currfile ∧
    (save cfg st).sink.currFileIdx = st.sink.currFileIdx ∧
    (save cfg st).sink.currFileSize = st.sink.currFileSize ∧
    (save cfg st).sink.inited = st.sink.inited := by
  unfold save
  cases hb : cfg.EnableBufio
  · cases hl : st.sink.logfile <;> simp [syncFile, World.openFlags, hl]
  · cases hf : st.sink.filewriter with
    | none => simp
    | some b =>
      have h := bufFlush_openFlags b st.world
      simp [h]

/-- What the write after the rotation check leaves alone. -/
theorem writeTail_frame (cfg : Config) (p : Bytes) (st : State) :
    (writeTail cfg p st).2.world.openFlags = st.world.openFlags ∧
    (writeTail cfg p st).2.sink.logfile = st.sink.logfile ∧
    (writeTail cfg p st).2.sink.currdir = st.sink.currdir ∧
    (writeTail cfg p st).2.sink.currfile = st.sink.currfile ∧
    (writeTail cfg p st).2.sink.currFileIdx = st.sink.currFileIdx ∧
    (writeTail cfg p st).2.sink.inited = st.sink.inited := by
  have hsave : ∀ (c : Bool) (st2 : State),
      (if c then save cfg st2 else st2).world.openFlags = st2.world.openFlags ∧
      (if c then save cfg st2 else st2).sink.logfile = st2.sink.logfile ∧
      (if c then save cfg st2 else st2).sink.currdir = st2.sink.currdir ∧
      (if c then save cfg st2 else st2).sink.currfile = st2.sink.currfile ∧
      (if c then save cfg st2 else st2).sink.currFileIdx = st2.sink.currFileIdx ∧
      (if c then save cfg st2 else st2).sink.inited = st2.sink.inited := by
    intro c st2
    obtain ⟨b1, b2, b3, b4, b5, -, b7⟩ := save_frame cfg st2
    cases c
    · simp
    · simp [b1, b2, b3, b4, b5, b7]
  unfold writeTail
  cases hb : cfg.EnableBufio
  · cases hl : st.sink.logfile with
    | none =>
      simp only [fileWriteNil, Bool.false_eq_true, if_false]
      obtain ⟨c1, c2, c3, c4, c5, c6⟩ := hsave cfg.SaveEach
        ⟨{ st.sink with currFileSize := st.sink.currFileSize + ((0 : Nat) : Int) }, st.world⟩
      exact ⟨c1, by rw [c2]; exact hl, c3, c4, c5, c6⟩
    | some h =>
      simp only [fileWriteNil, Bool.false_eq_true, if_false]
      have hf := fileWrite_openFlags st.world h p
      rcases hfw : fileWrite st.world h p with ⟨n, e, w1⟩
      rw [hfw] at hf
      simp only [] at hf
      obtain ⟨c1, c2, c3, c4, c5, c6⟩ := hsave cfg.SaveEach
        ⟨{ st.sink with currFileSize := st.sink.currFileSize + (n : Int) }, w1⟩
      exact ⟨by rw [c1]; exact hf, by rw [c2]; exact hl, c3, c4, c5, c6⟩
  · cases hf : st.sink.filewriter with
    | none => simp
    | some b =>
      simp only [if_true]
      have hbw := bufWrite_openFlags b st.world p
      rcases hbwr : bufWrite b st.world p with ⟨b1, w1, n, e⟩
      rw [hbwr] at hbw
      simp only [] at hbw
      obtain ⟨c1, c2, c3, c4, c5, c6⟩ := hsave cfg.SaveEach
        ⟨{ st.sink with filewriter := some b1,
                        currFileSize := st.sink.currFileSize + (n : Int) }, w1⟩
      exact ⟨by rw [c1]; exact hbw, c2, c3, c4, c5, c6⟩

theorem step_ownsOpen {Time : Type} (cfg : Config) (tl : TimeLib Time) (st : State)
    (op : Op Time) (hst : st.OwnsOpen) : (step cfg tl st op).OwnsOpen := by
  have htail : ∀ (p : Bytes) (st1 : State), st1.OwnsOpen → (writeTail cfg p st1).2.OwnsOpen := by
    intro p st1 h1
    obtain ⟨c1, c2, -⟩ := writeTail_frame cfg p st1
    exact OwnsOpen_of_eq st1 _ c1 c2 h1
  cases op with
  | write clock p =>
    simp only [step, Write, checkFileWithData]
    cases timeOfData cfg tl clock p with
    | panicked => exact hst
    | parseFailed => exact htail _ _ hst
    | «at» now => exact htail _ _ (rotateData_ownsOpen cfg tl now _ st hst)
  | writeString clock str =>
    simp only [step, WriteString, checkFileWithString, writeTailString_eq]
    cases timeOfString cfg tl clock str with
    | panicked => exact hst
    | parseFailed => exact htail _ _ hst
    | «at» now =>
      rw [rotateString_eq]
      exact htail _ _ (rotateData_ownsOpen cfg tl now _ st hst)
  | save =>
    obtain ⟨c1, c2, -⟩ := save_frame cfg st
    exact OwnsOpen_of_eq st _ c1 c2 hst
  | init now =>
    obtain ⟨c1, c2, -⟩ := Init_frame cfg tl now st
    refine OwnsOpen_of_eq st _ ?_ c2 hst
    simp only [step, World.openFlags, c1]

theorem run_ownsOpen {Time : Type} (cfg : Config) (tl : TimeLib Time) (ops : List (Op Time))
    (st : State) (hst : st.OwnsOpen) : (run cfg tl st ops).OwnsOpen := by
  induction ops generalizing st with
  | nil => exact hst
  | cons op ops ih => exact ih _ (step_ownsOpen cfg tl st op hst)

/-- C10: in every state reached from a fresh sink by `Write`, `WriteString`,
`Save` and `Init` calls under any script of I/O outcomes, every open handle is
the sink's `logfile` (none was dropped unclosed), so at most one handle is
open. -/
theorem at_most_one_open_handle {Time : Type} (cfg : Config) (tl : TimeLib Time)
    (oracle : List Resp) (ops : List (Op Time)) :
    (∀ h, (run cfg tl (State.fresh oracle) ops).world.isOpenAt h →
        (run cfg tl (State.fresh oracle) ops).sink.logfile = some h) ∧
    (∀ h1 h2, (run cfg tl (State.fresh oracle) ops).world.isOpenAt h1 →
        (run cfg tl (State.fresh oracle) ops).world.isOpenAt h2 → h1 = h2) := by
  have hfresh : (State.fresh oracle).OwnsOpen := by
    intro h hh
    simp [World.isOpenAt, World.openFlags, State.fresh] at hh
  have hrun := run_ownsOpen cfg tl ops _ hfresh
  refine ⟨hrun, ?_⟩
  intro h1 h2 e1 e2
  have := (hrun h1 e1).symm.trans (hrun h2 e2)
  exact Option.some.inj this

theorem prepDir_same {Time : Type} (cfg : Config) (tl : TimeLib Time) (now : Time) (st : State)
    (hin : st.sink.inited = true) (hdir : st.sink.currdir = dirPath cfg tl now) :
    prepDir cfg tl now st = (none, st) := by
  unfold prepDir
  simp [hin, hdir]

/-- No rotation: an initialised sink whose directory and current file are those
of the payload, below the size limit, is left as it is. -/
theorem rotateData_same {Time : Type} (cfg : Config) (tl : TimeLib Time) (now : Time)
    (len : Nat) (st : State)
    (hin : st.sink.inited = true) (hdir : st.sink.currdir = dirPath cfg tl now)
    (hfile : st.sink.currfile =
      candidatePath (dirPath cfg tl now) (tl.format now cfg.FileFormat) st.sink.currFileIdx)
    (hsize : ¬ (cfg.MaxFileSize > 0 ∧ st.sink.currFileSize + (len : Int) > cfg.MaxFileSize)) :
    rotateData cfg tl now len st = (true, st) := by
  rw [rotateData_eq, prepDir_same cfg tl now st hin hdir]
  simp only []
  rw [if_neg (by simpa using hfile), if_neg hsize]
  simp

/-- Without an open file and without a buffered writer the write after the
rotation check changes nothing; unbuffered it returns `ErrInvalid`. -/
theorem writeTail_no_file (cfg : Config) (p : Bytes) (st : State)
    (hlog : st.sink.logfile = none) (hfw : st.sink.filewriter = none) :
    (writeTail cfg p st).2 = st ∧
    (cfg.EnableBufio = false → (writeTail cfg p st).1 = Outcome.ret 0 (some GoErr.invalid)) := by
  obtain ⟨s, w⟩ := st
  obtain ⟨i, cd, cf, sz, ix, lf, fw, fl⟩ := s
  simp only at hlog hfw
  subst hlog hfw
  cases hb : cfg.EnableBufio <;> cases hs : cfg.SaveEach <;>
    simp [writeTail, hb, hs, fileWriteNil, save]

/-- C6, amended: after a failed open (no open file, no buffered writer, and
`currfile` already the path of the payload's directory, bucket and index) the
next `Write` or `WriteString` without a size rollover opens nothing and leaves
sink and file system as they are; unbuffered it returns count 0 and an error. -/
theorem failed_open_stays_failed {Time : Type} (cfg : Config) (tl : TimeLib Time)
    (clock now : Time) (p : GoSlice) (str : Bytes) (st : State)
    (hin : st.sink.inited = true) (hdir : st.sink.currdir = dirPath cfg tl now)
    (hfile : st.sink.currfile =
      candidatePath (dirPath cfg tl now) (tl.format now cfg.FileFormat) st.sink.currFileIdx)
    (hlog : st.sink.logfile = none) (hfw : st.sink.filewriter = none) :
    (timeOfData cfg tl clock p = TimeStep.at now →
      ¬ (cfg.MaxFileSize > 0 ∧
          st.sink.currFileSize + (p.elems.length : Int) > cfg.MaxFileSize) →
      (Write cfg tl clock p st).2 = st ∧
      (cfg.EnableBufio = false →
        (Write cfg tl clock p st).1 = Outcome.ret 0 (some GoErr.invalid))) ∧
    (timeOfString cfg tl clock str = TimeStep.at now →
      ¬ (cfg.MaxFileSize > 0 ∧ st.sink.currFileSize + (str.length : Int) > cfg.MaxFileSize) →
      (WriteString cfg tl clock str st).2 = st ∧
      (cfg.EnableBufio = false →
        (WriteString cfg tl clock str st).1 = Outcome.ret 0 (some GoErr.invalid))) := by
  constructor
  · intro ht hsize
    simp only [Write, checkFileWithData, ht,
      rotateData_same cfg tl now _ st hin hdir hfile hsize]
    exact writeTail_no_file cfg _ st hlog hfw
  · intro ht hsize
    simp only [WriteString, checkFileWithString, ht, rotateString_eq, writeTailString_eq,
      rotateData_same cfg tl now _ st hin hdir hfile hsize]
    exact writeTail_no_file cfg _ st hlog hfw

theorem failed_open_stays_failed_witness :
    afterFailedOpen.sink.inited = true ∧ afterFailedOpen.sink.logfile = none ∧
    (Write (dayCfg false false) dayLib jan1 sixty afterFailedOpen).2 = afterFailedOpen ∧
    (WriteString (dayCfg false false) dayLib jan1 sixty.elems afterFailedOpen).1
      = Outcome.ret 0 (some GoErr.invalid) :=
  ⟨by decide, by decide,
    ((failed_open_stays_failed (dayCfg false false) dayLib jan1 jan1 sixty sixty.elems
      afterFailedOpen (by decide) (by decide) (by decide) (by decide) (by decide)).1
      (by decide) (by decide)).1,
    ((failed_open_stays_failed (dayCfg false false) dayLib jan1 jan1 sixty sixty.elems
      afterFailedOpen (by decide) (by decide) (by decide) (by decide) (by decide)).2
      (by decide) (by decide)).2 rfl⟩

/-- C7, amended: with a timestamp extractor configured, `WriteString` of a
string shorter than `TimeBegin + len(TimePrefix)`, and `Write` of a slice whose
capacity is below that bound, panic with a slice-bounds error instead of
returning one; nothing is written and the state, `currfile` included, is
unchanged. -/
theorem short_payload_panics {Time : Type} (cfg : Config) (tl : TimeLib Time) (clock : Time)
    (p : GoSlice) (str : Bytes) (st : State) (hcfg : cfg.TimePrefix ≠ "") :
    ((str.length : Int) < cfg.TimeBegin + cfg.prefixLen →
      WriteString cfg tl clock str st = (Outcome.panic Panic.sliceBounds, st)) ∧
    ((p.cap : Int) < cfg.TimeBegin + cfg.prefixLen →
      Write cfg tl clock p st = (Outcome.panic Panic.sliceBounds, st)) := by
  constructor
  · intro h
    simp [WriteString, checkFileWithString, timeOfString, hcfg, sliceString_short _ _ _ h]
  · intro h
    simp [Write, checkFileWithData, timeOfData, hcfg, sliceBytes_short _ _ _ h]

theorem short_payload_panics_witness :
    (dayCfg false true).TimePrefix ≠ "" ∧
    WriteString (dayCfg false true) dayLib jan1 (ascii "2024") afterStampedLine
      = (Outcome.panic Panic.sliceBounds, afterStampedLine) ∧
    Write (dayCfg false true) dayLib jan1 (GoSlice.ofBytes (ascii "2024")) afterStampedLine
      = (Outcome.panic Panic.sliceBounds, afterStampedLine) :=
  ⟨by decide,
    (short_payload_panics (dayCfg false true) dayLib jan1 (GoSlice.ofBytes (ascii "2024"))
      (ascii "2024") afterStampedLine (by decide)).1 (by decide),
    (short_payload_panics (dayCfg false true) dayLib jan1 (GoSlice.ofBytes (ascii "2024"))
      (ascii "2024") afterStampedLine (by decide)).2 (by decide)⟩

/-- C9: `Save` twice leaves the sink, the files, the script and the directories
as `Save` once does, and without an open file and buffered writer `Save`
changes nothing at all. -/
theorem save_twice_is_save_once (cfg : Config) (st : State) :
    (Save cfg (Save cfg st)).sink = (Save cfg st).sink ∧
    (Save cfg (Save cfg st)).world.handles = (Save cfg st).world.handles ∧
    (Save cfg (Save cfg st)).world.oracle = (Save cfg st).world.oracle ∧
    (Save cfg (Save cfg st)).world.dirs = (Save cfg st).world.dirs ∧
    (st.sink.logfile = none → st.sink.filewriter = none → Save cfg st = st) := by
  obtain ⟨h1, h2, h3, h4⟩ := save_idem cfg st
  refine ⟨h1, h2, h3, h4, ?_⟩
  intro hl hf
  unfold Save save
  cases cfg.EnableBufio <;> simp [hl, hf]

theorem save_twice_is_save_once_witness :
    (State.fresh openFails).sink.logfile = none ∧
    (State.fresh openFails).sink.filewriter = none ∧
    Save (dayCfg true false) (State.fresh openFails) = State.fresh openFails :=
  ⟨rfl, rfl, (save_twice_is_save_once (dayCfg true false) (State.fresh openFails)).2.2.2.2 rfl rfl⟩

theorem isOpenAt_iff (w : World) (h : Nat) :
    w.isOpenAt h ↔ ∃ f, w.handles.get? h = some f ∧ f.isOpen = true := by
  unfold World.isOpenAt World.openFlags
  simp only [List.get?_eq_getElem?, List.getElem?_map]
  cases w.handles[h]? <;> simp

theorem updateAt_id {α : Type} (f : α → α) (hf : ∀ x, f x = x) (i : Nat) (l : List α) :
    updateAt f i l = l := by
  induction l generalizing i with
  | nil => cases i <;> rfl
  | cons x xs ih => cases i <;> simp [updateAt, ih, hf]

theorem updateAt_updateAt {α : Type} (f g : α → α) (i : Nat) (l : List α) :
    updateAt g i (updateAt f i l) = updateAt (fun x => g (f x)) i l := by
  induction l generalizing i with
  | nil => cases i <;> rfl
  | cons x xs ih => cases i <;> simp [updateAt, ih]

/-- Append `x` to the bytes written through a handle. -/
theorem fileWrite_ok (w : World) (h : Nat) (p : Bytes) (hw : w.allOk) (ho : w.isOpenAt h) :
    ∃ w1, fileWrite w h p = (p.length, none, w1) ∧ w1.allOk ∧ w1.dirs = w.dirs ∧
      w1.handles = updateAt (fun g => { g with appended := g.appended ++ p }) h w.handles := by
  obtain ⟨f, hf, hfo⟩ := (isOpenAt_iff w h).1 ho
  obtain ⟨hr, hok⟩ := popResp_allOk w hw
  have hh := popResp_handles w
  have hd := popResp_dirs w
  unfold fileWrite
  rw [hf]
  simp only [hfo, if_true]
  rcases hp : popResp w with ⟨r, w2⟩
  rw [hp] at hr hok hh hd
  simp only [] at hr hok hh hd
  subst hr
  exact ⟨_, rfl, hok, hd, by rw [hh]⟩

theorem bufFlush_ok (b : BufWriter) (w : World) (he : b.err = none) (hw : w.allOk)
    (ho : w.isOpenAt b.wr) :
    ∃ w1, bufFlush b w = ({ b with buf := [] }, w1) ∧ w1.allOk ∧ w1.dirs = w.dirs ∧
      w1.handles = updateAt (fun g => { g with appended := g.appended ++ b.buf }) b.wr w.handles := by
  unfold bufFlush
  rw [if_neg (by simp [he])]
  by_cases hb : b.buf.length = 0
  · rw [if_pos hb]
    have hnil : b.buf = [] := by simpa using hb
    refine ⟨w, ?_, hw, rfl, ?_⟩
    · cases b; simp_all
    · rw [hnil, updateAt_id]
      intro x; simp
  · rw [if_neg hb]
    obtain ⟨w1, hfw, h1, h2, h3⟩ := fileWrite_ok w b.wr b.buf hw ho
    rw [hfw]
    simp only [lt_self_iff_false, false_and, if_false]
    exact ⟨w1, rfl, h1, h2, h3⟩

theorem bufWriteLoop_stop (fuel : Nat) (b : BufWriter) (w : World) (p : Bytes) (nn : Nat)
    (h : ¬ (p.length > b.available ∧ b.err = none)) :
    bufWriteLoop fuel b w p nn = (b, w, p, nn) := by
  cases fuel with
  | zero => rfl
  | succ fuel => rw [bufWriteLoop, if_neg h]

theorem bufWriteLoop_direct (fuel : Nat) (b : BufWriter) (w : World) (p : Bytes) (nn : Nat)
    (h : p.length > b.available ∧ b.err = none) (hb : b.buf.length = 0) :
    bufWriteLoop (fuel + 1) b w p nn =
      bufWriteLoop fuel { b with err := (fileWrite w b.wr p).2.1 } (fileWrite w b.wr p).2.2
        (p.drop (fileWrite w b.wr p).1) (nn + (fileWrite w b.wr p).1) := by
  rw [bufWriteLoop, if_pos h, if_pos hb]

theorem bufWriteLoop_fill (fuel : Nat) (b : BufWriter) (w : World) (p : Bytes) (nn : Nat)
    (h : p.length > b.available ∧ b.err = none) (hb : ¬ b.buf.length = 0) :
    bufWriteLoop (fuel + 1) b w p nn =
      bufWriteLoop fuel
        (bufFlush { b with buf := b.buf ++ p.take (min b.available p.length) } w).1
        (bufFlush { b with buf := b.buf ++ p.take (min b.available p.length) } w).2
        (p.drop (min b.available p.length)) (nn + min b.available p.length) := by
  rw [bufWriteLoop, if_pos h, if_neg hb]

theorem isOpenAt_of_flags (w w1 : World) (h : Nat) (hf : w1.openFlags = w.openFlags)
    (ho : w.isOpenAt h) : w1.isOpenAt h := by
  unfold World.isOpenAt at *
  rw [hf]; exact ho

/-- With every I/O call succeeding, `b.Write(p)` on a writer without error over
an open file accepts all of `p`: what has reached the file and what is still
buffered make up the old buffer followed by `p`. -/
theorem bufWrite_ok (b : BufWriter) (w : World) (p : Bytes) (he : b.err = none)
    (hw : w.allOk) (ho : w.isOpenAt b.wr) :
    ∃ x buf1 w1, bufWrite b w p = (⟨b.wr, buf1, none⟩, w1, p.length, none) ∧ w1.allOk ∧
      w1.dirs = w.dirs ∧
      w1.handles = updateAt (fun g => { g with appended := g.appended ++ x }) b.wr w.handles ∧
      x ++ buf1 = b.buf ++ p := by
  obtain ⟨wr, buf, err⟩ := b
  simp only at he ho
  subst he
  unfold bufWrite
  by_cases hc : p.length > (BufWriter.mk wr buf none).available
  · by_cases hb : buf.length = 0
    · -- large write, empty buffer
      have hnil : buf = [] := by simpa using hb
      subst hnil
      obtain ⟨w1, hfw, h1, h2, h3⟩ := fileWrite_ok w wr p hw ho
      rw [bufWriteLoop_direct 1 _ w p 0 ⟨hc, rfl⟩ rfl]
      simp only [hfw]
      rw [bufWriteLoop_stop _ _ _ _ _ (by simp)]
      refine ⟨p, [], w1, ?_, h1, h2, h3, by simp⟩
      simp
    · -- fill the buffer and flush it
      have hmin : min (BufWriter.mk wr buf none).available p.length
          = (BufWriter.mk wr buf none).available := Nat.min_eq_left (Nat.le_of_lt hc)
      rw [bufWriteLoop_fill 1 _ w p 0 ⟨hc, rfl⟩ hb, hmin]
      generalize hk : (BufWriter.mk wr buf none).available = k at hc
      obtain ⟨w1, hfl, h1, h2, h3⟩ :=
        bufFlush_ok ⟨wr, buf ++ p.take k, none⟩ w rfl hw ho
      simp only [] at hfl h3
      rw [hfl]
      simp only []
      have ho1 : w1.isOpenAt wr := by
        apply isOpenAt_of_flags w w1 wr _ ho
        have := bufFlush_openFlags ⟨wr, buf ++ p.take k, none⟩ w
        rw [hfl] at this
        exact this
      by_cases hc2 : (p.drop k).length > (BufWriter.mk wr [] none).available
      · obtain ⟨w2, hfw, g1, g2, g3⟩ := fileWrite_ok w1 wr (p.drop k) h1 ho1
        rw [bufWriteLoop_direct 0 _ w1 _ _ ⟨hc2, rfl⟩ rfl]
        simp only [hfw]
        rw [List.drop_length, bufWriteLoop_stop _ _ _ _ _ (by simp)]
        refine ⟨(buf ++ p.take k) ++ p.drop k, [], w2, ?_, g1, g2.trans h2, ?_, by simp⟩
        · have : 0 + k + (p.drop k).length + ([] : Bytes).length = p.length := by
            simp only [List.length_drop, List.length_nil]; omega
          simp only [this, List.append_nil]
        · rw [g3, h3, updateAt_updateAt]
          simp [List.append_assoc]
      · rw [bufWriteLoop_stop _ _ _ _ _ (by intro hh; exact hc2 hh.1)]
        refine ⟨buf ++ p.take k, p.drop k, w1, ?_, h1, h2, h3, by simp⟩
        simp only [List.nil_append, List.length_drop, Nat.zero_add]
        have : k + (p.length - k) = p.length := by omega
        rw [this]
  · rw [bufWriteLoop_stop _ _ _ _ _ (by intro hh; exact hc hh.1)]
    refine ⟨[], buf ++ p, w, by simp, hw, rfl, ?_, by simp⟩
    rw [updateAt_id]
    intro x; simp

theorem fileWrite_count (w : World) (h : Nat) (p : Bytes)
    (he : (fileWrite w h p).2.1 = none) : (fileWrite w h p).1 = p.length := by
  unfold fileWrite at he ⊢
  split
  · rename_i hg; rw [hg] at he; simp at he
  · rename_i f hg
    rw [hg] at he
    simp only [] at he
    split
    · rename_i ho
      rw [if_pos ho] at he
      split
      · rfl
      · rename_i k w1 hp
        rw [hp] at he
        simp at he
    · rename_i ho
      rw [if_neg ho] at he
      simp at he

/-- One direct write ends the loop: the loop condition is false afterwards. -/
theorem direct_write_ends (b : BufWriter) (w : World) (p : Bytes) :
    ¬ ((p.drop (fileWrite w b.wr p).1).length > b.available ∧ (fileWrite w b.wr p).2.1 = none) := by
  intro hh
  have := fileWrite_count w b.wr p hh.2
  rw [this] at hh
  simp at hh

/-- Two iterations are enough for the loop of `bufio.Writer.Write`: when
`bufWriteLoop 2` returns, the loop condition is false. -/
theorem bufWriteLoop_exit (b : BufWriter) (w : World) (p : Bytes) (nn : Nat) :
    ¬ ((bufWriteLoop 2 b w p nn).2.2.1.length > (bufWriteLoop 2 b w p nn).1.available ∧
        (bufWriteLoop 2 b w p nn).1.err = none) := by
  by_cases hc : p.length > b.available ∧ b.err = none
  · by_cases hb : b.buf.length = 0
    · rw [bufWriteLoop_direct 1 b w p nn hc hb]
      have hd := direct_write_ends b w p
      rw [bufWriteLoop_stop _ _ _ _ _ hd]
      exact hd
    · rw [bufWriteLoop_fill 1 b w p nn hc hb]
      have hs := bufFlush_settled { b with buf := b.buf ++ p.take (min b.available p.length) } w
      generalize bufFlush { b with buf := b.buf ++ p.take (min b.available p.length) } w = r
        at hs ⊢
      generalize p.drop (min b.available p.length) = p1
      generalize nn + min b.available p.length = n1
      by_cases hc1 : p1.length > r.1.available ∧ r.1.err = none
      · have hb1 : r.1.buf.length = 0 := by
          rcases hs with hs | hs
          · exact absurd hc1.2 hs
          · simp [hs]
        rw [bufWriteLoop_direct 0 r.1 r.2 p1 n1 hc1 hb1]
        exact direct_write_ends r.1 r.2 p1
      · rw [bufWriteLoop_stop _ _ _ _ _ hc1]
        exact hc1
  · rw [bufWriteLoop_stop _ _ _ _ _ hc]
    exact hc

theorem writeTail_eq (cfg : Config) (p : Bytes) (st : State) :
    writeTail cfg p st =
      match writeCore cfg p st with
      | none => (Outcome.panic Panic.nilDeref, st)
      | some (n, e, st1) =>
        (Outcome.ret n e,
          if cfg.SaveEach then
            save cfg ⟨{ st1.sink with currFileSize := st1.sink.currFileSize + (n : Int) }, st1.world⟩
          else ⟨{ st1.sink with currFileSize := st1.sink.currFileSize + (n : Int) }, st1.world⟩) :=
  rfl

theorem appendedAt_update (w w1 : World) (h : Nat) (x : Bytes) (ho : w.isOpenAt h)
    (hh : w1.handles = updateAt (fun g => { g with appended := g.appended ++ x }) h w.handles) :
    w1.appendedAt h = w.appendedAt h ++ x ∧ w1.isOpenAt h ∧
    w1.handles.map FileRec.path = w.handles.map FileRec.path := by
  obtain ⟨f, hf, hfo⟩ := (isOpenAt_iff w h).1 ho
  refine ⟨?_, ?_, ?_⟩
  · unfold World.appendedAt
    rw [hh, hf]
    simp only [List.get?_eq_getElem?] at hf ⊢
    rw [updateAt_getElem?, if_pos rfl, hf]
    rfl
  · rw [isOpenAt_iff]
    refine ⟨{ f with appended := f.appended ++ x }, ?_, hfo⟩
    rw [hh]
    simp only [List.get?_eq_getElem?] at hf ⊢
    rw [updateAt_getElem?, if_pos rfl, hf]
    rfl
  · rw [hh, updateAt_map]
    intro y; rfl

/-- With every I/O call succeeding the write accepts all of `p`. -/
theorem writeCore_ok (cfg : Config) (p : Bytes) (st : State) (h : Nat) (acc : Bytes)
    (hst : st.Holding cfg h acc) :
    ∃ st1, writeCore cfg p st = some (p.length, none, st1) ∧ st1.Holding cfg h (acc ++ p) ∧
      st1.world.handles.map FileRec.path = st.world.handles.map FileRec.path ∧
      st1.sink.inited = st.sink.inited ∧ st1.sink.currdir = st.sink.currdir ∧
      st1.sink.currfile = st.sink.currfile ∧ st1.sink.currFileIdx = st.sink.currFileIdx ∧
      st1.sink.currFileSize = st.sink.currFileSize := by
  obtain ⟨hok, hlog, hopen, hbuf⟩ := hst
  unfold writeCore
  cases hb : cfg.EnableBufio
  · rw [hb] at hbuf
    simp only [Bool.false_eq_true, if_false] at hbuf ⊢
    rw [hlog]
    obtain ⟨w1, hfw, h1, -, h3⟩ := fileWrite_ok st.world h p hok hopen
    obtain ⟨a1, a2, a3⟩ := appendedAt_update st.world w1 h p hopen h3
    simp only [fileWriteNil, hfw]
    refine ⟨_, rfl, ⟨h1, hlog, a2, ?_⟩, a3, rfl, rfl, rfl, rfl, rfl⟩
    rw [hb]
    simp only [Bool.false_eq_true, if_false]
    rw [a1, hbuf]
  · rw [hb] at hbuf
    simp only [if_true] at hbuf ⊢
    obtain ⟨buf, hfw, hacc⟩ := hbuf
    rw [hfw]
    obtain ⟨x, buf1, w1, hbw, h1, -, h3, h4⟩ := bufWrite_ok ⟨h, buf, none⟩ st.world p rfl hok hopen
    obtain ⟨a1, a2, a3⟩ := appendedAt_update st.world w1 h x hopen h3
    simp only [hbw]
    refine ⟨_, rfl, ⟨h1, hlog, a2, ?_⟩, a3, rfl, rfl, rfl, rfl, rfl⟩
    rw [hb]
    simp only [if_true]
    refine ⟨buf1, rfl, ?_⟩
    rw [a1, List.append_assoc, h4, ← List.append_assoc, hacc]

/-- With every I/O call succeeding `save` brings all accepted bytes to the file. -/
theorem save_holding (cfg : Config) (st : State) (h : Nat) (acc : Bytes)
    (hst : st.Holding cfg h acc) :
    (save cfg st).Holding cfg h acc ∧ (save cfg st).world.appendedAt h = acc ∧
      (save cfg st).world.handles.map FileRec.path = st.world.handles.map FileRec.path := by
  obtain ⟨hok, hlog, hopen, hbuf⟩ := hst
  unfold save
  cases hb : cfg.EnableBufio
  · rw [hb] at hbuf
    simp only [Bool.false_eq_true, if_false] at hbuf ⊢
    rw [hlog]
    refine ⟨⟨hok, hlog, hopen, ?_⟩, hbuf, rfl⟩
    rw [hb]
    simpa using hbuf
  · rw [hb] at hbuf
    simp only [if_true] at hbuf ⊢
    obtain ⟨buf, hfw, hacc⟩ := hbuf
    rw [hfw]
    obtain ⟨w1, hfl, h1, -, h3⟩ := bufFlush_ok ⟨h, buf, none⟩ st.world rfl hok hopen
    obtain ⟨a1, a2, a3⟩ := appendedAt_update st.world w1 h buf hopen h3
    simp only [hfl]
    refine ⟨⟨h1, hlog, a2, ?_⟩, by rw [a1, hacc], a3⟩
    rw [hb]
    simp only [if_true]
    exact ⟨[], rfl, by rw [a1, hacc, List.append_nil]⟩

/-- With every I/O call succeeding, the write after the rotation check returns
the payload length and no error, and adds it to `currFileSize`. -/
theorem writeTail_ok (cfg : Config) (p : Bytes) (st : State) (h : Nat) (acc : Bytes)
    (hst : st.Holding cfg h acc) :
    (writeTail cfg p st).1 = Outcome.ret p.length none ∧
    (writeTail cfg p st).2.Holding cfg h (acc ++ p) ∧
    (writeTail cfg p st).2.world.handles.map FileRec.path = st.world.handles.map FileRec.path ∧
    (writeTail cfg p st).2.sink.inited = st.sink.inited ∧
    (writeTail cfg p st).2.sink.currdir = st.sink.currdir ∧
    (writeTail cfg p st).2.sink.currfile = st.sink.currfile ∧
    (writeTail cfg p st).2.sink.currFileIdx = st.sink.currFileIdx ∧
    (writeTail cfg p st).2.sink.currFileSize = st.sink.currFileSize + (p.length : Int) := by
  obtain ⟨st1, hcore, hh, hp, b1, b2, b3, b4, b5⟩ := writeCore_ok cfg p st h acc hst
  rw [writeTail_eq, hcore]
  simp only []
  have hh2 : (⟨{ st1.sink with currFileSize := st1.sink.currFileSize + (p.length : Int) },
      st1.world⟩ : State).Holding cfg h (acc ++ p) := hh
  cases hs : cfg.SaveEach
  · simp only [Bool.false_eq_true, if_false]
    exact ⟨trivial, hh2, hp, b1, b2, b3, b4, by rw [b5]⟩
  · simp only [if_true]
    obtain ⟨c1, -, c3⟩ := save_holding cfg _ h (acc ++ p) hh2
    obtain ⟨-, -, d3, d4, d5, d6, d7⟩ := save_frame cfg
      ⟨{ st1.sink with currFileSize := st1.sink.currFileSize + (p.length : Int) }, st1.world⟩
    exact ⟨trivial, c1, c3.trans hp, d7.trans b1, d3.trans b2, d4.trans b3, d5.trans b4,
      by rw [d6, b5]⟩

theorem closeLog_paths (s : Sink) (w : World) :
    (closeLog s w).handles.map FileRec.path = w.handles.map FileRec.path := by
  unfold closeLog
  cases s.logfile with
  | none => rfl
  | some h =>
    simp only [closeFile]
    rw [updateAt_map]
    intro x; rfl

theorem newFile_ok (cfg : Config) (path : String) (s : Sink) (w : World) (hw : w.allOk) :
    ∃ w1, newFile cfg path ⟨s, w⟩ =
        (none, ⟨{ s with logfile := some w.handles.length,
                         filewriter := if cfg.EnableBufio then
                           some ⟨w.handles.length, [], none⟩ else none }, w1⟩) ∧
      w1.allOk ∧ w1.handles = w.handles ++ [⟨path, true, []⟩] := by
  obtain ⟨hr, hok⟩ := popResp_allOk w hw
  have hh := popResp_handles w
  unfold newFile openFile
  rcases hp : popResp w with ⟨r, w2⟩
  rw [hp] at hr hok hh
  simp only [] at hr hok hh
  subst hr
  refine ⟨{ w2 with handles := w2.handles ++ [⟨path, true, []⟩] }, ?_, hok, by rw [hh]⟩
  cases hb : cfg.EnableBufio <;> simp [hh]

/-- With every I/O call succeeding, closing and reopening leaves the sink
holding a fresh handle with nothing written and an empty buffer. -/
theorem reopen_ok (cfg : Config) (s : Sink) (w : World) (hw : w.allOk) :
    (reopen cfg s w).1 = true ∧
    (reopen cfg s w).2.Holding cfg w.handles.length [] ∧
    (reopen cfg s w).2.world.handles.map FileRec.path
      = w.handles.map FileRec.path ++ [s.currfile] ∧
    (reopen cfg s w).2.sink.inited = s.inited ∧
    (reopen cfg s w).2.sink.currdir = s.currdir ∧
    (reopen cfg s w).2.sink.currfile = s.currfile ∧
    (reopen cfg s w).2.sink.currFileIdx = s.currFileIdx ∧
    (reopen cfg s w).2.sink.currFileSize = s.currFileSize := by
  obtain ⟨w1, hnf, h1, h2⟩ := newFile_ok cfg s.currfile s (closeLog s w) (closeLog_allOk s w hw)
  have hlen := closeLog_length s w
  have hpaths := closeLog_paths s w
  rw [hlen] at hnf
  unfold reopen
  rw [hnf]
  have hget : w1.handles.get? w.handles.length = some ⟨s.currfile, true, []⟩ := by
    simp only [List.get?_eq_getElem?]
    rw [h2, List.getElem?_append_right (by rw [hlen])]
    simp [hlen]
  have hopen : w1.isOpenAt w.handles.length := (isOpenAt_iff _ _).2 ⟨_, hget, rfl⟩
  have happ : w1.appendedAt w.handles.length = [] := by
    unfold World.appendedAt
    rw [hget]
  refine ⟨rfl, ⟨h1, rfl, hopen, ?_⟩, ?_, rfl, rfl, rfl, rfl, rfl⟩
  · cases hb : cfg.EnableBufio
    · simpa using happ
    · simp only [if_true]
      exact ⟨[], rfl, by rw [happ]; rfl⟩
  · simp only [h2, List.map_append, hpaths, List.map_cons, List.map_nil]

/-- Rotation to a different path with every I/O call succeeding. -/
theorem rotateData_change {Time : Type} (cfg : Config) (tl : TimeLib Time) (now : Time)
    (len : Nat) (st : State) (hok : st.world.allOk)
    (hfile : st.sink.currfile ≠
      candidatePath (dirPath cfg tl now) (tl.format now cfg.FileFormat) st.sink.currFileIdx) :
    (rotateData cfg tl now len st).2.Holding cfg st.world.handles.length [] ∧
    (rotateData cfg tl now len st).2.world.handles.map FileRec.path
      = st.world.handles.map FileRec.path ++
        [candidatePath (dirPath cfg tl now) (tl.format now cfg.FileFormat) st.sink.currFileIdx] ∧
    (rotateData cfg tl now len st).2.sink.inited = true ∧
    (rotateData cfg tl now len st).2.sink.currdir = dirPath cfg tl now ∧
    (rotateData cfg tl now len st).2.sink.currfile
      = candidatePath (dirPath cfg tl now) (tl.format now cfg.FileFormat) st.sink.currFileIdx ∧
    (rotateData cfg tl now len st).2.sink.currFileIdx = 0 ∧
    (rotateData cfg tl now len st).2.sink.currFileSize = 0 := by
  obtain ⟨a1, -, -, a4, a5, a6, -, a8, a9⟩ := prepDir_frame cfg tl now st
  rw [rotateData_eq, a5, a6, if_pos hfile]
  obtain ⟨-, r2, r3, r4, r5, r6, r7, r8⟩ := reopen_ok cfg
    { (prepDir cfg tl now st).2.sink with
        currFileIdx := 0, currFileSize := 0,
        currfile := candidatePath (dirPath cfg tl now) (tl.format now cfg.FileFormat)
          st.sink.currFileIdx }
    (prepDir cfg tl now st).2.world (a9 hok)
  rw [a1] at r2 r3
  exact ⟨r2, r3, r4.trans a8, r5.trans a4, r6, r7, r8⟩

/-- Size rollover with every I/O call succeeding. -/
theorem rotateData_size {Time : Type} (cfg : Config) (tl : TimeLib Time) (now : Time)
    (len : Nat) (st : State) (hok : st.world.allOk)
    (hfile : st.sink.currfile =
      candidatePath (dirPath cfg tl now) (tl.format now cfg.FileFormat) st.sink.currFileIdx)
    (hsize : cfg.MaxFileSize > 0 ∧ st.sink.currFileSize + (len : Int) > cfg.MaxFileSize) :
    (rotateData cfg tl now len st).2.Holding cfg st.world.handles.length [] ∧
    (rotateData cfg tl now len st).2.world.handles.map FileRec.path
      = st.world.handles.map FileRec.path ++
        [sprintfPath (dirPath cfg tl now) (tl.format now cfg.FileFormat)
          (st.sink.currFileIdx + 1)] ∧
    (rotateData cfg tl now len st).2.sink.inited = true ∧
    (rotateData cfg tl now len st).2.sink.currdir = dirPath cfg tl now ∧
    (rotateData cfg tl now len st).2.sink.currfile
      = sprintfPath (dirPath cfg tl now) (tl.format now cfg.FileFormat)
          (st.sink.currFileIdx + 1) ∧
    (rotateData cfg tl now len st).2.sink.currFileIdx = st.sink.currFileIdx + 1 ∧
    (rotateData cfg tl now len st).2.sink.currFileSize = 0 := by
  obtain ⟨a1, -, -, a4, a5, a6, a7, a8, a9⟩ := prepDir_frame cfg tl now st
  rw [rotateData_eq, a5, a6, a7, if_neg (by simpa using hfile), if_pos hsize]
  obtain ⟨-, r2, r3, r4, r5, r6, r7, r8⟩ := reopen_ok cfg
    { (prepDir cfg tl now st).2.sink with
        currFileIdx := st.sink.currFileIdx + 1, currFileSize := 0,
        currfile := sprintfPath (dirPath cfg tl now) (tl.format now cfg.FileFormat)
          (st.sink.currFileIdx + 1) }
    (prepDir cfg tl now st).2.world (a9 hok)
  rw [a1] at r2 r3
  exact ⟨r2, r3, r4.trans a8, r5.trans a4, r6, r7, r8⟩

theorem sprintfPath_one (dir bucket : String) :
    sprintfPath dir bucket 1 = dir ++ bucket ++ ".0001" := by
  unfold sprintfPath
  have h : fmt04d 1 = "0001" := by decide
  rw [h, String.append_assoc (dir ++ bucket)]
  rfl

theorem fileWrite_paths (w : World) (h : Nat) (p : Bytes) :
    (fileWrite w h p).2.2.handles.map FileRec.path = w.handles.map FileRec.path := by
  unfold fileWrite
  split
  · rfl
  · split
    · have hh := popResp_handles w
      split
      · rename_i w1 hp
        rw [hp] at hh
        simp only [] at hh
        simp [updateAt_map, hh]
      · rename_i k w1 hp
        rw [hp] at hh
        simp only [] at hh
        simp [updateAt_map, hh]
    · rfl

theorem bufFlush_paths (b : BufWriter) (w : World) :
    (bufFlush b w).2.handles.map FileRec.path = w.handles.map FileRec.path := by
  unfold bufFlush
  split
  · rfl
  · split
    · rfl
    · have h := fileWrite_paths w b.wr b.buf
      split
      rename_i n e w1 hfw
      rw [hfw] at h
      simp only [] at h
      split
      · exact h
      · cases e <;> exact h

theorem bufWriteLoop_paths (fuel : Nat) (b : BufWriter) (w : World) (p : Bytes) (nn : Nat) :
    (bufWriteLoop fuel b w p nn).2.1.handles.map FileRec.path = w.handles.map FileRec.path := by
  induction fuel generalizing b w p nn with
  | zero => rfl
  | succ fuel ih =>
    unfold bufWriteLoop
    split
    · split
      · have h := fileWrite_paths w b.wr p
        split
        rename_i n e w1 hfw
        rw [hfw] at h
        rw [ih]
        exact h
      · simp only []
        have h := bufFlush_paths { b with buf := b.buf ++ p.take (min b.available p.length) } w
        rw [ih]
        exact h
    · rfl

theorem bufWrite_paths (b : BufWriter) (w : World) (p : Bytes) :
    (bufWrite b w p).2.1.handles.map FileRec.path = w.handles.map FileRec.path := by
  unfold bufWrite
  have h := bufWriteLoop_paths 2 b w p 0
  split
  rename_i b1 w1 p1 nn hl
  rw [hl] at h
  split <;> exact h

theorem save_paths (cfg : Config) (st : State) :
    (save cfg st).world.handles.map FileRec.path = st.world.handles.map FileRec.path := by
  unfold save
  cases hb : cfg.EnableBufio
  · cases hl : st.sink.logfile <;> simp [syncFile]
  · cases hf : st.sink.filewriter with
    | none => simp
    | some b =>
      have h := bufFlush_paths b st.world
      simp [h]

theorem fileWrite_le (w : World) (h : Nat) (p : Bytes) : (fileWrite w h p).1 ≤ p.length := by
  unfold fileWrite
  split
  · exact Nat.zero_le _
  · split
    · split
      · exact Nat.le_refl _
      · exact Nat.min_le_right _ _
    · exact Nat.zero_le _

/-- The loop of `b.Write(p)` keeps count: what was taken plus what is left is
the length of `p`. -/
theorem bufWriteLoop_count (fuel : Nat) (b : BufWriter) (w : World) (p : Bytes) (nn : Nat) :
    (bufWriteLoop fuel b w p nn).2.2.2 + (bufWriteLoop fuel b w p nn).2.2.1.length
      = nn + p.length := by
  induction fuel generalizing b w p nn with
  | zero => rfl
  | succ fuel ih =>
    by_cases hc : p.length > b.available ∧ b.err = none
    · by_cases hb : b.buf.length = 0
      · rw [bufWriteLoop_direct fuel b w p nn hc hb, ih]
        have := fileWrite_le w b.wr p
        simp only [List.length_drop]
        omega
      · rw [bufWriteLoop_fill fuel b w p nn hc hb, ih]
        have : min b.available p.length ≤ p.length := Nat.min_le_right _ _
        simp only [List.length_drop]
        omega
    · rw [bufWriteLoop_stop _ _ _ _ _ hc]

/-- A `b.Write(p)` that returns no error has accepted all of `p`. -/
theorem bufWrite_count (b : BufWriter) (w : World) (p : Bytes)
    (he : (bufWrite b w p).2.2.2 = none) : (bufWrite b w p).2.2.1 = p.length := by
  have hcount := bufWriteLoop_count 2 b w p 0
  unfold bufWrite at he ⊢
  rcases hl : bufWriteLoop 2 b w p 0 with ⟨b1, w1, p1, nn⟩
  rw [hl] at hcount he
  simp only [] at hcount he ⊢
  cases hb1 : b1.err with
  | none => simp only []; omega
  | some e => rw [hb1] at he; simp at he

/-- Whatever the I/O outcomes: a write that returns no error took all of `p`,
through an open file or a buffered writer. -/
theorem writeCore_some (cfg : Config) (p : Bytes) (st st1 : State) (n : Nat)
    (e : Option GoErr) (h : writeCore cfg p st = some (n, e, st1)) :
    st1.sink.currFileSize = st.sink.currFileSize ∧
    st1.world.handles.map FileRec.path = st.world.handles.map FileRec.path ∧
    (e = none → n = p.length ∧ ¬ (st.sink.logfile = none ∧ st.sink.filewriter = none)) := by
  unfold writeCore at h
  cases hb : cfg.EnableBufio
  · rw [hb] at h
    simp only [Bool.false_eq_true, if_false] at h
    cases hl : st.sink.logfile with
    | none =>
      rw [hl] at h
      simp only [fileWriteNil, Option.some.injEq, Prod.mk.injEq] at h
      obtain ⟨h1, h2, h3⟩ := h
      subst h1 h2 h3
      exact ⟨rfl, rfl, fun he => by cases he⟩
    | some f =>
      rw [hl] at h
      simp only [fileWriteNil, Option.some.injEq, Prod.mk.injEq] at h
      obtain ⟨h1, h2, h3⟩ := h
      have hc := fileWrite_count st.world f p
      have hp := fileWrite_paths st.world f p
      rw [h1, h2] at hc
      subst h3
      exact ⟨rfl, hp, fun he => ⟨hc he, fun hh => by cases hh.1⟩⟩
  · rw [hb] at h
    simp only [if_true] at h
    cases hf : st.sink.filewriter with
    | none => rw [hf] at h; cases h
    | some b =>
      rw [hf] at h
      simp only [Option.some.injEq, Prod.mk.injEq] at h
      obtain ⟨h1, h2, h3⟩ := h
      have hc := bufWrite_count b st.world p
      have hp := bufWrite_paths b st.world p
      rw [h1, h2] at hc
      subst h3
      exact ⟨rfl, hp, fun he => ⟨hc he, fun hh => by cases hh.2⟩⟩

/-- Whatever the I/O outcomes: when the write after the rotation check returns
`(n, nil)`, `n` is the payload length, it was added to `currFileSize`, and the
sink had an open file or a buffered writer. -/
theorem writeTail_ret (cfg : Config) (p : Bytes) (st : State) (n : Nat)
    (h : (writeTail cfg p st).1 = Outcome.ret n none) :
    n = p.length ∧
    (writeTail cfg p st).2.sink.currFileSize = st.sink.currFileSize + (p.length : Int) ∧
    (writeTail cfg p st).2.world.handles.map FileRec.path = st.world.handles.map FileRec.path ∧
    ¬ (st.sink.logfile = none ∧ st.sink.filewriter = none) := by
  rw [writeTail_eq] at h ⊢
  cases hc : writeCore cfg p st with
  | none => rw [hc] at h; cases h
  | some r =>
    obtain ⟨m, e, st1⟩ := r
    rw [hc] at h
    simp only [Outcome.ret.injEq] at h
    obtain ⟨h1, h2⟩ := h
    subst h1 h2
    obtain ⟨a1, a2, a3⟩ := writeCore_some cfg p st st1 m none hc
    obtain ⟨b1, b2⟩ := a3 rfl
    subst b1
    refine ⟨rfl, ?_, ?_, b2⟩
    · cases hs : cfg.SaveEach
      · simp only [Bool.false_eq_true, if_false]; rw [a1]
      · simp only [if_true]
        rw [(save_frame cfg _).2.2.2.2.2.1]
        simp only []; rw [a1]
    · cases hs : cfg.SaveEach
      · simp only [Bool.false_eq_true, if_false]; exact a2
      · simp only [if_true]
        rw [save_paths]
        exact a2

theorem newFile_frame (cfg : Config) (path : String) (s : Sink) (w : World) :
    (newFile cfg path ⟨s, w⟩).2.sink.inited = s.inited ∧
    (newFile cfg path ⟨s, w⟩).2.sink.currdir = s.currdir ∧
    (newFile cfg path ⟨s, w⟩).2.sink.currfile = s.currfile ∧
    (newFile cfg path ⟨s, w⟩).2.sink.currFileIdx = s.currFileIdx ∧
    (newFile cfg path ⟨s, w⟩).2.sink.currFileSize = s.currFileSize ∧
    (((newFile cfg path ⟨s, w⟩).2.sink.logfile = none ∧
        (newFile cfg path ⟨s, w⟩).2.sink.filewriter = none) ∨
      (newFile cfg path ⟨s, w⟩).2.world.handles.map FileRec.path
        = w.handles.map FileRec.path ++ [path]) := by
  have hh := popResp_handles w
  unfold newFile openFile
  rcases hp : popResp w with ⟨r, w2⟩
  rw [hp] at hh
  simp only [] at hh
  cases r with
  | ok =>
    cases hb : cfg.EnableBufio
    · refine ⟨rfl, rfl, rfl, rfl, rfl, Or.inr ?_⟩
      simp [hh]
    · refine ⟨rfl, rfl, rfl, rfl, rfl, Or.inr ?_⟩
      simp [hh]
  | fail k => exact ⟨rfl, rfl, rfl, rfl, rfl, Or.inl ⟨rfl, rfl⟩⟩

/-- Whatever the I/O outcomes, closing and reopening keeps the sink's
bookkeeping, and either leaves no file and no writer or has opened `currfile`. -/
theorem reopen_frame (cfg : Config) (s : Sink) (w : World) :
    (reopen cfg s w).2.sink.inited = s.inited ∧
    (reopen cfg s w).2.sink.currdir = s.currdir ∧
    (reopen cfg s w).2.sink.currfile = s.currfile ∧
    (reopen cfg s w).2.sink.currFileIdx = s.currFileIdx ∧
    (reopen cfg s w).2.sink.currFileSize = s.currFileSize ∧
    (((reopen cfg s w).2.sink.logfile = none ∧ (reopen cfg s w).2.sink.filewriter = none) ∨
      (reopen cfg s w).2.world.handles.map FileRec.path
        = w.handles.map FileRec.path ++ [s.currfile]) := by
  have h := newFile_frame cfg s.currfile s (closeLog s w)
  rw [closeLog_paths] at h
  exact h

/-- The write after a size rollover that returns no error, whatever the other
I/O outcomes. -/
theorem rolled_over {Time : Type} (cfg : Config) (tl : TimeLib Time) (now : Time)
    (p : Bytes) (st : State) (n : Nat)
    (hfile : st.sink.currfile =
      candidatePath (dirPath cfg tl now) (tl.format now cfg.FileFormat) st.sink.currFileIdx)
    (hsize : cfg.MaxFileSize > 0 ∧ st.sink.currFileSize + (p.length : Int) > cfg.MaxFileSize)
    (hret : (writeTail cfg p (rotateData cfg tl now p.length st).2).1 = Outcome.ret n none) :
    RolledOver (dirPath cfg tl now) (tl.format now cfg.FileFormat) st p.length
      (writeTail cfg p (rotateData cfg tl now p.length st).2) := by
  obtain ⟨a1, -, -, -, a5, a6, a7, -, -⟩ := prepDir_frame cfg tl now st
  have hrot : rotateData cfg tl now p.length st = reopen cfg
      { (prepDir cfg tl now st).2.sink with
          currFileIdx := st.sink.currFileIdx + 1, currFileSize := 0,
          currfile := sprintfPath (dirPath cfg tl now) (tl.format now cfg.FileFormat)
            (st.sink.currFileIdx + 1) }
      (prepDir cfg tl now st).2.world := by
    rw [rotateData_eq, a5, a6, a7, if_neg (by simpa using hfile), if_pos hsize]
  obtain ⟨-, -, r3, r4, r5, r6⟩ := reopen_frame cfg
    { (prepDir cfg tl now st).2.sink with
        currFileIdx := st.sink.currFileIdx + 1, currFileSize := 0,
        currfile := sprintfPath (dirPath cfg tl now) (tl.format now cfg.FileFormat)
          (st.sink.currFileIdx + 1) }
    (prepDir cfg tl now st).2.world
  rw [← hrot] at r3 r4 r5 r6
  rw [a1] at r6
  simp only [] at r3 r4 r5 r6
  obtain ⟨t1, t2, t3, t4⟩ := writeTail_ret cfg p _ n hret
  obtain ⟨-, -, -, f4, f5, -⟩ := writeTail_frame cfg p (rotateData cfg tl now p.length st).2
  have hcf : (writeTail cfg p (rotateData cfg tl now p.length st).2).2.sink.currfile
      = dirPath cfg tl now ++ tl.format now cfg.FileFormat ++ "." ++
          fmt04d (st.sink.currFileIdx + 1) := by
    rw [f4, r3]; rfl
  refine ⟨by rw [hret, t1], hcf, f5.trans r4, ?_, ?_, ?_⟩
  · rw [t2, r5]; simp
  · rcases r6 with r6 | r6
    · exact absurd r6 t4
    · rw [t3, r6, f4, r3]
  · intro h0
    rw [f4, r3, h0]
    exact sprintfPath_one _ _

/-- C3: with `MaxFileSize > 0` and the current file being the file of the
payload's directory, bucket and the current index `k`, a `Write` or
`WriteString` with `currFileSize + len > MaxFileSize` that returns without
error (so that the open and the write succeeded) has returned `len`, made
`currfile` the path with suffix `.` and `k+1` in `%04d` (`.0001` from index 0),
opened that file, set the index to `k+1` and `currFileSize` to `len`. -/
theorem size_rollover_next_index {Time : Type} (cfg : Config) (tl : TimeLib Time)
    (clock now : Time) (p : GoSlice) (str : Bytes) (st : State) (n : Nat)
    (hmax : cfg.MaxFileSize > 0)
    (hfile : st.sink.currfile =
      candidatePath (dirPath cfg tl now) (tl.format now cfg.FileFormat) st.sink.currFileIdx) :
    (timeOfData cfg tl clock p = TimeStep.at now →
      st.sink.currFileSize + (p.elems.length : Int) > cfg.MaxFileSize →
      (Write cfg tl clock p st).1 = Outcome.ret n none →
      RolledOver (dirPath cfg tl now) (tl.format now cfg.FileFormat) st p.elems.length
        (Write cfg tl clock p st)) ∧
    (timeOfString cfg tl clock str = TimeStep.at now →
      st.sink.currFileSize + (str.length : Int) > cfg.MaxFileSize →
      (WriteString cfg tl clock str st).1 = Outcome.ret n none →
      RolledOver (dirPath cfg tl now) (tl.format now cfg.FileFormat) st str.length
        (WriteString cfg tl clock str st)) := by
  constructor
  · intro ht hsize hret
    simp only [Write, checkFileWithData, ht] at hret ⊢
    exact rolled_over cfg tl now p.elems st n hfile ⟨hmax, hsize⟩ hret
  · intro ht hsize hret
    simp only [WriteString, checkFileWithString, ht, rotateString_eq, writeTailString_eq] at hret ⊢
    exact rolled_over cfg tl now str st n hfile ⟨hmax, hsize⟩ hret

theorem size_rollover_next_index_witness :
    (dayCfg false false).MaxFileSize > 0 ∧
    afterSixty.sink.currfile = "logs/2024-01-01" ∧
    afterSixty.sink.currFileIdx = 0 ∧
    afterSixty.sink.currFileSize + (sixty.elems.length : Int) > (dayCfg false false).MaxFileSize ∧
    RolledOver "logs/" "2024-01-01" afterSixty 60
      (Write (dayCfg false false) dayLib jan1 sixty afterSixty) :=
  ⟨by decide, by decide, by decide, by decide,
    (size_rollover_next_index (dayCfg false false) dayLib jan1 jan1 sixty sixty.elems afterSixty
      60 (by decide) (by decide)).1 (by decide) (by decide) (by decide)⟩

/-- One more write to the same file. -/
theorem steady_tail {Time : Type} (cfg : Config) (tl : TimeLib Time) (now : Time)
    (p : Bytes) (st : State) (h : Nat) (acc : Bytes) (paths : List String)
    (hst : st.Steady cfg (dirPath cfg tl now) (tl.format now cfg.FileFormat) h acc paths)
    (hsize : cfg.MaxFileSize ≤ 0 ∨ ((acc.length + p.length : Nat) : Int) ≤ cfg.MaxFileSize) :
    (writeTail cfg p (rotateData cfg tl now p.length st).2).2.Steady cfg (dirPath cfg tl now)
      (tl.format now cfg.FileFormat) h (acc ++ p) paths := by
  obtain ⟨s1, s2, s3, s4, s5, s6, s7⟩ := hst
  have hno : ¬ (cfg.MaxFileSize > 0 ∧
      st.sink.currFileSize + (p.length : Int) > cfg.MaxFileSize) := by
    rw [s6]
    push_cast at hsize
    omega
  have hcand : st.sink.currfile = candidatePath (dirPath cfg tl now)
      (tl.format now cfg.FileFormat) st.sink.currFileIdx := by
    rw [s4, s5]; rfl
  rw [rotateData_same cfg tl now p.length st s2 s3 hcand hno]
  obtain ⟨-, t2, t3, t4, t5, t6, t7, t8⟩ := writeTail_ok cfg p st h acc s1
  refine ⟨t2, t4.trans s2, t5.trans s3, t6.trans s4, t7.trans s5, ?_, t3.trans s7⟩
  rw [t8, s6]
  simp

theorem steady_step {Time : Type} (cfg : Config) (tl : TimeLib Time) (dir bucket : String)
    (o : Op Time) (st : State) (h : Nat) (acc : Bytes) (paths : List String)
    (ho : o.WritesTo cfg tl dir bucket) (hst : st.Steady cfg dir bucket h acc paths)
    (hsize : cfg.MaxFileSize ≤ 0 ∨
      ((acc.length + o.payload.length : Nat) : Int) ≤ cfg.MaxFileSize) :
    (step cfg tl st o).Steady cfg dir bucket h (acc ++ o.payload) paths := by
  cases o with
  | write clock p =>
    obtain ⟨now, ht, hd, hb⟩ := ho
    subst hd hb
    simp only [step, Write, checkFileWithData, ht, Op.payload]
    exact steady_tail cfg tl now p.elems st h acc paths hst hsize
  | writeString clock str =>
    obtain ⟨now, ht, hd, hb⟩ := ho
    subst hd hb
    simp only [step, WriteString, checkFileWithString, ht, Op.payload, rotateString_eq,
      writeTailString_eq]
    exact steady_tail cfg tl now str st h acc paths hst hsize
  | save => exact absurd ho id
  | init now => exact absurd ho id

theorem steady_run {Time : Type} (cfg : Config) (tl : TimeLib Time) (dir bucket : String)
    (ops : List (Op Time)) (st : State) (h : Nat) (acc : Bytes) (paths : List String)
    (ho : ∀ o ∈ ops, o.WritesTo cfg tl dir bucket) (hst : st.Steady cfg dir bucket h acc paths)
    (hsize : cfg.MaxFileSize ≤ 0 ∨
      ((acc.length + (payloads ops).length : Nat) : Int) ≤ cfg.MaxFileSize) :
    (run cfg tl st ops).Steady cfg dir bucket h (acc ++ payloads ops) paths := by
  induction ops generalizing st acc with
  | nil => simpa [run, payloads] using hst
  | cons o ops ih =>
    have hpl : payloads (o :: ops) = o.payload ++ payloads ops := by
      simp [payloads]
    rw [hpl] at hsize ⊢
    have hstep := steady_step cfg tl dir bucket o st h acc paths (ho o (by simp)) hst (by
      rcases hsize with hs | hs
      · exact Or.inl hs
      · right
        simp only [List.length_append] at hs
        push_cast at hs ⊢
        omega)
    have := ih (step cfg tl st o) (acc ++ o.payload) (fun x hx => ho x (by simp [hx])) hstep (by
      rcases hsize with hs | hs
      · exact Or.inl hs
      · right
        simp only [List.length_append] at hs ⊢
        push_cast at hs ⊢
        omega)
    rw [List.append_assoc] at this
    exact this

/-- The first write of a fresh sink, with every I/O call succeeding. -/
theorem fresh_step {Time : Type} (cfg : Config) (tl : TimeLib Time) (dir bucket : String)
    (o : Op Time) (oracle : List Resp) (hok : ∀ r ∈ oracle, r = Resp.ok)
    (ho : o.WritesTo cfg tl dir bucket) (hpath : dir ++ bucket ≠ "") :
    (step cfg tl (State.fresh oracle) o).Steady cfg dir bucket 0 o.payload [dir ++ bucket] := by
  have key : ∀ (now : Time) (p : Bytes), dirPath cfg tl now = dir →
      tl.format now cfg.FileFormat = bucket →
      (writeTail cfg p (rotateData cfg tl now p.length (State.fresh oracle)).2).2.Steady cfg
        dir bucket 0 p [dir ++ bucket] := by
    intro now p hd hb
    have hne : (State.fresh oracle).sink.currfile ≠ candidatePath (dirPath cfg tl now)
        (tl.format now cfg.FileFormat) (State.fresh oracle).sink.currFileIdx := by
      rw [hd, hb]
      exact fun e => hpath e.symm
    obtain ⟨r1, r2, r3, r4, r5, r6, r7⟩ :=
      rotateData_change cfg tl now p.length (State.fresh oracle) hok hne
    obtain ⟨-, t2, t3, t4, t5, t6, t7, t8⟩ := writeTail_ok cfg p _ _ _ r1
    simp only [hd, hb] at r2 r4 r5
    refine ⟨?_, t4.trans r3, t5.trans r4, ?_, t7.trans r6, ?_, ?_⟩
    · simpa using t2
    · rw [t6, r5]; rfl
    · rw [t8, r7]; simp
    · rw [t3, r2]; rfl
  cases o with
  | write clock p =>
    obtain ⟨now, ht, hd, hb⟩ := ho
    simp only [step, Write, checkFileWithData, ht, Op.payload]
    exact key now p.elems hd hb
  | writeString clock str =>
    obtain ⟨now, ht, hd, hb⟩ := ho
    simp only [step, WriteString, checkFileWithString, ht, Op.payload, rotateString_eq,
      writeTailString_eq]
    exact key now str hd hb
  | save => exact absurd ho id
  | init now => exact absurd ho id

/-- C8: a fresh sink, buffered or not, every I/O call succeeding, and a
non-empty sequence of `Write`/`WriteString` calls that all resolve to directory
`dir` and bucket `bucket` without a size rollover: after `Save` exactly one
file has been opened, `dir ++ bucket`, it is the open current file, and the
bytes appended to it are the payloads in write order. -/
theorem single_file_round_trip {Time : Type} (cfg : Config) (tl : TimeLib Time)
    (dir bucket : String) (oracle : List Resp) (o : Op Time) (ops : List (Op Time))
    (hok : ∀ r ∈ oracle, r = Resp.ok)
    (ho : ∀ x ∈ o :: ops, x.WritesTo cfg tl dir bucket)
    (hpath : dir ++ bucket ≠ "")
    (hsize : cfg.MaxFileSize ≤ 0 ∨ ops = [] ∨
      ((payloads (o :: ops)).length : Int) ≤ cfg.MaxFileSize) :
    (Save cfg (run cfg tl (State.fresh oracle) (o :: ops))).sink.logfile = some 0 ∧
    (Save cfg (run cfg tl (State.fresh oracle) (o :: ops))).sink.currfile = dir ++ bucket ∧
    (Save cfg (run cfg tl (State.fresh oracle) (o :: ops))).world.handles.map FileRec.path
      = [dir ++ bucket] ∧
    (Save cfg (run cfg tl (State.fresh oracle) (o :: ops))).world.isOpenAt 0 ∧
    (Save cfg (run cfg tl (State.fresh oracle) (o :: ops))).world.appendedAt 0
      = payloads (o :: ops) := by
  have hfirst := fresh_step cfg tl dir bucket o oracle hok (ho o (by simp)) hpath
  have hpl : payloads (o :: ops) = o.payload ++ payloads ops := by
    simp [payloads]
  have hrun : (run cfg tl (State.fresh oracle) (o :: ops)).Steady cfg dir bucket 0
      (payloads (o :: ops)) [dir ++ bucket] := by
    rw [hpl]
    by_cases hnil : ops = []
    · subst hnil
      simpa [run, payloads] using hfirst
    · refine steady_run cfg tl dir bucket ops (step cfg tl (State.fresh oracle) o) 0
        o.payload [dir ++ bucket] (fun x hx => ho x (by simp [hx])) hfirst ?_
      rcases hsize with hs | hs | hs
      · exact Or.inl hs
      · exact absurd hs hnil
      · right
        rw [hpl, List.length_append] at hs
        exact hs
  obtain ⟨s1, -, -, s4, -, -, s7⟩ := hrun
  obtain ⟨c1, c2, c3⟩ := save_holding cfg _ 0 _ s1
  obtain ⟨-, -, -, d4, -⟩ := save_frame cfg (run cfg tl (State.fresh oracle) (o :: ops))
  exact ⟨c1.2.1, d4.trans s4, c3.trans s7, c1.2.2.1, c2⟩

theorem single_file_round_trip_witness :
    (dayCfg true true).MaxFileSize > 0 ∧
    payloads [Op.write jan2 stampedLine, Op.writeString jan2 stampedLine.elems]
      = stampedLine.elems ++ stampedLine.elems ∧
    (Save (dayCfg true true) (run (dayCfg true true) dayLib (State.fresh [])
      [Op.write jan2 stampedLine, Op.writeString jan2 stampedLine.elems])).world.handles.map
        FileRec.path = ["logs/" ++ "2024-01-01"] ∧
    (Save (dayCfg true true) (run (dayCfg true true) dayLib (State.fresh [])
      [Op.write jan2 stampedLine, Op.writeString jan2 stampedLine.elems])).world.appendedAt 0
        = payloads [Op.write jan2 stampedLine, Op.writeString jan2 stampedLine.elems] :=
  ⟨by decide, by decide,
    (single_file_round_trip (dayCfg true true) dayLib "logs/" "2024-01-01" []
      (Op.write jan2 stampedLine) [Op.writeString jan2 stampedLine.elems]
      (by intro r hr; cases hr)
      (by
        intro x hx
        simp only [List.mem_cons, List.mem_singleton, List.not_mem_nil, or_false] at hx
        rcases hx with rfl | rfl
        · exact ⟨jan1, by decide, by decide, by decide⟩
        · exact ⟨jan1, by decide, by decide, by decide⟩)
      (by decide) (Or.inr (Or.inr (by decide)))).2.2.1,
    (single_file_round_trip (dayCfg true true) dayLib "logs/" "2024-01-01" []
      (Op.write jan2 stampedLine) [Op.writeString jan2 stampedLine.elems]
      (by intro r hr; cases hr)
      (by
        intro x hx
        simp only [List.mem_cons, List.mem_singleton, List.not_mem_nil, or_false] at hx
        rcases hx with rfl | rfl
        · exact ⟨jan1, by decide, by decide, by decide⟩
        · exact ⟨jan1, by decide, by decide, by decide⟩)
      (by decide) (Or.inr (Or.inr (by decide)))).2.2.2.2⟩

/-- C12: after the three writes of the specification's scenario `currfile` is
`logs/2024-01-02.0001` while directory, bucket and index compose
`logs/2024-01-02`; a fourth write on the same day leaves directory, bucket and
index as they are and changes `currfile`. -/
theorem stale_suffix_breaks_path_composition :
    afterNextDay.sink.currdir = "logs/" ∧
    afterNextDay.sink.currFileIdx = 0 ∧
    afterNextDay.sink.currfile = "logs/2024-01-02.0001" ∧
    candidatePath "logs/" (dayLib.format jan2 (dayCfg false false).FileFormat) 0
      = "logs/2024-01-02" ∧
    (Write (dayCfg false false) dayLib jan2 sixty afterNextDay).2.sink.currdir = "logs/" ∧
    (Write (dayCfg false false) dayLib jan2 sixty afterNextDay).2.sink.currFileIdx = 0 ∧
    (Write (dayCfg false false) dayLib jan2 sixty afterNextDay).2.sink.currfile
      = "logs/2024-01-02" := by
  decide

/-- C16: at the input of C1 (open file, timestamp that does not parse)
`inited`, `currdir`, `currfile`, the index and the open handle stay as they
are and no file is opened, but `currFileSize` grows from 13 to 26 and the
payload is appended to the current file. -/
theorem parse_failure_touches_file :
    timeOfData (dayCfg false true) dayLib jan1 unstampedLine = TimeStep.parseFailed ∧
    (Write (dayCfg false true) dayLib jan1 unstampedLine afterStampedLine).2.sink.currfile
      = afterStampedLine.sink.currfile ∧
    (Write (dayCfg false true) dayLib jan1 unstampedLine afterStampedLine).2.sink.logfile
      = afterStampedLine.sink.logfile ∧
    (Write (dayCfg false true) dayLib jan1 unstampedLine afterStampedLine).2.world.handles.length
      = afterStampedLine.world.handles.length ∧
    afterStampedLine.sink.currFileSize = 13 ∧
    (Write (dayCfg false true) dayLib jan1 unstampedLine afterStampedLine).2.sink.currFileSize
      = 26 ∧
    afterStampedLine.world.appendedAt 0 = stampedLine.elems ∧
    (Write (dayCfg false true) dayLib jan1 unstampedLine afterStampedLine).2.world.appendedAt 0
      = stampedLine.elems ++ unstampedLine.elems := by
  decide

theorem sliceBytes_within (s spare : Bytes) (lo hi : Int) (h : hi ≤ (s.length : Int)) :
    sliceBytes ⟨s, spare⟩ lo hi = sliceString s lo hi := by
  unfold sliceBytes sliceString GoSlice.cap
  by_cases hc : 0 ≤ lo ∧ lo ≤ hi
  · have h1 : 0 ≤ lo ∧ lo ≤ hi ∧ hi ≤ ((s.length + spare.length : Nat) : Int) :=
      ⟨hc.1, hc.2, by push_cast; omega⟩
    have h2 : 0 ≤ lo ∧ lo ≤ hi ∧ hi ≤ (s.length : Int) := ⟨hc.1, hc.2, h⟩
    simp only [h1, h2, and_self, if_true]
    have hlo : lo.toNat ≤ s.length := by omega
    have hhi : (hi - lo).toNat ≤ (s.drop lo.toNat).length := by
      simp only [List.length_drop]; omega
    rw [List.drop_append_of_le_length hlo, List.take_append_of_le_length hhi]
  · have h1 : ¬ (0 ≤ lo ∧ lo ≤ hi ∧ hi ≤ ((s.length + spare.length : Nat) : Int)) :=
      fun hh => hc ⟨hh.1, hh.2.1⟩
    have h2 : ¬ (0 ≤ lo ∧ lo ≤ hi ∧ hi ≤ (s.length : Int)) := fun hh => hc ⟨hh.1, hh.2.1⟩
    rw [if_neg h1, if_neg h2]

theorem timeOfData_eq_string {Time : Type} (cfg : Config) (tl : TimeLib Time) (clock : Time)
    (s spare : Bytes)
    (hlen : cfg.TimePrefix = "" ∨ cfg.TimeBegin + cfg.prefixLen ≤ (s.length : Int)) :
    timeOfData cfg tl clock ⟨s, spare⟩ = timeOfString cfg tl clock s := by
  unfold timeOfData timeOfString
  by_cases hp : cfg.TimePrefix = ""
  · simp [hp]
  · rcases hlen with h | h
    · exact absurd h hp
    · rw [sliceBytes_within s spare _ _ h]

/-- C19: for a string `s` that covers the extractor range (or with no
extractor) and the same clock reading and state, file system included,
`Write([]byte(s))`, whatever the spare capacity of the slice, and
`WriteString(s)` give the same rotation decision, the same count and error
and the same state. -/
theorem write_string_same_as_write {Time : Type} (cfg : Config) (tl : TimeLib Time)
    (clock : Time) (s spare : Bytes) (st : State)
    (hlen : cfg.TimePrefix = "" ∨ cfg.TimeBegin + cfg.prefixLen ≤ (s.length : Int)) :
    checkFileWithData cfg tl clock ⟨s, spare⟩ st = checkFileWithString cfg tl clock s st ∧
    Write cfg tl clock ⟨s, spare⟩ st = WriteString cfg tl clock s st := by
  have h1 : checkFileWithData cfg tl clock ⟨s, spare⟩ st
      = checkFileWithString cfg tl clock s st := by
    unfold checkFileWithData checkFileWithString
    rw [timeOfData_eq_string cfg tl clock s spare hlen, rotateString_eq]
  refine ⟨h1, ?_⟩
  unfold Write WriteString
  rw [h1]
  simp only [writeTailString_eq]

theorem write_string_same_as_write_witness :
    (dayCfg true true).TimeBegin + (dayCfg true true).prefixLen
      ≤ (stampedLine.elems.length : Int) ∧
    Write (dayCfg true true) dayLib jan2 ⟨stampedLine.elems, ascii "spare"⟩ (State.fresh [])
      = WriteString (dayCfg true true) dayLib jan2 stampedLine.elems (State.fresh []) :=
  ⟨by decide,
    (write_string_same_as_write (dayCfg true true) dayLib jan2 stampedLine.elems
      (ascii "spare") (State.fresh []) (Or.inr (by decide))).2⟩

theorem filters_of_if {V : Type} (lvl : Int) (stop : LogEnd) (logger : Logger V)
    (format : String) (v : V) :
    Filters lvl stop logger format v
      (if lvl ≥ logger.Level then
        (stop, logger.fprintln (logger.Formater lvl format v))
       else (LogEnd.returned, logger)) := by
  have hne : ∀ (l : List String) (x : String), l ++ [x] ≠ l := by
    intro l x h
    have := congrArg List.length h
    simp at this
  by_cases h : lvl ≥ logger.Level
  · rw [if_pos h]
    refine ⟨fun _ => rfl, fun hn => absurd h hn, ?_⟩
    exact ⟨fun _ => h, fun _ => hne _ _⟩
  · rw [if_neg h]
    refine ⟨fun hp => absurd hp h, fun _ => rfl, ?_⟩
    exact ⟨fun hn => absurd rfl hn, fun hp => absurd hp h⟩

/-- C18: each leveled method writes its formatted line to the writer if and
only if its level is at least `logger.Level` (then `Panic` panics and `Fatal`
exits), so with `Level = LEVEL_NONE` none of them writes, panics or exits;
`SetLevel(level)` sets `Level` and nothing else if `0 <= level <= LEVEL_NONE`
and otherwise ends the process leaving the logger as it was. -/
theorem leveled_methods_filter {V : Type} (logger : Logger V) (format : String) (v : V)
    (level : Int) :
    Filters LEVEL_DEBUG LogEnd.returned logger format v (logger.Debug format v) ∧
    Filters LEVEL_INFO LogEnd.returned logger format v (logger.Info format v) ∧
    Filters LEVEL_WARN LogEnd.returned logger format v (logger.Warn format v) ∧
    Filters LEVEL_ERROR LogEnd.returned logger format v (logger.Error format v) ∧
    Filters LEVEL_PANIC (LogEnd.panicked (logger.Formater LEVEL_PANIC format v)) logger format v
      (logger.Panic format v) ∧
    Filters LEVEL_FATAL (LogEnd.exited (-1)) logger format v (logger.Fatal format v) ∧
    (logger.Level = LEVEL_NONE →
      logger.Debug format v = (LogEnd.returned, logger) ∧
      logger.Info format v = (LogEnd.returned, logger) ∧
      logger.Warn format v = (LogEnd.returned, logger) ∧
      logger.Error format v = (LogEnd.returned, logger) ∧
      logger.Panic format v = (LogEnd.returned, logger) ∧
      logger.Fatal format v = (LogEnd.returned, logger)) ∧
    (0 ≤ level ∧ level ≤ LEVEL_NONE →
      logger.SetLevel level = (LogEnd.returned, { logger with Level := level })) ∧
    (¬ (0 ≤ level ∧ level ≤ LEVEL_NONE) →
      logger.SetLevel level = (LogEnd.exited 1, logger)) := by
  refine ⟨filters_of_if _ _ _ _ _, filters_of_if _ _ _ _ _, filters_of_if _ _ _ _ _,
    filters_of_if _ _ _ _ _, filters_of_if _ _ _ _ _, filters_of_if _ _ _ _ _, ?_, ?_, ?_⟩
  · intro hl
    simp [Logger.Debug, Logger.Info, Logger.Warn, Logger.Error, Logger.Panic, Logger.Fatal, hl,
      LEVEL_DEBUG, LEVEL_INFO, LEVEL_WARN, LEVEL_ERROR, LEVEL_PANIC, LEVEL_FATAL, LEVEL_NONE]
  · intro h
    simp [Logger.SetLevel, h]
  · intro h
    have h2 : ¬ (level ≥ 0 ∧ level ≤ LEVEL_NONE) := fun hh => h ⟨hh.1, hh.2⟩
    simp only [Logger.SetLevel, h2, if_false]

theorem leveled_methods_filter_witness :
    LEVEL_WARN ≥ (plainLogger LEVEL_WARN).Level ∧
    ((plainLogger LEVEL_WARN).Warn "disk low" ()).2.Writer = ["disk low\n"] ∧
    ¬ LEVEL_INFO ≥ (plainLogger LEVEL_WARN).Level ∧
    ((plainLogger LEVEL_WARN).Info "started" ()).2.Writer = [] ∧
    ((plainLogger LEVEL_WARN).SetLevel 7).1 = LogEnd.exited 1 :=
  ⟨by decide,
    congrArg (fun r => r.2.Writer)
      ((leveled_methods_filter (plainLogger LEVEL_WARN) "disk low" () 7).2.2.1.1 (by decide)),
    by decide,
    congrArg (fun r => r.2.Writer)
      ((leveled_methods_filter (plainLogger LEVEL_WARN) "started" () 7).2.1.2.1 (by decide)),
    congrArg (fun r => r.1)
      ((leveled_methods_filter (plainLogger LEVEL_WARN) "started" () 7).2.2.2.2.2.2.2.2
        (by decide))⟩

theorem atDirStep_inited {Time : Type} (cfg : Config) (tl : TimeLib Time) (now : Time)
    (st : State) : (atDirStep cfg tl now st).sink.inited = true := by
  unfold atDirStep
  cases hi : st.sink.inited
  · simp only [Bool.not_false, if_true]
    exact (Init_frame cfg tl now st).2.2.2.2.2.2.2.1
  · simpa using hi

theorem prepDir_failed {Time : Type} (cfg : Config) (tl : TimeLib Time) (now : Time)
    (st : State) (k : Nat) (rest : List Resp)
    (hdir : (atDirStep cfg tl now st).sink.currdir ≠ dirPath cfg tl now)
    (hfail : (atDirStep cfg tl now st).world.oracle = Resp.fail k :: rest) :
    prepDir cfg tl now st = (some GoErr.mkdir, dirStepFailed cfg tl now st rest) := by
  have h : prepDir cfg tl now st =
      if (atDirStep cfg tl now st).sink.currdir ≠ dirPath cfg tl now then
        match makeDir (dirPath cfg tl now) (atDirStep cfg tl now st).world with
        | (e, w1) => (e, ⟨{ (atDirStep cfg tl now st).sink with
            currdir := dirPath cfg tl now }, w1⟩)
      else (none, atDirStep cfg tl now st) := rfl
  rw [h, if_pos hdir]
  unfold makeDir mkdirAll popResp dirStepFailed
  rw [hfail]

theorem rotateData_after_failed_mkdir {Time : Type} (cfg : Config) (tl : TimeLib Time)
    (now : Time) (len : Nat) (st : State) (k : Nat) (rest : List Resp)
    (hdir : (atDirStep cfg tl now st).sink.currdir ≠ dirPath cfg tl now)
    (hfail : (atDirStep cfg tl now st).world.oracle = Resp.fail k :: rest) :
    (rotateData cfg tl now len st).2
      = (rotateData cfg tl now len (dirStepFailed cfg tl now st rest)).2 := by
  have h1 := prepDir_failed cfg tl now st k rest hdir hfail
  have h2 : prepDir cfg tl now (dirStepFailed cfg tl now st rest)
      = (none, dirStepFailed cfg tl now st rest) :=
    prepDir_same cfg tl now _ (atDirStep_inited cfg tl now st) rfl
  rw [rotateData_eq, rotateData_eq, h1, h2]
  simp only []
  split
  · rfl
  · split <;> rfl

/-- Whatever the I/O outcomes, after the rotation check `currdir` is the
directory of the time. -/
theorem rotateData_currdir {Time : Type} (cfg : Config) (tl : TimeLib Time) (now : Time)
    (len : Nat) (st : State) :
    (rotateData cfg tl now len st).2.sink.currdir = dirPath cfg tl now := by
  have a4 := (prepDir_frame cfg tl now st).2.2.2.1
  rw [rotateData_eq]
  split
  · rw [(reopen_frame cfg _ _).2.1]; exact a4
  · split
    · rw [(reopen_frame cfg _ _).2.1]; exact a4
    · exact a4

theorem not_aborted {Time : Type} (cfg : Config) (tl : TimeLib Time) (now : Time)
    (p : Bytes) (st : State) (k : Nat) (rest : List Resp)
    (hdir : (atDirStep cfg tl now st).sink.currdir ≠ dirPath cfg tl now)
    (hfail : (atDirStep cfg tl now st).world.oracle = Resp.fail k :: rest) :
    NotAborted cfg (dirPath cfg tl now)
      (candidatePath (dirPath cfg tl now) (tl.format now cfg.FileFormat)
        (dirStepFailed cfg tl now st rest).sink.currFileIdx)
      (dirStepFailed cfg tl now st rest) p
      (writeTail cfg p (rotateData cfg tl now p.length st).2)
      (writeTail cfg p (rotateData cfg tl now p.length (dirStepFailed cfg tl now st rest)).2) := by
  have heq := rotateData_after_failed_mkdir cfg tl now p.length st k rest hdir hfail
  refine ⟨by rw [heq], ?_, ?_⟩
  · rw [(writeTail_frame cfg p _).2.2.1]
    exact rotateData_currdir cfg tl now p.length st
  · intro hne hok
    rw [heq]
    obtain ⟨r1, r2, -, -, r5, -, -⟩ :=
      rotateData_change cfg tl now p.length (dirStepFailed cfg tl now st rest) hok hne
    obtain ⟨t1, t2, t3, -, -, t6, -, -⟩ := writeTail_ok cfg p _ _ _ r1
    exact ⟨t1, t6.trans r5, t3.trans r2, by simpa using t2⟩

/-- C17: when the resolved directory differs from `currdir` and its creation
fails, `Write` and `WriteString` set `currdir` to the resolved directory and go
on exactly as from a state whose `currdir` was already that directory: the
candidate path is computed, and when it differs from `currfile` and every
further I/O call succeeds, that file is opened and accepts the payload. -/
theorem mkdir_failure_does_not_abort {Time : Type} (cfg : Config) (tl : TimeLib Time)
    (clock now : Time) (p : GoSlice) (str : Bytes) (st : State) (k : Nat) (rest : List Resp)
    (hdir : (atDirStep cfg tl now st).sink.currdir ≠ dirPath cfg tl now)
    (hfail : (atDirStep cfg tl now st).world.oracle = Resp.fail k :: rest) :
    (timeOfData cfg tl clock p = TimeStep.at now →
      NotAborted cfg (dirPath cfg tl now)
        (candidatePath (dirPath cfg tl now) (tl.format now cfg.FileFormat)
          (dirStepFailed cfg tl now st rest).sink.currFileIdx)
        (dirStepFailed cfg tl now st rest) p.elems
        (Write cfg tl clock p st)
        (Write cfg tl clock p (dirStepFailed cfg tl now st rest))) ∧
    (timeOfString cfg tl clock str = TimeStep.at now →
      NotAborted cfg (dirPath cfg tl now)
        (candidatePath (dirPath cfg tl now) (tl.format now cfg.FileFormat)
          (dirStepFailed cfg tl now st rest).sink.currFileIdx)
        (dirStepFailed cfg tl now st rest) str
        (WriteString cfg tl clock str st)
        (WriteString cfg tl clock str (dirStepFailed cfg tl now st rest))) := by
  constructor
  · intro ht
    simp only [Write, checkFileWithData, ht]
    exact not_aborted cfg tl now p.elems st k rest hdir hfail
  · intro ht
    simp only [WriteString, checkFileWithString, ht, rotateString_eq, writeTailString_eq]
    exact not_aborted cfg tl now str st k rest hdir hfail

theorem mkdir_failure_does_not_abort_witness :
    (atDirStep (dayCfg false false) dayLib jan1
      (State.fresh [Resp.ok, Resp.fail 0])).sink.currdir ≠ "logs/" ∧
    (atDirStep (dayCfg false false) dayLib jan1
      (State.fresh [Resp.ok, Resp.fail 0])).world.oracle = [Resp.fail 0] ∧
    NotAborted (dayCfg false false) "logs/" "logs/2024-01-01"
      (dirStepFailed (dayCfg false false) dayLib jan1 (State.fresh [Resp.ok, Resp.fail 0]) [])
      sixty.elems
      (Write (dayCfg false false) dayLib jan1 sixty (State.fresh [Resp.ok, Resp.fail 0]))
      (Write (dayCfg false false) dayLib jan1 sixty
        (dirStepFailed (dayCfg false false) dayLib jan1
          (State.fresh [Resp.ok, Resp.fail 0]) [])) :=
  ⟨by decide, by decide,
    (mkdir_failure_does_not_abort (dayCfg false false) dayLib jan1 jan1 sixty sixty.elems
      (State.fresh [Resp.ok, Resp.fail 0]) 0 [] (by decide) (by decide)).1 (by decide)⟩

theorem Init_loopOk {Time : Type} (cfg : Config) (tl : TimeLib Time) (now : Time) (st : State)
    (h : st.LoopOk cfg) : (Init cfg tl now st).LoopOk cfg := by
  unfold State.LoopOk at h ⊢
  unfold Init
  cases hi : st.sink.inited
  · rw [hi] at h
    simp only [Bool.false_eq_true, false_and, if_false] at h
    cases hs : cfg.SaveEach <;> cases hb : cfg.EnableBufio <;> simp [h]
  · simpa [hi] using h

theorem newFile_loops (cfg : Config) (path : String) (st : State) :
    (newFile cfg path st).2.sink.flushLoops = st.sink.flushLoops ∧
    (newFile cfg path st).2.sink.inited = st.sink.inited := by
  unfold newFile
  rcases openFile st.world path with ⟨_ | file, w1⟩
  · exact ⟨rfl, rfl⟩
  · cases cfg.EnableBufio <;> exact ⟨rfl, rfl⟩

theorem save_loops (cfg : Config) (st : State) :
    (save cfg st).sink.flushLoops = st.sink.flushLoops ∧
    (save cfg st).sink.inited = st.sink.inited := by
  unfold save
  cases cfg.EnableBufio
  · cases st.sink.logfile <;> exact ⟨rfl, rfl⟩
  · cases st.sink.filewriter <;> exact ⟨rfl, rfl⟩

theorem writeTail_loops (cfg : Config) (p : Bytes) (st : State) :
    (writeTail cfg p st).2.sink.flushLoops = st.sink.flushLoops ∧
    (writeTail cfg p st).2.sink.inited = st.sink.inited := by
  rw [writeTail_eq]
  unfold writeCore
  cases hb : cfg.EnableBufio
  · simp only [Bool.false_eq_true, if_false]
    cases cfg.SaveEach
    · exact ⟨rfl, rfl⟩
    · simp only [if_true]
      exact save_loops cfg _
  · simp only [if_true]
    cases st.sink.filewriter with
    | none => exact ⟨rfl, rfl⟩
    | some b =>
      cases cfg.SaveEach
      · exact ⟨rfl, rfl⟩
      · simp only [if_true]
        exact save_loops cfg _

theorem rotateData_loopOk {Time : Type} (cfg : Config) (tl : TimeLib Time) (now : Time)
    (len : Nat) (st : State) (h : st.LoopOk cfg) :
    (rotateData cfg tl now len st).2.LoopOk cfg ∧
    (rotateData cfg tl now len st).2.sink.inited = true := by
  have hprep : (prepDir cfg tl now st).2.LoopOk cfg := by
    unfold prepDir
    have h1 : (if !st.sink.inited then Init cfg tl now st else st).LoopOk cfg := by
      cases hi : st.sink.inited
      · simpa using Init_loopOk cfg tl now st h
      · simpa using h
    generalize (if !st.sink.inited then Init cfg tl now st else st) = st1 at h1
    simp only []
    split
    · exact h1
    · exact h1
  have hin := (prepDir_frame cfg tl now st).2.2.2.2.2.2.2.1
  have hre : ∀ s : Sink, s.flushLoops = (prepDir cfg tl now st).2.sink.flushLoops →
      s.inited = (prepDir cfg tl now st).2.sink.inited →
      (reopen cfg s (prepDir cfg tl now st).2.world).2.LoopOk cfg ∧
      (reopen cfg s (prepDir cfg tl now st).2.world).2.sink.inited = true := by
    intro s h1 h2
    obtain ⟨n1, n2⟩ := newFile_loops cfg s.currfile ⟨s, closeLog s (prepDir cfg tl now st).2.world⟩
    unfold State.LoopOk at hprep ⊢
    unfold reopen
    simp only [] at n1 n2 ⊢
    rw [n1, n2, h1, h2, hin]
    rw [hin] at hprep
    exact ⟨hprep, rfl⟩
  rw [rotateData_eq]
  split
  · exact hre _ rfl rfl
  · split
    · exact hre _ rfl rfl
    · exact ⟨hprep, hin⟩

theorem writeTail_loopOk (cfg : Config) (p : Bytes) (st : State) (h : st.LoopOk cfg) :
    (writeTail cfg p st).2.LoopOk cfg := by
  obtain ⟨a, b⟩ := writeTail_loops cfg p st
  unfold State.LoopOk at h ⊢
  rw [a, b]; exact h

theorem step_loopOk {Time : Type} (cfg : Config) (tl : TimeLib Time) (st : State)
    (op : Op Time) (h : st.LoopOk cfg) : (step cfg tl st op).LoopOk cfg := by
  cases op with
  | write clock p =>
    simp only [step, Write, checkFileWithData]
    cases timeOfData cfg tl clock p with
    | panicked => exact h
    | parseFailed => exact writeTail_loopOk cfg _ _ h
    | «at» now => exact writeTail_loopOk cfg _ _ (rotateData_loopOk cfg tl now _ st h).1
  | writeString clock str =>
    simp only [step, WriteString, checkFileWithString, writeTailString_eq]
    cases timeOfString cfg tl clock str with
    | panicked => exact h
    | parseFailed => exact writeTail_loopOk cfg _ _ h
    | «at» now =>
      rw [rotateString_eq]
      exact writeTail_loopOk cfg _ _ (rotateData_loopOk cfg tl now _ st h).1
  | save =>
    obtain ⟨a, b⟩ := save_loops cfg st
    unfold State.LoopOk at h ⊢
    simp only [step, Save, a, b]
    exact h
  | init now => exact Init_loopOk cfg tl now st h

theorem run_loopOk {Time : Type} (cfg : Config) (tl : TimeLib Time) (ops : List (Op Time))
    (st : State) (h : st.LoopOk cfg) : (run cfg tl st ops).LoopOk cfg := by
  induction ops generalizing st with
  | nil => exact h
  | cons op ops ih => exact ih _ (step_loopOk cfg tl st op h)

/-- C13, counterexample: a first write whose timestamp does not parse does not
initialise the sink: unbuffered it returns an error, buffered it leaves the
count of flush loops at 0; the next write, with a timestamp, initialises. -/
theorem first_write_may_not_initialise :
    timeOfData (dayCfg true true) dayLib jan1 unstampedLine = TimeStep.parseFailed ∧
    (Write (dayCfg false true) dayLib jan1 unstampedLine (State.fresh [])).1
      = Outcome.ret 0 (some GoErr.invalid) ∧
    (Write (dayCfg false true) dayLib jan1 unstampedLine (State.fresh [])).2.sink.inited
      = false ∧
    (Write (dayCfg true true) dayLib jan1 unstampedLine (State.fresh [])).2.sink.inited
      = false ∧
    (Write (dayCfg true true) dayLib jan1 unstampedLine (State.fresh [])).2.sink.flushLoops
      = 0 ∧
    (run (dayCfg true true) dayLib (State.fresh [])
      [Op.write jan1 unstampedLine, Op.write jan1 stampedLine]).sink.flushLoops = 1 := by
  decide

/-- C13, amended: in every state reached from a fresh sink by `Write`,
`WriteString`, `Save` and `Init` calls at most one flush loop has been
launched; one has if and only if the sink is buffered, does not flush on each
write and is initialised; unbuffered or flushing on each write none ever is;
and the sink is initialised by `Init` and by every `Write` or `WriteString`
that passes the timestamp step. -/
theorem flush_loop_count {Time : Type} (cfg : Config) (tl : TimeLib Time)
    (oracle : List Resp) (ops : List (Op Time)) :
    (run cfg tl (State.fresh oracle) ops).sink.flushLoops ≤ 1 ∧
    ((run cfg tl (State.fresh oracle) ops).sink.flushLoops = 1 ↔
      cfg.EnableBufio = true ∧ cfg.SaveEach = false ∧
        (run cfg tl (State.fresh oracle) ops).sink.inited = true) ∧
    (cfg.EnableBufio = false ∨ cfg.SaveEach = true →
      (run cfg tl (State.fresh oracle) ops).sink.flushLoops = 0) ∧
    (∀ clock now p, timeOfData cfg tl clock p = TimeStep.at now →
      (Write cfg tl clock p (run cfg tl (State.fresh oracle) ops)).2.sink.inited = true) ∧
    (∀ clock now str, timeOfString cfg tl clock str = TimeStep.at now →
      (WriteString cfg tl clock str (run cfg tl (State.fresh oracle) ops)).2.sink.inited
        = true) ∧
    (∀ now, (Init cfg tl now (run cfg tl (State.fresh oracle) ops)).sink.inited = true) := by
  have hfresh : (State.fresh oracle).LoopOk cfg := by
    simp [State.LoopOk, State.fresh, Sink.fresh]
  have hrun := run_loopOk cfg tl ops _ hfresh
  generalize run cfg tl (State.fresh oracle) ops = st at hrun
  have hl : st.sink.flushLoops =
      if st.sink.inited = true ∧ cfg.EnableBufio = true ∧ cfg.SaveEach = false then 1 else 0 :=
    hrun
  refine ⟨?_, ?_, ?_, ?_, ?_, ?_⟩
  · rw [hl]; split <;> omega
  · rw [hl]
    constructor
    · intro h
      by_cases hc : st.sink.inited = true ∧ cfg.EnableBufio = true ∧ cfg.SaveEach = false
      · exact ⟨hc.2.1, hc.2.2, hc.1⟩
      · rw [if_neg hc] at h; omega
    · intro h
      rw [if_pos ⟨h.2.2, h.1, h.2.1⟩]
  · intro h
    rw [hl, if_neg]
    intro hc
    rcases h with h | h
    · rw [h] at hc; exact absurd hc.2.1 (by decide)
    · rw [h] at hc; exact absurd hc.2.2 (by decide)
  · intro clock now p ht
    simp only [Write, checkFileWithData, ht]
    rw [(writeTail_loops cfg _ _).2]
    exact (rotateData_loopOk cfg tl now _ st hrun).2
  · intro clock now str ht
    simp only [WriteString, checkFileWithString, ht, rotateString_eq, writeTailString_eq]
    rw [(writeTail_loops cfg _ _).2]
    exact (rotateData_loopOk cfg tl now _ st hrun).2
  · intro now
    exact (Init_frame cfg tl now st).2.2.2.2.2.2.2.1

theorem flush_loop_count_witness :
    (dayCfg true false).EnableBufio = true ∧ (dayCfg true false).SaveEach = false ∧
    (run (dayCfg true false) dayLib (State.fresh [])
      [Op.write jan1 sixty, Op.save, Op.init jan2, Op.write jan2 sixty]).sink.inited = true ∧
    (run (dayCfg true false) dayLib (State.fresh [])
      [Op.write jan1 sixty, Op.save, Op.init jan2, Op.write jan2 sixty]).sink.flushLoops = 1 :=
  ⟨by decide, by decide, by decide,
    (flush_loop_count (dayCfg true false) dayLib []
      [Op.write jan1 sixty, Op.save, Op.init jan2, Op.write jan2 sixty]).2.1.2
      ⟨by decide, by decide, by decide⟩⟩

theorem str_append_left_cancel (a b c : String) (h : a ++ b = a ++ c) : b = c := by
  have := congrArg String.data h
  simp only [String.data_append, List.append_cancel_left_eq] at this
  exact String.ext this

theorem str_append_right_cancel (a b c : String) (h : a ++ c = b ++ c) : a = b := by
  have := congrArg String.data h
  simp only [String.data_append, List.append_cancel_right_eq] at this
  exact String.ext this

/-- In one directory and at one index, different buckets have different
candidate paths. -/
theorem candidatePath_bucket_inj (dir b1 b2 : String) (idx : Int)
    (h : candidatePath dir b1 idx = candidatePath dir b2 idx) : b1 = b2 := by
  unfold candidatePath sprintfPath at h
  by_cases h0 : idx = 0
  · rw [if_pos h0, if_pos h0] at h
    exact str_append_left_cancel _ _ _ h
  · rw [if_neg h0, if_neg h0] at h
    exact str_append_left_cancel _ _ _
      (str_append_right_cancel _ _ _ (str_append_right_cancel _ _ _ h))

/-- The rotation index after the rotation check, whatever the I/O outcomes. -/
theorem rotateData_idx {Time : Type} (cfg : Config) (tl : TimeLib Time) (now : Time)
    (len : Nat) (st : State) :
    (rotateData cfg tl now len st).2.sink.currFileIdx =
      if st.sink.currfile ≠
          candidatePath (dirPath cfg tl now) (tl.format now cfg.FileFormat)
            st.sink.currFileIdx then 0
      else if cfg.MaxFileSize > 0 ∧ st.sink.currFileSize + (len : Int) > cfg.MaxFileSize then
        st.sink.currFileIdx + 1
      else st.sink.currFileIdx := by
  obtain ⟨-, -, -, -, a5, a6, a7, -, -⟩ := prepDir_frame cfg tl now st
  rw [rotateData_eq, a5, a6, a7]
  split
  · rw [(reopen_frame cfg _ _).2.2.2.1]
  · split
    · rw [(reopen_frame cfg _ _).2.2.2.1]
    · exact a6

theorem index_rule {Time : Type} (cfg : Config) (tl : TimeLib Time) (now : Time)
    (p : Bytes) (st : State) :
    IndexRule cfg (dirPath cfg tl now) (tl.format now cfg.FileFormat) st p.length
      (writeTail cfg p (rotateData cfg tl now p.length st).2) := by
  have hidx : (writeTail cfg p (rotateData cfg tl now p.length st).2).2.sink.currFileIdx
      = (rotateData cfg tl now p.length st).2.sink.currFileIdx :=
    (writeTail_frame cfg p _).2.2.2.2.1
  have hrot := rotateData_idx cfg tl now p.length st
  unfold IndexRule
  rw [hidx, hrot]
  refine ⟨?_, ?_, ?_, ?_, ?_⟩
  · intro h
    rw [if_pos h]
  · intro other hcur hne
    rw [if_pos]
    intro hc
    exact hne (candidatePath_bucket_inj _ _ _ _ (hc.symm.trans hcur))
  · intro h hs
    rw [if_neg (by simpa using h), if_pos hs]
  · intro h hs
    rw [if_neg (by simpa using h), if_neg hs]
  · intro h0
    constructor
    · intro h
      by_cases hc : st.sink.currfile = candidatePath (dirPath cfg tl now)
          (tl.format now cfg.FileFormat) st.sink.currFileIdx
      · rw [if_neg (by simpa using hc)] at h
        by_cases hs : cfg.MaxFileSize > 0 ∧
            st.sink.currFileSize + (p.length : Int) > cfg.MaxFileSize
        · exact ⟨hc, hs⟩
        · rw [if_neg hs] at h; omega
      · rw [if_pos hc] at h; omega
    · intro h
      rw [if_neg (by simpa using h.1), if_pos h.2]

/-- C14, counterexample: a directory per month and a file per day of the
month; after a size rollover on 2024-01-05 (index 1) a write on 2024-02-05 has
the bucket file name of the current file, `05`, and does not exceed the size
limit, yet the index goes from 1 to 0. -/
theorem directory_change_resets_index :
    afterJanRollover.sink.currfile = "logs/2024-01/05.0001" ∧
    afterJanRollover.sink.currFileIdx = 1 ∧
    monthDayLib.format jan5 monthCfg.FileFormat = "05" ∧
    monthDayLib.format feb5 monthCfg.FileFormat = "05" ∧
    ¬ (afterJanRollover.sink.currFileSize + (stampedLine.elems.length : Int)
        > monthCfg.MaxFileSize) ∧
    (Write monthCfg monthDayLib feb5 stampedLine afterJanRollover).2.sink.currFileIdx = 0 := by
  decide

/-- C14, amended: for every state and every `Write` or `WriteString` that
passes the timestamp step, the new rotation index is 0 when the candidate path
(the payload's directory and bucket file name with the old index) differs from
`currfile`, also when the size limit would be exceeded, and in particular when
the current file belongs to another bucket of the same directory; it is the
old index + 1 when the candidate is `currfile` and `MaxFileSize > 0` and
`currFileSize + len > MaxFileSize`, and for a non-negative index only then;
otherwise it is unchanged. -/
theorem rotation_index_rule {Time : Type} (cfg : Config) (tl : TimeLib Time)
    (clock now : Time) (p : GoSlice) (str : Bytes) (st : State) :
    (timeOfData cfg tl clock p = TimeStep.at now →
      IndexRule cfg (dirPath cfg tl now) (tl.format now cfg.FileFormat) st p.elems.length
        (Write cfg tl clock p st)) ∧
    (timeOfString cfg tl clock str = TimeStep.at now →
      IndexRule cfg (dirPath cfg tl now) (tl.format now cfg.FileFormat) st str.length
        (WriteString cfg tl clock str st)) := by
  constructor
  · intro ht
    simp only [Write, checkFileWithData, ht]
    exact index_rule cfg tl now p.elems st
  · intro ht
    simp only [WriteString, checkFileWithString, ht, rotateString_eq, writeTailString_eq]
    exact index_rule cfg tl now str st

theorem rotation_index_rule_witness :
    afterSixty.sink.currfile = candidatePath "logs/" "2024-01-01" afterSixty.sink.currFileIdx ∧
    afterSixty.sink.currFileIdx = 0 ∧
    (Write (dayCfg false false) dayLib jan2 sixty afterSixty).2.sink.currFileIdx = 0 ∧
    (Write (dayCfg false false) dayLib jan1 sixty afterSixty).2.sink.currFileIdx
      = afterSixty.sink.currFileIdx + 1 :=
  ⟨by decide, by decide,
    ((rotation_index_rule (dayCfg false false) dayLib jan2 jan2 sixty sixty.elems afterSixty).1
      (by decide)).2.1 "2024-01-01" (by decide) (by decide),
    ((rotation_index_rule (dayCfg false false) dayLib jan1 jan1 sixty sixty.elems afterSixty).1
      (by decide)).2.2.1 (by decide) (by decide)⟩

theorem take_min_length (k : Nat) (p : Bytes) : p.take (min k p.length) = p.take k := by
  by_cases h : k ≤ p.length
  · rw [Nat.min_eq_left h]
  · have h2 : p.length ≤ k := by omega
    rw [Nat.min_eq_right h2, List.take_of_length_le h2, List.take_of_length_le (Nat.le_refl _)]

theorem appendedAt_updateAt (w w1 : World) (h : Nat) (x : Bytes)
    (hh : w1.handles = updateAt (fun g => { g with appended := g.appended ++ x }) h w.handles)
    (hf : ∃ f, w.handles.get? h = some f) :
    w1.appendedAt h = w.appendedAt h ++ x ∧ ∀ j, j ≠ h → w1.appendedAt j = w.appendedAt j := by
  obtain ⟨f, hf⟩ := hf
  constructor
  · unfold World.appendedAt
    rw [hh, hf]
    simp only [List.get?_eq_getElem?] at hf ⊢
    rw [updateAt_getElem?, if_pos rfl, hf]
    rfl
  · intro j hj
    unfold World.appendedAt
    rw [hh]
    simp only [List.get?_eq_getElem?]
    rw [updateAt_getElem?, if_neg hj]

/-- Whatever the outcome, `f.Write(p)` appends the first `n` bytes of `p` to
the file, `n` being the count it returns, and touches no other file. -/
theorem fileWrite_appended (w : World) (h : Nat) (p : Bytes) :
    (fileWrite w h p).2.2.appendedAt h = w.appendedAt h ++ p.take (fileWrite w h p).1 ∧
    ∀ j, j ≠ h → (fileWrite w h p).2.2.appendedAt j = w.appendedAt j := by
  unfold fileWrite
  cases hg : w.handles.get? h with
  | none => simp
  | some f =>
    simp only []
    by_cases ho : f.isOpen = true
    · rw [if_pos ho]
      have hh := popResp_handles w
      rcases hp : popResp w with ⟨r, w1⟩
      rw [hp] at hh
      simp only [] at hh
      cases r with
      | ok =>
        simp only [List.take_length]
        have hw1 : World.appendedAt w1 = World.appendedAt w := by
          funext j; unfold World.appendedAt; rw [hh]
        have := appendedAt_updateAt w1
          { w1 with handles :=
              updateAt (fun g => { g with appended := g.appended ++ p }) h w1.handles } h p rfl
          ⟨f, by rw [hh]; exact hg⟩
        rw [hw1] at this
        exact this
      | fail k =>
        simp only [take_min_length]
        have hw1 : World.appendedAt w1 = World.appendedAt w := by
          funext j; unfold World.appendedAt; rw [hh]
        have := appendedAt_updateAt w1
          { w1 with handles :=
              updateAt (fun g => { g with appended := g.appended ++ p.take k }) h w1.handles }
          h (p.take k) rfl ⟨f, by rw [hh]; exact hg⟩
        rw [hw1] at this
        exact this
    · rw [if_neg ho]
      simp

/-- Whatever the outcome, `b.Flush()` moves bytes from the buffer to the file
and loses none. -/
theorem bufFlush_conserves (b : BufWriter) (w : World) :
    (bufFlush b w).2.appendedAt b.wr ++ (bufFlush b w).1.buf = w.appendedAt b.wr ++ b.buf ∧
    (bufFlush b w).1.wr = b.wr ∧
    ∀ j, j ≠ b.wr → (bufFlush b w).2.appendedAt j = w.appendedAt j := by
  unfold bufFlush
  split
  · exact ⟨rfl, rfl, fun _ _ => rfl⟩
  · split
    · exact ⟨rfl, rfl, fun _ _ => rfl⟩
    · obtain ⟨h1, h2⟩ := fileWrite_appended w b.wr b.buf
      have hle := fileWrite_le w b.wr b.buf
      rcases hfw : fileWrite w b.wr b.buf with ⟨n, e, w1⟩
      rw [hfw] at h1 h2 hle
      simp only [] at h1 h2 hle ⊢
      split
      · refine ⟨?_, by trivial, h2⟩
        simp only [h1, List.append_assoc, List.take_append_drop]
      · rename_i hs
        have hn : n = b.buf.length := by
          by_cases hlt : n < b.buf.length ∧ e = none
          · rw [if_pos hlt] at hs; cases hs
          · rw [if_neg hlt] at hs
            have : ¬ n < b.buf.length := fun h => hlt ⟨h, hs⟩
            omega
        refine ⟨?_, by trivial, h2⟩
        rw [h1, hn, List.take_length, List.append_nil]

/-- Whatever the outcomes, the loop of `b.Write(p)` loses no byte: it has
taken a prefix of `p`, of the length it counts, and that prefix follows the old
buffer in what has reached the file and what is buffered. -/
theorem bufWriteLoop_conserves (fuel : Nat) (b : BufWriter) (w : World) (p : Bytes)
    (nn : Nat) :
    ∃ m, m ≤ p.length ∧ (bufWriteLoop fuel b w p nn).2.2.2 = nn + m ∧
      (bufWriteLoop fuel b w p nn).2.2.1 = p.drop m ∧
      (bufWriteLoop fuel b w p nn).2.1.appendedAt b.wr ++ (bufWriteLoop fuel b w p nn).1.buf
        = w.appendedAt b.wr ++ b.buf ++ p.take m ∧
      (bufWriteLoop fuel b w p nn).1.wr = b.wr ∧
      ∀ j, j ≠ b.wr → (bufWriteLoop fuel b w p nn).2.1.appendedAt j = w.appendedAt j := by
  induction fuel generalizing b w p nn with
  | zero => exact ⟨0, Nat.zero_le _, rfl, rfl, by simp [bufWriteLoop], rfl, fun _ _ => rfl⟩
  | succ fuel ih =>
    by_cases hc : p.length > b.available ∧ b.err = none
    · by_cases hb : b.buf.length = 0
      · rw [bufWriteLoop_direct fuel b w p nn hc hb]
        obtain ⟨f1, f2⟩ := fileWrite_appended w b.wr p
        have hle := fileWrite_le w b.wr p
        generalize fileWrite w b.wr p = r at f1 f2 hle
        obtain ⟨n, e, w1⟩ := r
        simp only [] at f1 f2 hle ⊢
        obtain ⟨m, i1, i2, i3, i4, i5, i6⟩ := ih { b with err := e } w1 (p.drop n) (nn + n)
        simp only [List.length_drop] at i1
        refine ⟨n + m, by omega, by rw [i2]; omega, ?_, ?_, i5, ?_⟩
        · rw [i3, List.drop_drop]
        · rw [i4, f1, List.take_add]
          simp only [List.append_assoc]
          have hnil : b.buf = [] := by simpa using hb
          simp [hnil]
        · intro j hj
          rw [i6 j hj, f2 j hj]
      · rw [bufWriteLoop_fill fuel b w p nn hc hb]
        have hk : min b.available p.length ≤ p.length := Nat.min_le_right _ _
        generalize min b.available p.length = k at hk
        obtain ⟨c1, c2, c3⟩ := bufFlush_conserves { b with buf := b.buf ++ p.take k } w
        generalize bufFlush { b with buf := b.buf ++ p.take k } w = r at c1 c2 c3
        obtain ⟨b1, w1⟩ := r
        simp only [] at c1 c2 c3 ⊢
        obtain ⟨m, i1, i2, i3, i4, i5, i6⟩ := ih b1 w1 (p.drop k) (nn + k)
        simp only [List.length_drop] at i1
        rw [c2] at i4 i5 i6
        refine ⟨k + m, by omega, by rw [i2]; omega, ?_, ?_, i5, ?_⟩
        · rw [i3, List.drop_drop]
        · rw [i4, c1, List.take_add]
          simp only [List.append_assoc]
        · intro j hj
          rw [i6 j hj, c3 j hj]
    · rw [bufWriteLoop_stop _ _ _ _ _ hc]
      exact ⟨0, Nat.zero_le _, rfl, rfl, by simp, rfl, fun _ _ => rfl⟩

/-- Whatever the outcomes, `b.Write(p)` loses no byte: the first `n` bytes of
`p`, `n` being the count it returns, follow the old buffer in what has reached
the file and what is buffered. -/
theorem bufWrite_conserves (b : BufWriter) (w : World) (p : Bytes) :
    (bufWrite b w p).2.2.1 ≤ p.length ∧
    (bufWrite b w p).2.1.appendedAt b.wr ++ (bufWrite b w p).1.buf
      = w.appendedAt b.wr ++ b.buf ++ p.take (bufWrite b w p).2.2.1 ∧
    (bufWrite b w p).1.wr = b.wr ∧
    ∀ j, j ≠ b.wr → (bufWrite b w p).2.1.appendedAt j = w.appendedAt j := by
  obtain ⟨m, i1, i2, i3, i4, i5, i6⟩ := bufWriteLoop_conserves 2 b w p 0
  unfold bufWrite
  generalize bufWriteLoop 2 b w p 0 = r at i2 i3 i4 i5 i6
  obtain ⟨b1, w1, p1, nn⟩ := r
  simp only [Nat.zero_add] at i2 i3 i4 i5 i6 ⊢
  subst i2 i3
  cases he : b1.err with
  | some e => exact ⟨i1, i4, i5, i6⟩
  | none =>
    simp only [List.length_drop]
    have hlen : nn + (p.length - nn) = p.length := by omega
    refine ⟨by omega, ?_, i5, i6⟩
    rw [hlen, List.take_length, ← List.append_assoc, i4, List.append_assoc,
      List.append_assoc, List.take_append_drop]
    simp only [List.append_assoc]

theorem accepted_congr (cfg : Config) (st st1 : State)
    (h1 : st1.world.handles = st.world.handles) (h2 : st1.sink.logfile = st.sink.logfile)
    (h3 : st1.sink.filewriter = st.sink.filewriter) : st1.accepted cfg = st.accepted cfg := by
  unfold State.accepted World.appendedAt
  rw [h1, h2, h3]

/-- Whatever the outcomes, the write takes a prefix of `p` of the length it
returns and passes it to the current file. -/
theorem writeCore_accepted (cfg : Config) (p : Bytes) (st st1 : State) (n : Nat)
    (e : Option GoErr) (h : writeCore cfg p st = some (n, e, st1)) :
    n ≤ p.length ∧ st1.accepted cfg = st.accepted cfg ++ p.take n := by
  unfold writeCore at h
  unfold State.accepted
  cases hb : cfg.EnableBufio
  · rw [hb] at h
    simp only [Bool.false_eq_true, if_false] at h ⊢
    cases hl : st.sink.logfile with
    | none =>
      rw [hl] at h
      simp only [fileWriteNil, Option.some.injEq, Prod.mk.injEq] at h
      obtain ⟨h1, -, h3⟩ := h
      subst h1 h3
      simp [hl]
    | some f =>
      rw [hl] at h
      simp only [fileWriteNil, Option.some.injEq, Prod.mk.injEq] at h
      obtain ⟨h1, -, h3⟩ := h
      have hle := fileWrite_le st.world f p
      have ha := (fileWrite_appended st.world f p).1
      rw [h1] at hle ha
      subst h3
      simp only [hl]
      exact ⟨hle, ha⟩
  · rw [hb] at h
    simp only [if_true] at h ⊢
    cases hf : st.sink.filewriter with
    | none => rw [hf] at h; cases h
    | some b =>
      rw [hf] at h
      simp only [Option.some.injEq, Prod.mk.injEq] at h
      obtain ⟨h1, -, h3⟩ := h
      obtain ⟨c1, c2, c3, -⟩ := bufWrite_conserves b st.world p
      rw [h1] at c1 c2
      subst h3
      simp only [c3]
      exact ⟨c1, c2⟩

theorem save_accepted (cfg : Config) (st : State) :
    (save cfg st).accepted cfg = st.accepted cfg := by
  unfold save State.accepted
  cases hb : cfg.EnableBufio
  · simp only [Bool.false_eq_true, if_false]
    cases hl : st.sink.logfile with
    | none => simp [hl]
    | some h => simp [hl, syncFile, World.appendedAt]
  · simp only [if_true]
    cases hf : st.sink.filewriter with
    | none => simp [hf]
    | some b =>
      obtain ⟨c1, c2, -⟩ := bufFlush_conserves b st.world
      simp only [c2]
      exact c1

/-- Whatever the outcomes: a write that returns the count `n` has passed the
first `n` bytes of `p` to the current file and added `n` to `currFileSize`; a
write that panics has changed nothing. -/
theorem writeTail_accepted (cfg : Config) (p : Bytes) (st : State) :
    (∀ n e, (writeTail cfg p st).1 = Outcome.ret n e →
      n ≤ p.length ∧
      (writeTail cfg p st).2.accepted cfg = st.accepted cfg ++ p.take n ∧
      (writeTail cfg p st).2.sink.currFileSize = st.sink.currFileSize + (n : Int)) ∧
    (∀ x, (writeTail cfg p st).1 = Outcome.panic x → (writeTail cfg p st).2 = st) := by
  rw [writeTail_eq]
  cases hc : writeCore cfg p st with
  | none => exact ⟨fun n e h => (by cases h), fun _ _ => rfl⟩
  | some r =>
    obtain ⟨m, e0, st1⟩ := r
    obtain ⟨a1, a2⟩ := writeCore_accepted cfg p st st1 m e0 hc
    have hsz := (writeCore_some cfg p st st1 m e0 hc).1
    refine ⟨?_, fun x h => (by cases h)⟩
    intro n e h
    simp only [Outcome.ret.injEq] at h
    obtain ⟨h1, -⟩ := h
    subst h1
    have hacc : (⟨{ st1.sink with currFileSize := st1.sink.currFileSize + (m : Int) },
        st1.world⟩ : State).accepted cfg = st1.accepted cfg := accepted_congr cfg _ _ rfl rfl rfl
    cases hs : cfg.SaveEach
    · simp only [Bool.false_eq_true, if_false]
      exact ⟨a1, hacc.trans a2, by rw [hsz]⟩
    · simp only [if_true]
      refine ⟨a1, ?_, ?_⟩
      · rw [save_accepted, hacc, a2]
      · rw [(save_frame cfg _).2.2.2.2.2.1]
        simp only []
        rw [hsz]

theorem writeTail_paths (cfg : Config) (p : Bytes) (st : State) :
    (writeTail cfg p st).2.world.handles.map FileRec.path
      = st.world.handles.map FileRec.path := by
  rw [writeTail_eq]
  cases hc : writeCore cfg p st with
  | none => rfl
  | some r =>
    obtain ⟨m, e0, st1⟩ := r
    have hp := (writeCore_some cfg p st st1 m e0 hc).2.1
    cases hs : cfg.SaveEach
    · simp only [Bool.false_eq_true, if_false]; exact hp
    · simp only [if_true]
      rw [save_paths]; exact hp

/-- Whatever the outcome of the open, `newFile` leaves nothing accepted, and
the file it has opened, if any, is a fresh handle. -/
theorem newFile_accepted (cfg : Config) (path : String) (s : Sink) (w : World) :
    (newFile cfg path ⟨s, w⟩).2.accepted cfg = [] ∧
    (((newFile cfg path ⟨s, w⟩).2.sink.logfile = none ∧
        (newFile cfg path ⟨s, w⟩).2.sink.filewriter = none) ∨
      (newFile cfg path ⟨s, w⟩).2.sink.logfile = some w.handles.length) := by
  have hh := popResp_handles w
  unfold newFile openFile State.accepted
  rcases hp : popResp w with ⟨r, w2⟩
  rw [hp] at hh
  simp only [] at hh
  cases r with
  | ok =>
    have happ : World.appendedAt
        { w2 with handles := w2.handles ++ [⟨path, true, []⟩] } w2.handles.length = [] := by
      unfold World.appendedAt
      simp
    cases hb : cfg.EnableBufio
    · simp only [Bool.false_eq_true, if_false]
      exact ⟨happ, Or.inr (by rw [hh])⟩
    · simp only [if_true]
      refine ⟨?_, Or.inr (by rw [hh])⟩
      rw [happ]; rfl
  | fail k =>
    cases hb : cfg.EnableBufio
    · simp only [Bool.false_eq_true, if_false]
      refine ⟨?_, Or.inl ⟨?_, ?_⟩⟩ <;> first | rfl | trivial
    · simp only [if_true]
      refine ⟨?_, Or.inl ⟨?_, ?_⟩⟩ <;> first | rfl | trivial

theorem reopen_accepted (cfg : Config) (s : Sink) (w : World) :
    (reopen cfg s w).2.accepted cfg = [] ∧
    (((reopen cfg s w).2.sink.logfile = none ∧ (reopen cfg s w).2.sink.filewriter = none) ∨
      (reopen cfg s w).2.sink.logfile = some w.handles.length) := by
  have h := newFile_accepted cfg s.currfile s (closeLog s w)
  rw [closeLog_length] at h
  exact h

/-- A rotation leaves nothing accepted and `currFileSize` 0, whatever the
outcome of the open. -/
theorem rotateData_rotated {Time : Type} (cfg : Config) (tl : TimeLib Time) (now : Time)
    (len : Nat) (st : State) (h : rotates cfg tl (TimeStep.at now) len st = true) :
    (rotateData cfg tl now len st).2.accepted cfg = [] ∧
    (rotateData cfg tl now len st).2.sink.currFileSize = 0 := by
  obtain ⟨-, -, -, -, a5, a6, a7, -, -⟩ := prepDir_frame cfg tl now st
  simp only [rotates, Bool.or_eq_true, decide_eq_true_eq] at h
  rw [rotateData_eq, a5, a6, a7]
  by_cases hc : st.sink.currfile ≠ candidatePath (dirPath cfg tl now)
      (tl.format now cfg.FileFormat) st.sink.currFileIdx
  · rw [if_pos hc]
    exact ⟨(reopen_accepted cfg _ _).1, (reopen_frame cfg _ _).2.2.2.2.1⟩
  · rw [if_neg hc]
    have hs : cfg.MaxFileSize > 0 ∧ st.sink.currFileSize + (len : Int) > cfg.MaxFileSize := by
      rcases h with h | h
      · exact absurd h hc
      · exact h
    rw [if_pos hs]
    exact ⟨(reopen_accepted cfg _ _).1, (reopen_frame cfg _ _).2.2.2.2.1⟩

/-- Without a rotation the rotation check opens and closes nothing and leaves
`currFileSize` and what was accepted. -/
theorem rotateData_kept {Time : Type} (cfg : Config) (tl : TimeLib Time) (now : Time)
    (len : Nat) (st : State) (h : rotates cfg tl (TimeStep.at now) len st = false) :
    (rotateData cfg tl now len st).2.accepted cfg = st.accepted cfg ∧
    (rotateData cfg tl now len st).2.sink.currFileSize = st.sink.currFileSize ∧
    (rotateData cfg tl now len st).2.world.handles = st.world.handles := by
  obtain ⟨a1, a2, a3, -, a5, a6, a7, -, -⟩ := prepDir_frame cfg tl now st
  simp only [rotates, Bool.or_eq_false_iff, decide_eq_false_iff_not] at h
  rw [rotateData_eq, a5, a6, a7, if_neg h.1, if_neg h.2]
  exact ⟨accepted_congr cfg _ _ a1 a2 a3, a7, a1⟩

theorem rotateData_accounted {Time : Type} (cfg : Config) (tl : TimeLib Time) (now : Time)
    (len : Nat) (st : State) (h : st.Accounted cfg) :
    (rotateData cfg tl now len st).2.Accounted cfg := by
  unfold State.Accounted at h ⊢
  cases hr : rotates cfg tl (TimeStep.at now) len st
  · obtain ⟨k1, k2, -⟩ := rotateData_kept cfg tl now len st hr
    rw [k1, k2]; exact h
  · obtain ⟨k1, k2⟩ := rotateData_rotated cfg tl now len st hr
    rw [k1, k2]; rfl

theorem writeTail_accounted (cfg : Config) (p : Bytes) (st : State) (h : st.Accounted cfg) :
    (writeTail cfg p st).2.Accounted cfg := by
  obtain ⟨h1, h2⟩ := writeTail_accepted cfg p st
  cases ho : (writeTail cfg p st).1 with
  | ret n e =>
    obtain ⟨a1, a2, a3⟩ := h1 n e ho
    unfold State.Accounted at h ⊢
    rw [a2, a3, h, List.length_append, List.length_take, Nat.min_eq_left a1]
    push_cast; rfl
  | panic x => rw [h2 x ho]; exact h

theorem step_accounted {Time : Type} (cfg : Config) (tl : TimeLib Time) (st : State)
    (op : Op Time) (h : st.Accounted cfg) : (step cfg tl st op).Accounted cfg := by
  cases op with
  | write clock p =>
    simp only [step, Write, checkFileWithData]
    cases timeOfData cfg tl clock p with
    | panicked => exact h
    | parseFailed => exact writeTail_accounted cfg _ _ h
    | «at» now => exact writeTail_accounted cfg _ _ (rotateData_accounted cfg tl now _ st h)
  | writeString clock str =>
    simp only [step, WriteString, checkFileWithString, writeTailString_eq]
    cases timeOfString cfg tl clock str with
    | panicked => exact h
    | parseFailed => exact writeTail_accounted cfg _ _ h
    | «at» now =>
      rw [rotateString_eq]
      exact writeTail_accounted cfg _ _ (rotateData_accounted cfg tl now _ st h)
  | save =>
    unfold State.Accounted at h ⊢
    simp only [step, Save]
    rw [save_accepted, (save_frame cfg st).2.2.2.2.2.1]
    exact h
  | init now =>
    obtain ⟨c1, c2, c3, -, -, -, c7, -⟩ := Init_frame cfg tl now st
    unfold State.Accounted at h ⊢
    simp only [step]
    rw [accepted_congr cfg st _ c1 c2 c3, c7]
    exact h

theorem run_accounted {Time : Type} (cfg : Config) (tl : TimeLib Time) (ops : List (Op Time))
    (st : State) (h : st.Accounted cfg) : (run cfg tl st ops).Accounted cfg := by
  induction ops generalizing st with
  | nil => exact h
  | cons op ops ih => exact ih _ (step_accounted cfg tl st op h)

/-- The write after the rotation check counts from 0 after a rotation and from
the old `currFileSize` otherwise, and a new handle appears only by a rotation. -/
theorem counts_from {Time : Type} (cfg : Config) (tl : TimeLib Time) (now : Time)
    (p : Bytes) (st : State) :
    CountsFrom (rotates cfg tl (TimeStep.at now) p.length st) st
      (writeTail cfg p (rotateData cfg tl now p.length st).2) := by
  have hlen : (writeTail cfg p (rotateData cfg tl now p.length st).2).2.world.handles.length
      = (rotateData cfg tl now p.length st).2.world.handles.length := by
    have := congrArg List.length (writeTail_paths cfg p (rotateData cfg tl now p.length st).2)
    simpa using this
  constructor
  · intro n e h
    obtain ⟨-, -, a3⟩ := (writeTail_accepted cfg p _).1 n e h
    rw [a3]
    cases hr : rotates cfg tl (TimeStep.at now) p.length st
    · rw [(rotateData_kept cfg tl now p.length st hr).2.1]; rfl
    · rw [(rotateData_rotated cfg tl now p.length st hr).2]; rfl
  · intro hne
    cases hr : rotates cfg tl (TimeStep.at now) p.length st
    · exfalso
      apply hne
      rw [hlen, (rotateData_kept cfg tl now p.length st hr).2.2]
    · rfl

/-- The write without a rotation check (timestamp that does not parse) counts
from the old `currFileSize` and opens nothing. -/
theorem counts_from_unrotated (cfg : Config) (p : Bytes) (st : State) :
    CountsFrom false st (writeTail cfg p st) := by
  constructor
  · intro n e h
    obtain ⟨-, -, a3⟩ := (writeTail_accepted cfg p st).1 n e h
    rw [a3]; rfl
  · intro hne
    exfalso
    apply hne
    have := congrArg List.length (writeTail_paths cfg p st)
    simpa using this

/-- C11, counterexample: a write that rolls over by size and whose open fails
returns count 0, opens no file, and yet takes `currFileSize` from 60 to 0. -/
theorem failed_open_resets_size :
    beforeFailedRollover.sink.currFileSize = 60 ∧
    (Write (dayCfg false false) dayLib jan1 sixty beforeFailedRollover).1
      = Outcome.ret 0 (some GoErr.invalid) ∧
    (Write (dayCfg false false) dayLib jan1 sixty beforeFailedRollover).2.world.handles.length
      = beforeFailedRollover.world.handles.length ∧
    (Write (dayCfg false false) dayLib jan1 sixty beforeFailedRollover).2.sink.logfile = none ∧
    (Write (dayCfg false false) dayLib jan1 sixty beforeFailedRollover).2.sink.currFileSize
      = 0 := by
  decide

/-- C11, amended: in every state reached from a fresh sink under any script of
I/O outcomes `currFileSize` is the number of bytes the sink has passed to its
current file, directly or through the buffered writer, since it was opened (0
without a file); and from any state a `Write` or `WriteString` that returns
the count `n` leaves `currFileSize` at `n` added to 0 when the rotation check
rotated, whether or not the open succeeded, and to the old value otherwise; a
new file is opened only by a rotation. -/
theorem size_counts_accepted_bytes {Time : Type} (cfg : Config) (tl : TimeLib Time)
    (oracle : List Resp) (ops : List (Op Time)) (clock : Time) (p : GoSlice) (str : Bytes)
    (st : State) :
    (run cfg tl (State.fresh oracle) ops).sink.currFileSize
      = (((run cfg tl (State.fresh oracle) ops).accepted cfg).length : Int) ∧
    CountsFrom (rotates cfg tl (timeOfData cfg tl clock p) p.elems.length st) st
      (Write cfg tl clock p st) ∧
    CountsFrom (rotates cfg tl (timeOfString cfg tl clock str) str.length st) st
      (WriteString cfg tl clock str st) := by
  have hfresh : (State.fresh oracle).Accounted cfg := by
    unfold State.Accounted State.accepted
    cases cfg.EnableBufio <;> rfl
  have hpanic : CountsFrom false st (Outcome.panic Panic.sliceBounds, st) :=
    ⟨fun n e h => (by cases h), fun h => absurd rfl h⟩
  refine ⟨run_accounted cfg tl ops _ hfresh, ?_, ?_⟩
  · unfold Write checkFileWithData
    cases ht : timeOfData cfg tl clock p with
    | panicked => exact hpanic
    | parseFailed => exact counts_from_unrotated cfg p.elems st
    | «at» now => exact counts_from cfg tl now p.elems st
  · unfold WriteString checkFileWithString
    cases ht : timeOfString cfg tl clock str with
    | panicked => exact hpanic
    | parseFailed =>
      simp only [writeTailString_eq]
      exact counts_from_unrotated cfg str st
    | «at» now =>
      simp only [writeTailString_eq, rotateString_eq]
      exact counts_from cfg tl now str st

theorem size_counts_accepted_bytes_witness :
    (Write (dayCfg false false) dayLib jan1 sixty afterSixty).1 = Outcome.ret 60 none ∧
    rotates (dayCfg false false) dayLib (timeOfData (dayCfg false false) dayLib jan1 sixty)
      sixty.elems.length afterSixty = true ∧
    (Write (dayCfg false false) dayLib jan1 sixty afterSixty).2.sink.currFileSize
      = (if rotates (dayCfg false false) dayLib
            (timeOfData (dayCfg false false) dayLib jan1 sixty) sixty.elems.length afterSixty
          then 0 else afterSixty.sink.currFileSize) + ((60 : Nat) : Int) :=
  ⟨by decide, by decide,
    (size_counts_accepted_bytes (dayCfg false false) dayLib [] [] jan1 sixty sixty.elems
      afterSixty).2.1.1 60 none (by decide)⟩

theorem rotateData_rotated_handle {Time : Type} (cfg : Config) (tl : TimeLib Time) (now : Time)
    (len : Nat) (st : State) (h : rotates cfg tl (TimeStep.at now) len st = true) :
    ((rotateData cfg tl now len st).2.sink.logfile = none ∧
        (rotateData cfg tl now len st).2.sink.filewriter = none) ∨
      (rotateData cfg tl now len st).2.sink.logfile = some st.world.handles.length := by
  obtain ⟨a1, -, -, -, a5, a6, a7, -, -⟩ := prepDir_frame cfg tl now st
  simp only [rotates, Bool.or_eq_true, decide_eq_true_eq] at h
  rw [rotateData_eq, a5, a6, a7]
  by_cases hc : st.sink.currfile ≠ candidatePath (dirPath cfg tl now)
      (tl.format now cfg.FileFormat) st.sink.currFileIdx
  · rw [if_pos hc]
    have := (reopen_accepted cfg { (prepDir cfg tl now st).2.sink with
      currFileIdx := 0, currFileSize := 0,
      currfile := candidatePath (dirPath cfg tl now) (tl.format now cfg.FileFormat)
        st.sink.currFileIdx } (prepDir cfg tl now st).2.world).2
    rw [a1] at this
    exact this
  · rw [if_neg hc]
    have hs : cfg.MaxFileSize > 0 ∧ st.sink.currFileSize + (len : Int) > cfg.MaxFileSize := by
      rcases h with h | h
      · exact absurd h hc
      · exact h
    rw [if_pos hs]
    have := (reopen_accepted cfg { (prepDir cfg tl now st).2.sink with
      currFileIdx := st.sink.currFileIdx + 1, currFileSize := 0,
      currfile := sprintfPath (dirPath cfg tl now) (tl.format now cfg.FileFormat)
        (st.sink.currFileIdx + 1) } (prepDir cfg tl now st).2.world).2
    rw [a1] at this
    exact this

theorem written_whole {Time : Type} (cfg : Config) (tl : TimeLib Time) (now : Time)
    (p : Bytes) (st : State) (n : Nat) (hmax : cfg.MaxFileSize > 0)
    (hfile : st.sink.currfile =
      candidatePath (dirPath cfg tl now) (tl.format now cfg.FileFormat) st.sink.currFileIdx)
    (hsz : 0 ≤ st.sink.currFileSize) (hbig : (p.length : Int) > cfg.MaxFileSize)
    (hret : (writeTail cfg p (rotateData cfg tl now p.length st).2).1 = Outcome.ret n none) :
    WrittenWhole cfg (dirPath cfg tl now) (tl.format now cfg.FileFormat) st p
      (writeTail cfg p (rotateData cfg tl now p.length st).2) := by
  have hs : cfg.MaxFileSize > 0 ∧ st.sink.currFileSize + (p.length : Int) > cfg.MaxFileSize :=
    ⟨hmax, by omega⟩
  have hrot : rotates cfg tl (TimeStep.at now) p.length st = true := by
    simp only [rotates, Bool.or_eq_true, decide_eq_true_eq]
    exact Or.inr hs
  have hro := rolled_over cfg tl now p st n hfile hs hret
  obtain ⟨t1, -, -, t4⟩ := writeTail_ret cfg p _ n hret
  obtain ⟨-, a2, -⟩ := (writeTail_accepted cfg p _).1 n none hret
  refine ⟨hro, ?_, ?_, ?_⟩
  · rw [(writeTail_frame cfg p _).2.1]
    rcases rotateData_rotated_handle cfg tl now p.length st hrot with h | h
    · exact absurd h t4
    · exact h
  · rw [a2, (rotateData_rotated cfg tl now p.length st hrot).1, t1, List.take_length]
    rfl
  · rw [hro.2.2.2.1]
    exact hbig

/-- Whatever the outcome of the open, `newFile` opens nothing and leaves no
file, or opens `path` as a fresh handle. -/
theorem newFile_opened (cfg : Config) (path : String) (s : Sink) (w : World) :
    ((newFile cfg path ⟨s, w⟩).2.sink.logfile = none ∧
      (newFile cfg path ⟨s, w⟩).2.world.handles.map FileRec.path
        = w.handles.map FileRec.path) ∨
    ((newFile cfg path ⟨s, w⟩).2.sink.logfile = some w.handles.length ∧
      (newFile cfg path ⟨s, w⟩).2.world.handles.map FileRec.path
        = w.handles.map FileRec.path ++ [path]) := by
  have hh := popResp_handles w
  unfold newFile openFile
  rcases hp : popResp w with ⟨r, w2⟩
  rw [hp] at hh
  simp only [] at hh
  cases r with
  | ok =>
    right
    cases hb : cfg.EnableBufio
    · simp only [Bool.false_eq_true, if_false]
      refine ⟨by rw [hh], ?_⟩
      simp [hh]
    · simp only [if_true]
      refine ⟨by rw [hh], ?_⟩
      simp [hh]
  | fail k =>
    left
    refine ⟨rfl, ?_⟩
    simp only []
    rw [hh]

theorem reopen_opened (cfg : Config) (s : Sink) (w : World) :
    ((reopen cfg s w).2.sink.logfile = none ∧
      (reopen cfg s w).2.world.handles.map FileRec.path = w.handles.map FileRec.path) ∨
    ((reopen cfg s w).2.sink.logfile = some w.handles.length ∧
      (reopen cfg s w).2.world.handles.map FileRec.path
        = w.handles.map FileRec.path ++ [s.currfile]) := by
  have h := newFile_opened cfg s.currfile s (closeLog s w)
  rw [closeLog_length, closeLog_paths] at h
  exact h

/-- The size rollover, whatever the I/O outcomes: the next index, the path
with its suffix, `currFileSize` 0, and at most that one file opened. -/
theorem rotateData_size_any {Time : Type} (cfg : Config) (tl : TimeLib Time) (now : Time)
    (len : Nat) (st : State)
    (hfile : st.sink.currfile =
      candidatePath (dirPath cfg tl now) (tl.format now cfg.FileFormat) st.sink.currFileIdx)
    (hsize : cfg.MaxFileSize > 0 ∧ st.sink.currFileSize + (len : Int) > cfg.MaxFileSize) :
    (rotateData cfg tl now len st).2.sink.currFileIdx = st.sink.currFileIdx + 1 ∧
    (rotateData cfg tl now len st).2.sink.currfile
      = sprintfPath (dirPath cfg tl now) (tl.format now cfg.FileFormat)
          (st.sink.currFileIdx + 1) ∧
    (((rotateData cfg tl now len st).2.sink.logfile = none ∧
        (rotateData cfg tl now len st).2.world.handles.map FileRec.path
          = st.world.handles.map FileRec.path) ∨
      ((rotateData cfg tl now len st).2.sink.logfile = some st.world.handles.length ∧
        (rotateData cfg tl now len st).2.world.handles.map FileRec.path
          = st.world.handles.map FileRec.path ++
            [sprintfPath (dirPath cfg tl now) (tl.format now cfg.FileFormat)
              (st.sink.currFileIdx + 1)])) := by
  obtain ⟨a1, -, -, -, a5, a6, a7, -, -⟩ := prepDir_frame cfg tl now st
  have hrot : rotateData cfg tl now len st = reopen cfg
      { (prepDir cfg tl now st).2.sink with
          currFileIdx := st.sink.currFileIdx + 1, currFileSize := 0,
          currfile := sprintfPath (dirPath cfg tl now) (tl.format now cfg.FileFormat)
            (st.sink.currFileIdx + 1) }
      (prepDir cfg tl now st).2.world := by
    rw [rotateData_eq, a5, a6, a7, if_neg (by simpa using hfile), if_pos hsize]
  obtain ⟨-, -, r3, r4, -, -⟩ := reopen_frame cfg
    { (prepDir cfg tl now st).2.sink with
        currFileIdx := st.sink.currFileIdx + 1, currFileSize := 0,
        currfile := sprintfPath (dirPath cfg tl now) (tl.format now cfg.FileFormat)
          (st.sink.currFileIdx + 1) }
    (prepDir cfg tl now st).2.world
  have ho := reopen_opened cfg
    { (prepDir cfg tl now st).2.sink with
        currFileIdx := st.sink.currFileIdx + 1, currFileSize := 0,
        currfile := sprintfPath (dirPath cfg tl now) (tl.format now cfg.FileFormat)
          (st.sink.currFileIdx + 1) }
    (prepDir cfg tl now st).2.world
  rw [← hrot] at r3 r4 ho
  rw [a1] at ho
  simp only [] at r3 r4 ho
  exact ⟨r4, r3, ho⟩

theorem rotated_once {Time : Type} (cfg : Config) (tl : TimeLib Time) (now : Time)
    (p : Bytes) (st : State) (hmax : cfg.MaxFileSize > 0)
    (hfile : st.sink.currfile =
      candidatePath (dirPath cfg tl now) (tl.format now cfg.FileFormat) st.sink.currFileIdx)
    (hsz : 0 ≤ st.sink.currFileSize) (hbig : (p.length : Int) > cfg.MaxFileSize) :
    RotatedOnce cfg (dirPath cfg tl now) (tl.format now cfg.FileFormat) st p
      (writeTail cfg p (rotateData cfg tl now p.length st).2) := by
  have hs : cfg.MaxFileSize > 0 ∧ st.sink.currFileSize + (p.length : Int) > cfg.MaxFileSize :=
    ⟨hmax, by omega⟩
  have hrot : rotates cfg tl (TimeStep.at now) p.length st = true := by
    simp only [rotates, Bool.or_eq_true, decide_eq_true_eq]
    exact Or.inr hs
  obtain ⟨k1, k2, k3⟩ := rotateData_size_any cfg tl now p.length st hfile hs
  obtain ⟨-, f2, -, f4, f5, -⟩ := writeTail_frame cfg p (rotateData cfg tl now p.length st).2
  have fp := writeTail_paths cfg p (rotateData cfg tl now p.length st).2
  obtain ⟨z1, z2⟩ := rotateData_rotated cfg tl now p.length st hrot
  have hcf : (writeTail cfg p (rotateData cfg tl now p.length st).2).2.sink.currfile
      = dirPath cfg tl now ++ tl.format now cfg.FileFormat ++ "." ++
          fmt04d (st.sink.currFileIdx + 1) := by
    rw [f4, k2]; rfl
  refine ⟨f5.trans k1, hcf, ?_, ?_, ?_⟩
  · rcases k3 with ⟨h1, h2⟩ | ⟨h1, h2⟩
    · exact Or.inl ⟨f2.trans h1, fp.trans h2⟩
    · exact Or.inr ⟨f2.trans h1, by rw [fp, h2, f4, k2]⟩
  · intro n e h
    obtain ⟨a1, a2, a3⟩ := (writeTail_accepted cfg p _).1 n e h
    refine ⟨a1, ?_, ?_⟩
    · rw [a2, z1]; rfl
    · rw [a3, z2]; simp
  · intro n h
    exact written_whole cfg tl now p st n hmax hfile hsz hbig h

/-- C15, counterexample: three states whose current file is in the payload's
bucket and a payload of 101 bytes above `MaxFileSize = 100`.  In the state
with the stale suffix (index 0, `logs/2024-01-02.0001`) the write returns
`(101, nil)` and the index stays 0; after a change of directory with the same
bucket file name the index goes from 1 to 0, not to 2; and where the open of
the rollover fails the index goes to 1 but no file is opened. -/
theorem oversized_write_without_increment :
    (oversized.elems.length : Int) > (dayCfg false false).MaxFileSize ∧
    afterNextDay.sink.currfile = "logs/2024-01-02.0001" ∧
    afterNextDay.sink.currFileIdx = 0 ∧
    (Write (dayCfg false false) dayLib jan2 oversized afterNextDay).1
      = Outcome.ret 101 none ∧
    (Write (dayCfg false false) dayLib jan2 oversized afterNextDay).2.sink.currFileIdx = 0 ∧
    afterJanRollover.sink.currFileIdx = 1 ∧
    monthDayLib.format feb5 monthCfg.FileFormat = monthDayLib.format jan5 monthCfg.FileFormat ∧
    (Write monthCfg monthDayLib feb5 oversized afterJanRollover).1 = Outcome.ret 101 none ∧
    (Write monthCfg monthDayLib feb5 oversized afterJanRollover).2.sink.currFileIdx = 0 ∧
    beforeFailedRollover.sink.currfile = "logs/2024-01-01" ∧
    (Write (dayCfg false false) dayLib jan1 oversized beforeFailedRollover).2.sink.currFileIdx
      = 1 ∧
    (Write (dayCfg false false) dayLib jan1 oversized beforeFailedRollover).2.world.handles.length
      = beforeFailedRollover.world.handles.length := by
  decide

/-- C15, amended: with `MaxFileSize > 0`, `currFileSize >= 0` and `currfile`
the candidate path of the payload's directory, bucket file name and current
index, a `Write` or `WriteString` of a payload longer than `MaxFileSize`
performs one size rollover whatever the I/O outcomes: the index + 1, `currfile`
the path with the new suffix, and no file opened but that one (none if its
open fails); what the call counts as written is a prefix of the payload passed
to the new file alone; and when it returns without error the file is open, the
whole payload was passed to it, the count is `len` and
`currFileSize = len > MaxFileSize`. -/
theorem oversized_payload_not_split {Time : Type} (cfg : Config) (tl : TimeLib Time)
    (clock now : Time) (p : GoSlice) (str : Bytes) (st : State)
    (hmax : cfg.MaxFileSize > 0)
    (hfile : st.sink.currfile =
      candidatePath (dirPath cfg tl now) (tl.format now cfg.FileFormat) st.sink.currFileIdx)
    (hsz : 0 ≤ st.sink.currFileSize) :
    (timeOfData cfg tl clock p = TimeStep.at now →
      (p.elems.length : Int) > cfg.MaxFileSize →
      RotatedOnce cfg (dirPath cfg tl now) (tl.format now cfg.FileFormat) st p.elems
        (Write cfg tl clock p st)) ∧
    (timeOfString cfg tl clock str = TimeStep.at now →
      (str.length : Int) > cfg.MaxFileSize →
      RotatedOnce cfg (dirPath cfg tl now) (tl.format now cfg.FileFormat) st str
        (WriteString cfg tl clock str st)) := by
  constructor
  · intro ht hbig
    simp only [Write, checkFileWithData, ht]
    exact rotated_once cfg tl now p.elems st hmax hfile hsz hbig
  · intro ht hbig
    simp only [WriteString, checkFileWithString, ht, rotateString_eq, writeTailString_eq]
    exact rotated_once cfg tl now str st hmax hfile hsz hbig

theorem oversized_payload_not_split_witness :
    smallCfg.MaxFileSize > 0 ∧
    (sixty.elems.length : Int) > smallCfg.MaxFileSize ∧
    afterSmallLine.sink.currfile = "logs/2024-01-01" ∧
    afterSmallLine.sink.currFileIdx = 0 ∧
    (Write smallCfg dayLib jan1 sixty afterSmallLine).1 = Outcome.ret 60 none ∧
    RotatedOnce smallCfg "logs/" "2024-01-01" afterSmallLine sixty.elems
      (Write smallCfg dayLib jan1 sixty afterSmallLine) :=
  ⟨by decide, by decide, by decide, by decide, by decide,
    (oversized_payload_not_split smallCfg dayLib jan1 jan1 sixty sixty.elems afterSmallLine
      (by decide) (by decide) (by decide)).1 (by decide) (by decide)⟩

end LogFile
